import Mathlib

/-!
# storage/binlogsync: the binlog consume loop

A shallow embedding of `src/storage/binlogsync/sync.go`
(`Canal.startSyncBinlog`, `Canal.handleRowsEvent`).

The loop talks to collaborators that live outside `sync.go` (the replication
client, the handler registry, the table cache, the position store).  They are
fields of `Canal`: every collaborator call is appended to a call history
(`LoopState.trace`) and its result is read from a function of the history so
far, so a collaborator may answer differently on every call.  The event stream
is the finite list of answers that successive `GetEvent` calls return; the Go
loop is endless, so a run over a finite list ends either with an error (the
loop returned) or with `none` (the loop is still waiting for the next answer).
-/

namespace Binlogsync

/-! ## Data model -/

/-- Action constant `UpdateAction` of sync.go. -/
def UpdateAction : String := "update"

/-- Action constant `InsertAction` of sync.go. -/
def InsertAction : String := "insert"

/-- Action constant `DeleteAction` of sync.go. -/
def DeleteAction : String := "delete"

/-- Modelled from the spec: the type of `c.masterStatus` is declared outside
sync.go; the loop reads and writes its fields `File` and `Position` (a `uint`). -/
structure MasterStatus where
  File : String
  Position : Nat
deriving DecidableEq, Repr

/-- Position order of the spec: by file first (the lexical order of the names,
character by character), then by offset within a file. -/
def MasterStatus.le (a b : MasterStatus) : Prop :=
  a.File.data < b.File.data ∨ (a.File = b.File ∧ a.Position ≤ b.Position)

instance (a b : MasterStatus) : Decidable (MasterStatus.le a b) := by
  unfold MasterStatus.le
  exact inferInstance

/-- Error values.  `Wrap` is `errors.Wrap` and `errors.Wrapf`; `Fatal` and
`NotSupported` are `errors.NewFatalf` and `errors.NewNotSupportedf` (the message
is the format string, its arguments are not rendered); `DeadlineExceeded` is
`context.DeadlineExceeded`; `other` is any error value made by a collaborator. -/
inductive Err where
  | DeadlineExceeded
  | other (msg : String)
  | Fatal (msg : String)
  | NotSupported (msg : String)
  | Wrap (e : Err) (msg : String)
deriving DecidableEq, Repr

/-- Modelled from the spec: the event type byte of `myreplicator` (declared
outside sync.go).  The six constants named in `handleRowsEvent` are distinct
cases of one Go switch; every other value is `unlisted`. -/
inductive EventType where
  | WRITE_ROWS_EVENTv1
  | UPDATE_ROWS_EVENTv1
  | DELETE_ROWS_EVENTv1
  | WRITE_ROWS_EVENTv2
  | UPDATE_ROWS_EVENTv2
  | DELETE_ROWS_EVENTv2
  | unlisted (code : Nat)
deriving DecidableEq, Repr

/-- One row of a Rows event (`[]interface{}`), its values rendered as text. -/
abbrev Row := List String

/-- Modelled from the spec: `myreplicator.EventHeader` (declared outside sync.go);
`LogPos` is a `uint32`. -/
structure EventHeader where
  LogPos : Nat
  EventType : EventType
deriving DecidableEq, Repr

/-- Modelled from the spec: the dynamic type of `BinlogEvent.Event` (declared
outside sync.go): the four kinds named in the type switch of `startSyncBinlog`
and every other kind.  For a Rows event `Schema` and `Table` are
`ev.Table.Schema` and `ev.Table.Table`; `TableID` is a `uint64`. -/
inductive Event where
  | RotateEvent (NextLogName : String) (Position : Nat)
  | RowsEvent (TableID : Nat) (Schema : String) (Table : String) (Rows : List Row)
  | TableMapEvent
  | FormatDescriptionEvent
  | otherEvent (kind : String)
deriving DecidableEq, Repr

/-- Modelled from the spec: `myreplicator.BinlogEvent` (declared outside sync.go). -/
structure BinlogEvent where
  Header : EventHeader
  Event : Event
deriving DecidableEq, Repr

/-- The table handle returned by `FindTable` (a `*csdb.Table`); sync.go only
passes it on to the dispatcher. -/
structure Table where
  Schema : String
  Name : String
deriving DecidableEq, Repr

/-- One call made by the loop to a collaborator, with its arguments. -/
inductive Call where
  | StartSync (pos : MasterStatus)
  | flushEventHandlers
  | FindTable (id : Int) (table : String)
  | travelRowsEventHandler (a : String) (t : Table) (rows : List Row)
  | masterUpdate (file : String) (pos : Nat)
  | masterSave
deriving DecidableEq, Repr

/-- The receiver of sync.go with the collaborators the loop calls.  Each
collaborator result is a function of the calls made so far. -/
structure Canal where
  /-- Field `c.DSN.DBName`. -/
  DBName : String
  /-- Field `c.masterStatus` when `startSyncBinlog` is entered. -/
  masterStatus : MasterStatus
  /-- Result of `c.Log.IsInfo()`. -/
  IsInfo : Bool
  /-- Result of `c.Log.IsDebug()`. -/
  IsDebug : Bool
  /-- Error result of `c.syncer.StartSync(pos)`. -/
  StartSync : MasterStatus → Option Err
  /-- Error result of `c.flushEventHandlers(ctx)`. -/
  flushEventHandlers : List Call → Option Err
  /-- Result of `c.FindTable(ctx, id, table)`. -/
  FindTable : List Call → Int → String → Except Err Table
  /-- Error result of `c.travelRowsEventHandler(ctx, a, t, rows)`. -/
  travelRowsEventHandler : List Call → String → Table → List Row → Option Err
  /-- Error result of `c.masterSave()`. -/
  masterSave : List Call → Option Err

/-- The locals of the loop and what the loop has done so far. -/
structure LoopState where
  /-- Local `pos`. -/
  pos : MasterStatus
  /-- Local `timeout` (a `time.Duration`, nanoseconds in an int64). -/
  timeout : Int
  /-- Collaborator calls made, oldest first. -/
  trace : List Call
  /-- Messages handed to `c.Log`, oldest first. -/
  log : List String
  /-- The timeout of the context given to each `GetEvent` call, oldest first. -/
  waits : List Int
deriving DecidableEq, Repr

/-! ## Machine integers -/

/-- Constant `time.Second` in nanoseconds. -/
def Second : Int := 1000000000

/-- Conversion `uint(x)` on a 64-bit platform. -/
def uint (x : Nat) : Nat := x % 2 ^ 64

/-- Conversion `int(x)` of an unsigned value on a 64-bit platform. -/
def int (x : Nat) : Int :=
  if x % 2 ^ 64 < 2 ^ 63 then ((x % 2 ^ 64 : Nat) : Int) else ((x % 2 ^ 64 : Nat) : Int) - 2 ^ 64

/-- Wrap-around of int64 arithmetic. -/
def wrapInt64 (x : Int) : Int := (x + 2 ^ 63) % 2 ^ 64 - 2 ^ 63

/-! ## sync.go -/

/-- The switch on `e.Header.EventType` inside `handleRowsEvent` (sync.go lines
112 to 122): the action string, or `none` for the default case. -/
def rowsAction : EventType → Option String
  | .WRITE_ROWS_EVENTv1 | .WRITE_ROWS_EVENTv2 => some InsertAction
  | .DELETE_ROWS_EVENTv1 | .DELETE_ROWS_EVENTv2 => some DeleteAction
  | .UPDATE_ROWS_EVENTv1 | .UPDATE_ROWS_EVENTv2 => some UpdateAction
  | .unlisted _ => none

/-- Method `Canal.handleRowsEvent` (sync.go lines 91 to 124). -/
def handleRowsEvent (c : Canal) (st : LoopState) (e : BinlogEvent) : LoopState × Option Err :=
  match e.Event with
  | .RowsEvent tableID schema table rows =>
    if c.DBName ≠ schema then
      ({ st with log := st.log ++ (if c.IsDebug then ["[binlogsync] Skipping database"] else []) },
        none)
    else
      let st1 := { st with trace := st.trace ++ [Call.FindTable (int tableID) table] }
      match c.FindTable st.trace (int tableID) table with
      | .error err => (st1, some (.Wrap err "[binlogsync] GetTable %q.%q"))
      | .ok t =>
        match rowsAction e.Header.EventType with
        | none =>
          (st1, some (.NotSupported "[binlogsync] EventType %v not yet supported. Table %q.%q"))
        | some a =>
          ({ st1 with trace := st1.trace ++ [Call.travelRowsEventHandler a t rows] },
            c.travelRowsEventHandler st1.trace a t rows)
  | _ =>
    (st, some (.Fatal
      "[binlogsync] handleRowsEvent: Failed to cast to *myreplicator.RowsEvent type"))

/-- Lines 82 to 85 of sync.go: `c.masterUpdate(pos.File, pos.Position)`, then
`c.masterSave()`, whose error is logged and dropped; the loop goes on. -/
def masterUpdateSave (c : Canal) (st : LoopState) : LoopState × Option Err :=
  let tr1 := st.trace ++ [Call.masterUpdate st.pos.File st.pos.Position]
  ({ st with
      trace := tr1 ++ [Call.masterSave]
      log := st.log ++
        (match c.masterSave tr1 with
          | some _ => ["[binlogsync] startSyncBinlog: Failed to save master position"]
          | none => []) },
    none)

/-- One pass through the body of the `for` loop of `startSyncBinlog` (sync.go
lines 34 to 85) on the answer `r` of `GetEvent`.  The second component is
`some err` when the pass executes `return err` and `none` when the loop goes
round again. -/
def loopBody (c : Canal) (st : LoopState) (r : Except Err BinlogEvent) : LoopState × Option Err :=
  let st := { st with waits := st.waits ++ [2 * Second] }
  match r with
  | .error err =>
    if err = Err.DeadlineExceeded then
      ({ st with timeout := wrapInt64 (2 * st.timeout) }, none)
    else
      (st, some (.Wrap err "[binlogsync] startSyncBinlog.GetEvent"))
  | .ok ev =>
    let st := { st with
      timeout := Second
      pos := { st.pos with Position := uint ev.Header.LogPos } }
    match ev.Event with
    | .RotateEvent nextLogName position =>
      let st1 := { st with trace := st.trace ++ [Call.flushEventHandlers] }
      match c.flushEventHandlers st.trace with
      | some err => (st1, some (.Wrap err "[binlogsync] startSyncBinlog.flushEventHandlers"))
      | none =>
        let st2 := { st1 with pos := { File := nextLogName, Position := uint position } }
        masterUpdateSave c
          { st2 with log := st2.log ++
              (if c.IsInfo then ["[binlogsync] Rotate binlog to a new position"] else []) }
    | .RowsEvent _ _ _ _ =>
      match handleRowsEvent c st ev with
      | (st1, some err) =>
        ({ st1 with log := st1.log ++
              (if c.IsInfo then ["[binlogsync] Rotate binlog to a new position"] else []) },
          some (.Wrap err "[binlogsync] handleRowsEvent"))
      | (st1, none) => masterUpdateSave c st1
    | .TableMapEvent => (st, none)
    | .FormatDescriptionEvent => (st, none)
    | .otherEvent _ => masterUpdateSave c st

/-- The `for` loop of `startSyncBinlog` run on the answers of the stream. -/
def loop (c : Canal) (st : LoopState) : List (Except Err BinlogEvent) → LoopState × Option Err
  | [] => (st, none)
  | r :: rs =>
    match loopBody c st r with
    | (st1, some err) => (st1, some err)
    | (st1, none) => loop c st1 rs

/-- Method `Canal.startSyncBinlog` (sync.go lines 20 to 89). -/
def startSyncBinlog (c : Canal) (stream : List (Except Err BinlogEvent)) :
    LoopState × Option Err :=
  let pos := c.masterStatus
  let st : LoopState :=
    { pos := pos
      timeout := Second
      trace := [Call.StartSync pos]
      log := if c.IsInfo then ["[binlogsync] Start syncing of binlog"] else []
      waits := [] }
  match c.StartSync pos with
  | some _ => (st, some (.Fatal "[binlogsync] Start sync replication at %s error %v"))
  | none => loop c st stream

/-! ## Reading a call history -/

/-- The dispatcher invocations of a call history, oldest first. -/
def dispatched : List Call → List (String × Table × List Row)
  | [] => []
  | .travelRowsEventHandler a t rows :: cs => (a, t, rows) :: dispatched cs
  | _ :: cs => dispatched cs

/-- The positions passed to `masterUpdate` in a call history, oldest first. -/
def updates : List Call → List MasterStatus
  | [] => []
  | .masterUpdate file pos :: cs => { File := file, Position := pos } :: updates cs
  | _ :: cs => updates cs

/-- The number of `flushEventHandlers` calls of a call history. -/
def flushes : List Call → Nat
  | [] => 0
  | .flushEventHandlers :: cs => flushes cs + 1
  | _ :: cs => flushes cs

/-- The number of `masterSave` calls of a call history. -/
def saves : List Call → Nat
  | [] => 0
  | .masterSave :: cs => saves cs + 1
  | _ :: cs => saves cs

/-- Whether the newest call of a history is a `FindTable`. -/
def endsWithFindTable (tr : List Call) : Bool :=
  match tr.getLast? with
  | some (.FindTable _ _) => true
  | _ => false

/-- The run returned right after a table lookup, before any dispatch. -/
def stoppedBeforeDispatch (r : LoopState × Option Err) : Bool :=
  r.2.isSome && endsWithFindTable r.1.trace

/-- The answers of the stream that the run has taken: one per `GetEvent` call. -/
def consumed (stream : List (Except Err BinlogEvent)) (r : LoopState × Option Err) :
    List (Except Err BinlogEvent) :=
  stream.take r.1.waits.length

/-- The rows of the Rows events of `db` among the answers `rs`, in stream order. -/
def inScopeRows (db : String) : List (Except Err BinlogEvent) → List (List Row)
  | [] => []
  | .ok { Header := _, Event := .RowsEvent _ schema _ rows } :: rs =>
    if db = schema then rows :: inScopeRows db rs else inScopeRows db rs
  | _ :: rs => inScopeRows db rs

/-- The positions that the answers `rs` report, in stream order, starting in
log file `file`: a Rotate event reports its next file and its start offset, a
TableMap or FormatDescription event and a failed `GetEvent` report nothing,
every other event reports the current file and the end offset of its header. -/
def reportedPositions (file : String) : List (Except Err BinlogEvent) → List MasterStatus
  | [] => []
  | .error _ :: rs => reportedPositions file rs
  | .ok ev :: rs =>
    match ev.Event with
    | .RotateEvent nextLogName position =>
      { File := nextLogName, Position := position } :: reportedPositions nextLogName rs
    | .TableMapEvent => reportedPositions file rs
    | .FormatDescriptionEvent => reportedPositions file rs
    | _ => { File := file, Position := ev.Header.LogPos } :: reportedPositions file rs

/-- The offsets of an answer are in the range of their Go types: the end offset
of the header is a `uint32`, the start offset of a Rotate event a `uint64`. -/
def answerInRange : Except Err BinlogEvent → Bool
  | .error _ => true
  | .ok ev =>
    decide (ev.Header.LogPos < 2 ^ 32) &&
      (match ev.Event with
        | .RotateEvent _ position => decide (position < 2 ^ 64)
        | _ => true)

/-- The conversion `uint` keeps the offsets of an answer as they are. -/
def uintKeeps : Except Err BinlogEvent → Prop
  | .error _ => True
  | .ok ev =>
    uint ev.Header.LogPos = ev.Header.LogPos ∧
      (match ev.Event with
        | .RotateEvent _ position => uint position = position
        | _ => True)

/-- The answers of the stream that the run has handled to the end of the loop
body: the answers it has taken, without the last one when the run returned an
error (the loop returned on that answer). -/
def processed (stream : List (Except Err BinlogEvent)) (r : LoopState × Option Err) :
    List (Except Err BinlogEvent) :=
  if r.2.isSome then (consumed stream r).dropLast else consumed stream r

/-- The rows of the dispatcher invocations of a call history, oldest first. -/
def dispatchedRows (tr : List Call) : List (List Row) :=
  (dispatched tr).map (fun d => d.2.2)

/-- Two loop states agree on the local `pos`, on the calls made and on the log
(they may differ in the local `timeout` and in the recorded waits). -/
def sameProgress (a b : LoopState) : Prop :=
  a.pos = b.pos ∧ a.trace = b.trace ∧ a.log = b.log

/-- Two runs end alike: the same result and states that agree on `pos`, the
calls made and the log. -/
def sameRun (x y : LoopState × Option Err) : Prop :=
  x.2 = y.2 ∧ sameProgress x.1 y.1

/-! ## Example canals -/

/-- A canal tracking database `shop` whose collaborators all succeed. -/
def demoCanal : Canal :=
  { DBName := "shop"
    masterStatus := { File := "bin.000001", Position := 4 }
    IsInfo := false
    IsDebug := false
    StartSync := fun _ => none
    flushEventHandlers := fun _ => none
    FindTable := fun _ _ name => .ok { Schema := "shop", Name := name }
    travelRowsEventHandler := fun _ _ _ _ => none
    masterSave := fun _ => none }

/-- The state of `demoCanal` when the loop waits for its first answer. -/
def demoState : LoopState := (startSyncBinlog demoCanal []).1

/-- The canal `demoCanal` with a table cache that cannot resolve any table. -/
def lookupFailCanal : Canal :=
  { demoCanal with FindTable := fun _ _ _ => .error (.other "table not found") }

/-- The canal `demoCanal` with a handler that fails on every dispatch. -/
def dispatchFailCanal : Canal :=
  { demoCanal with travelRowsEventHandler := fun _ _ _ _ => some (.other "handler failed") }

/-- The canal `demoCanal` with handlers whose flush fails. -/
def flushFailCanal : Canal :=
  { demoCanal with flushEventHandlers := fun _ => some (.other "flush failed") }

/-- An event of a kind outside the type switch (a transaction commit). -/
def xidEvent (logPos : Nat) : Except Err BinlogEvent :=
  .ok { Header := { LogPos := logPos, EventType := .unlisted 16 }, Event := .otherEvent "XIDEvent" }

/-- A Rows event. -/
def rowsEvent (logPos : Nat) (ty : EventType) (schema table : String) (rows : List Row) :
    Except Err BinlogEvent :=
  .ok { Header := { LogPos := logPos, EventType := ty }, Event := .RowsEvent 7 schema table rows }

/-- A Rotate event. -/
def rotateEvent (logPos : Nat) (nextLogName : String) (position : Nat) :
    Except Err BinlogEvent :=
  .ok { Header := { LogPos := logPos, EventType := .unlisted 4 },
        Event := .RotateEvent nextLogName position }

/-- The canal `demoCanal` with a replication client that cannot start. -/
def startFailCanal : Canal :=
  { demoCanal with StartSync := fun _ => some (.other "connection refused") }

/-- The canal `demoCanal` with a position store that fails on every save. -/
def saveFailCanal : Canal :=
  { demoCanal with masterSave := fun _ => some (.other "disk full") }

/-- Two loop states agree on the active log file and on the calls made (they
may differ in the offset of the local `pos`, in the log, in the local `timeout`
and in the recorded waits). -/
def sameCalls (a b : LoopState) : Prop :=
  a.pos.File = b.pos.File ∧ a.trace = b.trace

/-- The local `timeout` after `n` answers `DeadlineExceeded` in a row. -/
def doubled (t : Int) : Nat → Int
  | 0 => t
  | n + 1 => wrapInt64 (2 * doubled t n)

end Binlogsync

/-! # config/path: collections of paths (`src/config/path/path_slice.go`) -/

namespace ConfigPath

/-- Modelled from the spec: the struct `Path` is declared outside
path_slice.go; `Contains` reads its fields `ID` (an int64), `Scope` (a scope
number) and `Sum32` (the uint32 hash of the route). -/
structure Path where
  ID : Int
  Scope : Nat
  Sum32 : Nat
deriving DecidableEq, Repr

/-- Type `PathSlice`, a slice of paths. -/
abbrev PathSlice := List Path

/-- Method `PathSlice.Contains` (path_slice.go lines 22 to 31).  The third
conjunct of the condition compares `pps.Sum32` with `pps.Sum32`, as the source
does. -/
def PathSlice.Contains : PathSlice → Path → Bool
  | [], _ => false
  | pps :: ps, p =>
    if pps.ID == p.ID && pps.Scope == p.Scope && pps.Sum32 == pps.Sum32 then true
    else PathSlice.Contains ps p

end ConfigPath

/-! # store: the store manager (`src/store/manager.go`, `src/store/service.go`) -/

namespace StorePkg

/-- Error values of package store: the variables declared in manager.go,
`ErrStoreNotActive` (declared elsewhere in the package), an error made by the
storage, `errgo.Mask` of an error and `log.Error` around an error. -/
inductive Err where
  | ErrUnsupportedScope
  | ErrStoreChangeNotAllowed
  | ErrAppStoreNotSet
  | ErrAppStoreSet
  | ErrHashRetrieverNil
  | ErrStoreNotActive
  | storage (msg : String)
  | Mask (e : Err)
  | logged (msg : String) (e : Err)
deriving DecidableEq, Repr

/-- Function `errgo.Mask` on an error result: nil stays nil. -/
def Mask (err : Option Err) : Option Err := err.map Err.Mask

/-- Modelled from the spec: a non-nil value of one of the interfaces
`scope.WebsiteIDer`, `scope.GroupIDer`, `scope.StoreIDer` (declared outside
src/).  `ID` is the int64 its ID method returns; `Code` is `some c` when the
dynamic type also implements the matching Coder interface and its code method
returns `c`. -/
structure IDer where
  ID : Int
  Code : Option String
deriving DecidableEq, Repr

/-- Modelled from the spec: the row `s.Data` of a store (declared outside
src/), with the fields manager.go reads. -/
structure TableStore where
  StoreID : Int
  Code : String
  WebsiteID : Int
  GroupID : Int
  IsActive : Bool
deriving DecidableEq, Repr

/-- Modelled from the spec: type `Website` (declared outside src/). -/
structure Website where
  WebsiteID : Int
  Code : String
deriving DecidableEq, Repr

/-- Modelled from the spec: type `Group` (declared outside src/). -/
structure Group where
  GroupID : Int
  WebsiteID : Int
deriving DecidableEq, Repr

/-- Modelled from the spec: type `Store` (declared outside src/): its data row
and the pointers to its website and group. -/
structure Store where
  Data : TableStore
  Website : Option Website
  Group : Option Group
deriving DecidableEq, Repr

/-- Modelled from the spec: the read methods of interface `Storager` (declared
outside src/).  Each returns a pointer or slice, nil as `none`, and an error. -/
structure Storager where
  Website : Option IDer → Option Website × Option Err
  Group : Option IDer → Option Group × Option Err
  Store : Option IDer → Option Store × Option Err
  Websites : Option (List StorePkg.Website) × Option Err
  Groups : Option (List StorePkg.Group) × Option Err
  Stores : Option (List StorePkg.Store) × Option Err
  DefaultStoreView : Option StorePkg.Store × Option Err

/-- One call to the storage. -/
inductive StorageCall where
  | Website (r : Option IDer)
  | Group (r : Option IDer)
  | Store (r : Option IDer)
  | Websites
  | Groups
  | Stores
  | DefaultStoreView
deriving DecidableEq, Repr

/-- A Go map with uint64 keys as an association list with distinct keys. -/
abbrev GoMap (α : Type) := List (Nat × α)

/-- Map read `m[key]` with the comma-ok flag. -/
def GoMap.get {α : Type} (m : GoMap α) (key : Nat) : Option α := List.lookup key m

/-- Map write `m[key] = v`. -/
def GoMap.set {α : Type} (m : GoMap α) (key : Nat) (v : α) : GoMap α :=
  (key, v) :: m.filter (fun kv => kv.1 != key)

/-- Struct `Manager` of manager.go: the storage, the three cache maps, the three
cached slices, `appStore` and `defaultStore`.  `storageLog` is not a field of
the source: it records the calls made to the storage, oldest first. -/
structure Manager where
  storage : Storager
  websiteMap : GoMap (Option Website)
  groupMap : GoMap (Option Group)
  storeMap : GoMap (Option Store)
  websites : Option (List Website)
  groups : Option (List Group)
  stores : Option (List Store)
  appStore : Option Store
  defaultStore : Option Store
  storageLog : List StorageCall

/-- Conversion `uint64(x)` of an int64. -/
def uint64 (x : Int) : Nat := (x % 2 ^ 64).toNat

/-- Function `hashCode` (manager.go lines 447 to 456, the same in service.go):
the loop over the bytes of `code`. -/
def hashCode (code : String) : Nat :=
  (code.toUTF8.data.toList.map UInt8.toNat).foldl
    (fun hash c => ((hash ^^^ c) * 1099511628211) % 2 ^ 64) 14695981039346656037

/-- Function `hash` (manager.go lines 418 to 445, the same in service.go). -/
def hash (wID gID sID : Option IDer) : Nat × Option Err :=
  if wID.isNone && gID.isNone && sID.isNone then (0, some .ErrHashRetrieverNil)
  else
    match wID with
    | some { ID := _, Code := some code } => (hashCode code, none)
    | some { ID := id, Code := none } => (uint64 id, none)
    | none =>
      match gID with
      | some g => (uint64 g.ID, none)
      | none =>
        match sID with
        | some { ID := _, Code := some code } => (hashCode code, none)
        | some { ID := id, Code := none } => (uint64 id, none)
        | none => (0, some .ErrHashRetrieverNil)

/-- Method `Manager.Website` (manager.go lines 220 to 250). -/
def Manager.Website (sm : Manager) (r : List (Option IDer)) :
    (Option Website × Option Err) × Manager :=
  let lr := r.length
  let notR := lr == 0 || (lr == 1 && (r.headD none).isNone) || lr > 1
  if notR && sm.appStore.isNone then ((none, some .ErrAppStoreNotSet), sm)
  else if notR && sm.appStore.isSome then ((sm.appStore.bind (fun s => s.Website), none), sm)
  else
    match hash (r.headD none) none none with
    | (_, some err) => ((none, some err), sm)
    | (key, none) =>
      match sm.websiteMap.get key with
      | some (some w) => ((some w, none), sm)
      | _ =>
        let res := sm.storage.Website (r.headD none)
        ((res.1, Mask res.2),
          { sm with
            websiteMap := sm.websiteMap.set key res.1
            storageLog := sm.storageLog ++ [.Website (r.headD none)] })

/-- Method `Manager.Group` (manager.go lines 263 to 292). -/
def Manager.Group (sm : Manager) (r : List (Option IDer)) :
    (Option Group × Option Err) × Manager :=
  let lr := r.length
  let notR := lr == 0 || (lr == 1 && (r.headD none).isNone) || lr > 1
  if notR && sm.appStore.isNone then ((none, some .ErrAppStoreNotSet), sm)
  else if notR && sm.appStore.isSome then ((sm.appStore.bind (fun s => s.Group), none), sm)
  else
    match hash none (r.headD none) none with
    | (_, some err) => ((none, some err), sm)
    | (key, none) =>
      match sm.groupMap.get key with
      | some (some g) => ((some g, none), sm)
      | _ =>
        let res := sm.storage.Group (r.headD none)
        ((res.1, Mask res.2),
          { sm with
            groupMap := sm.groupMap.set key res.1
            storageLog := sm.storageLog ++ [.Group (r.headD none)] })

/-- Method `Manager.Store` (manager.go lines 305 to 334). -/
def Manager.Store (sm : Manager) (r : List (Option IDer)) :
    (Option Store × Option Err) × Manager :=
  let lr := r.length
  let notR := lr == 0 || (lr == 1 && (r.headD none).isNone) || lr > 1
  if notR && sm.appStore.isNone then ((none, some .ErrAppStoreNotSet), sm)
  else if notR && sm.appStore.isSome then ((sm.appStore, none), sm)
  else
    match hash none none (r.headD none) with
    | (_, some err) => ((none, some err), sm)
    | (key, none) =>
      match sm.storeMap.get key with
      | some (some s) => ((some s, none), sm)
      | _ =>
        let res := sm.storage.Store (r.headD none)
        ((res.1, Mask res.2),
          { sm with
            storeMap := sm.storeMap.set key res.1
            storageLog := sm.storageLog ++ [.Store (r.headD none)] })

/-- Function `NewManager` of manager.go without options: empty maps, nil slices,
no `appStore` and no `defaultStore`. -/
def NewManager (storage : Storager) : Manager :=
  { storage := storage
    websiteMap := []
    groupMap := []
    storeMap := []
    websites := none
    groups := none
    stores := none
    appStore := none
    defaultStore := none
    storageLog := [] }

/-- Struct `Service` of service.go: the scope it is bound to, the storage, the
three cache maps, the three cached slices, `appStore` and `defaultStore`.
`storageLog` is not a field of the source: it records the calls made to the
storage, oldest first. -/
structure Service where
  boundToScope : Nat
  storage : Storager
  websiteMap : GoMap (Option Website)
  groupMap : GoMap (Option Group)
  storeMap : GoMap (Option Store)
  websites : Option (List Website)
  groups : Option (List Group)
  stores : Option (List Store)
  appStore : Option Store
  defaultStore : Option Store
  storageLog : List StorageCall

/-- Method `Service.Website` (service.go lines 264 to 291).  The result is
`none` when the call panics: `sm.appStore.Website` is read through a nil
`appStore`. -/
def Service.Website (sm : Service) (ids : List (Option IDer)) :
    Option ((Option Website × Option Err) × Service) :=
  let lIDs := ids.length
  let emptyIDs := lIDs == 0 || (lIDs == 1 && (ids.headD none).isNone) || lIDs > 1
  if emptyIDs then
    match sm.appStore with
    | none => none
    | some s => some ((s.Website, none), sm)
  else
    match hash (ids.headD none) none none with
    | (_, some err) => some ((none, some err), sm)
    | (key, none) =>
      match sm.websiteMap.get key with
      | some (some w) => some ((some w, none), sm)
      | _ =>
        let res := sm.storage.Website (ids.headD none)
        some ((res.1, Mask res.2),
          { sm with
            websiteMap := sm.websiteMap.set key res.1
            storageLog := sm.storageLog ++ [.Website (ids.headD none)] })

/-- Method `Service.Group` (service.go lines 304 to 330).  The result is `none`
when the call panics: `sm.appStore.Group` is read through a nil `appStore`. -/
def Service.Group (sm : Service) (ids : List (Option IDer)) :
    Option ((Option Group × Option Err) × Service) :=
  let lIDs := ids.length
  let emptyIDs := lIDs == 0 || (lIDs == 1 && (ids.headD none).isNone) || lIDs > 1
  if emptyIDs then
    match sm.appStore with
    | none => none
    | some s => some ((s.Group, none), sm)
  else
    match hash none (ids.headD none) none with
    | (_, some err) => some ((none, some err), sm)
    | (key, none) =>
      match sm.groupMap.get key with
      | some (some g) => some ((some g, none), sm)
      | _ =>
        let res := sm.storage.Group (ids.headD none)
        some ((res.1, Mask res.2),
          { sm with
            groupMap := sm.groupMap.set key res.1
            storageLog := sm.storageLog ++ [.Group (ids.headD none)] })

/-- Method `Service.Store` (service.go lines 343 to 369). -/
def Service.Store (sm : Service) (ids : List (Option IDer)) :
    (Option Store × Option Err) × Service :=
  let lIDs := ids.length
  let emptyIDs := lIDs == 0 || (lIDs == 1 && (ids.headD none).isNone) || lIDs > 1
  if emptyIDs then ((sm.appStore, none), sm)
  else
    match hash none none (ids.headD none) with
    | (_, some err) => ((none, some err), sm)
    | (key, none) =>
      match sm.storeMap.get key with
      | some (some s) => ((some s, none), sm)
      | _ =>
        let res := sm.storage.Store (ids.headD none)
        ((res.1, Mask res.2),
          { sm with
            storeMap := sm.storeMap.set key res.1
            storageLog := sm.storageLog ++ [.Store (ids.headD none)] })

/-- Modelled from the spec: type `scope.Scope` (declared outside src/): the
scope numbers named in manager.go and every other value. -/
inductive Scope where
  | DefaultID
  | WebsiteID
  | GroupID
  | StoreID
  | other (n : Nat)
deriving DecidableEq, Repr

/-- Modelled from the spec: struct `scope.Option` (declared outside src/): its
fields `Website`, `Group` and `Store` (nil as `none`), and in `Scope` the value
its method `Scope()` returns. -/
structure ScopeOption where
  Website : Option IDer
  Group : Option IDer
  Store : Option IDer
  Scope : Scope
deriving DecidableEq, Repr

/-- Modelled from the spec: the methods of `Group`, `Website` and `Store` that
manager.go calls and that are declared outside src/: `g.DefaultStore()`,
`w.DefaultStore()`, and the identifier a `*Store` is when it is passed as a
`scope.StoreIDer`. -/
structure Methods where
  GroupDefaultStore : Option Group → Option Store × Option Err
  WebsiteDefaultStore : Option Website → Option Store × Option Err
  StoreIDer : Option Store → Option IDer

/-- Method `Manager.FindDefaultStoreByScope` (manager.go lines 110 to 134). -/
def Manager.FindDefaultStoreByScope (md : Methods) (sm : Manager) (so : ScopeOption) :
    (Option StorePkg.Store × Option Err) × Manager :=
  match so.Scope with
  | .StoreID => sm.Store [so.Store]
  | .GroupID =>
    let r := sm.Group [so.Group]
    match r.1.2 with
    | some errG => ((none, some (.logged "store.Manager.Init.Group" errG)), r.2)
    | none => (md.GroupDefaultStore r.1.1, r.2)
  | .WebsiteID =>
    let r := sm.Website [so.Website]
    match r.1.2 with
    | some errW => ((none, some (.logged "store.Manager.Init.Website" errW)), r.2)
    | none => (md.WebsiteDefaultStore r.1.1, r.2)
  | _ => ((none, some .ErrUnsupportedScope), sm)

/-- Method `Manager.Init` (manager.go lines 136 to 152): the error returned and
the manager afterwards. -/
def Manager.Init (md : Methods) (sm : Manager) (so : ScopeOption) : Option Err × Manager :=
  if sm.appStore.isSome then (some .ErrAppStoreSet, sm)
  else
    let r := sm.FindDefaultStoreByScope md so
    let sm1 := { r.2 with appStore := r.1.1 }
    match r.1.2 with
    | some err => (some (.logged "store.Manager.Init" err), sm1)
    | none => (none, sm1)

/-- Method `Manager.activeStore` (manager.go lines 357 to 369).  The first
component is `none` when the call panics: `s.Data` is read through a nil `s`. -/
def Manager.activeStore (sm : Manager) (r : Option IDer) :
    Option (Option StorePkg.Store × Option Err) × Manager :=
  let res := sm.storage.Store r
  let sm1 := { sm with storageLog := sm.storageLog ++ [.Store r] }
  match res.2 with
  | some err => (some (none, some err), sm1)
  | none =>
    match res.1 with
    | none => (none, sm1)
    | some s =>
      if s.Data.IsActive then (some (some s, none), sm1)
      else (some (none, some .ErrStoreNotActive), sm1)

/-- Method `Manager.GetRequestStore` (manager.go lines 154 to 195).  The first
component is `none` when the call panics. -/
def Manager.GetRequestStore (md : Methods) (sm : Manager) (so : ScopeOption)
    (scopeType : Scope) : Option (Option StorePkg.Store × Option Err) × Manager :=
  if sm.appStore.isNone then (some (none, some .ErrAppStoreNotSet), sm)
  else
    let r := sm.FindDefaultStoreByScope md so
    match r.1.2 with
    | some err =>
      (some (none,
        some (.logged "store.Manager.GetRequestStore.FindDefaultStoreByScope" err)), r.2)
    | none =>
      let a := r.2.activeStore (md.StoreIDer r.1.1)
      match a.1 with
      | none => (none, a.2)
      | some (some activeStore, none) =>
        match a.2.appStore with
        | none =>
          match scopeType with
          | .StoreID => (some (some activeStore, none), a.2)
          | .GroupID => (none, a.2)
          | .WebsiteID => (none, a.2)
          | _ => (some (none, some .ErrStoreChangeNotAllowed), a.2)
        | some appStore =>
          let allowStoreChange : Bool :=
            match scopeType with
            | .StoreID => true
            | .GroupID => activeStore.Data.GroupID == appStore.Data.GroupID
            | .WebsiteID => activeStore.Data.WebsiteID == appStore.Data.WebsiteID
            | _ => false
          if allowStoreChange then (some (some activeStore, none), a.2)
          else (some (none, some .ErrStoreChangeNotAllowed), a.2)
      | some (_, err) => (some (none, err), a.2)

/-- Method `Manager.Websites` (manager.go lines 252 to 261). -/
def Manager.Websites (sm : Manager) : (Option (List StorePkg.Website) × Option Err) × Manager :=
  match sm.websites with
  | some ws => ((some ws, none), sm)
  | none =>
    let res := sm.storage.Websites
    (res, { sm with websites := res.1, storageLog := sm.storageLog ++ [.Websites] })

/-- Method `Manager.Groups` (manager.go lines 294 to 303). -/
def Manager.Groups (sm : Manager) : (Option (List StorePkg.Group) × Option Err) × Manager :=
  match sm.groups with
  | some gs => ((some gs, none), sm)
  | none =>
    let res := sm.storage.Groups
    (res, { sm with groups := res.1, storageLog := sm.storageLog ++ [.Groups] })

/-- Method `Manager.Stores` (manager.go lines 336 to 345). -/
def Manager.Stores (sm : Manager) : (Option (List StorePkg.Store) × Option Err) × Manager :=
  match sm.stores with
  | some ss => ((some ss, none), sm)
  | none =>
    let res := sm.storage.Stores
    (res, { sm with stores := res.1, storageLog := sm.storageLog ++ [.Stores] })

/-- Method `Manager.DefaultStoreView` (manager.go lines 347 to 355). -/
def Manager.DefaultStoreView (sm : Manager) : (Option StorePkg.Store × Option Err) × Manager :=
  match sm.defaultStore with
  | some s => ((some s, none), sm)
  | none =>
    let res := sm.storage.DefaultStoreView
    (res, { sm with defaultStore := res.1, storageLog := sm.storageLog ++ [.DefaultStoreView] })

/-- Method `Manager.HasSingleStore` (manager.go lines 209 to 218). -/
def Manager.HasSingleStore (sm : Manager) : Bool × Manager :=
  let r := sm.Stores
  match r.1.2 with
  | some _ => (false, r.2)
  | none => (decide ((r.1.1.getD []).length < 3), r.2)

/-- The loop `for k := range m (delete m k)` guarded by `len(m) > 0` of
`ClearCache`. -/
def GoMap.clear {α : Type} (m : GoMap α) : GoMap α :=
  if m.length > 0 then [] else m

/-- Method `Manager.ClearCache` (manager.go lines 381 to 410). -/
def Manager.ClearCache (sm : Manager) (clearAll : List Bool) : Manager :=
  { sm with
    websiteMap := sm.websiteMap.clear
    groupMap := sm.groupMap.clear
    storeMap := sm.storeMap.clear
    websites := none
    groups := none
    stores := none
    defaultStore := none
    appStore := if clearAll.length == 1 && clearAll.headD false then none else sm.appStore }

/-- Method `Manager.IsCacheEmpty` (manager.go lines 412 to 416). -/
def Manager.IsCacheEmpty (sm : Manager) : Bool :=
  sm.websiteMap.length == 0 && sm.groupMap.length == 0 && sm.storeMap.length == 0 &&
    sm.websites.isNone && sm.groups.isNone && sm.stores.isNone && sm.defaultStore.isNone

/-- A call of a method of the manager other than `ClearCache` and `ReInit`. -/
inductive Op where
  | Website (r : List (Option IDer))
  | Websites
  | Group (r : List (Option IDer))
  | Groups
  | Store (r : List (Option IDer))
  | Stores
  | DefaultStoreView
  | HasSingleStore
  | FindDefaultStoreByScope (so : ScopeOption)
  | Init (so : ScopeOption)
  | GetRequestStore (so : ScopeOption) (scopeType : Scope)
deriving DecidableEq, Repr

/-- The manager after the method call `op`. -/
def Manager.after (md : Methods) (sm : Manager) : Op → Manager
  | .Website r => (sm.Website r).2
  | .Websites => sm.Websites.2
  | .Group r => (sm.Group r).2
  | .Groups => sm.Groups.2
  | .Store r => (sm.Store r).2
  | .Stores => sm.Stores.2
  | .DefaultStoreView => sm.DefaultStoreView.2
  | .HasSingleStore => sm.HasSingleStore.2
  | .FindDefaultStoreByScope so => (sm.FindDefaultStoreByScope md so).2
  | .Init so => (sm.Init md so).2
  | .GetRequestStore so scopeType => (sm.GetRequestStore md so scopeType).2

/-- The manager after the method calls `ops`, made in order. -/
def Manager.afterAll (md : Methods) (sm : Manager) : List Op → Manager
  | [] => sm
  | op :: ops => Manager.afterAll md (sm.after md op) ops

/-- The 64-bit FNV-1a hash in the words of its definition: from the running
hash `h`, each byte is XORed in and the result is multiplied by the FNV prime
1099511628211 modulo 2^64. -/
def fnv1a64 : Nat → List Nat → Nat
  | h, [] => h
  | h, b :: bs => fnv1a64 (((h ^^^ b) * 1099511628211) % 2 ^ 64) bs

/-- What the caches of `a` hold stays in `b`: every non-nil store of the store
map, the cached store slice and the cached default store. -/
def Keeps (a b : Manager) : Prop :=
  (∀ key s, a.storeMap.get key = some (some s) → b.storeMap.get key = some (some s)) ∧
  (∀ ss, a.stores = some ss → b.stores = some ss) ∧
  (∀ d, a.defaultStore = some d → b.defaultStore = some d)

/-- The storage returns no store together with an error. -/
def Storager.NilOnError (st : Storager) : Prop :=
  ∀ r, (st.Store r).2 ≠ none → (st.Store r).1 = none

/-- The methods `DefaultStore` return no store together with an error. -/
def Methods.NilOnError (md : Methods) : Prop :=
  (∀ g, (md.GroupDefaultStore g).2 ≠ none → (md.GroupDefaultStore g).1 = none) ∧
  (∀ w, (md.WebsiteDefaultStore w).2 ≠ none → (md.WebsiteDefaultStore w).1 = none)

/-! ## Example data -/

/-- The website of the example storage. -/
def euroWebsite : Website := { WebsiteID := 1, Code := "euro" }

/-- The group of the example storage. -/
def dachGroup : Group := { GroupID := 1, WebsiteID := 1 }

/-- The active store view with the given ID and code of the example storage. -/
def storeView (id : Int) (code : String) : Store :=
  { Data := { StoreID := id, Code := code, WebsiteID := 1, GroupID := 1, IsActive := true }
    Website := some euroWebsite
    Group := some dachGroup }

/-- An example storage: it knows the store views 1 (de), 2 (at) and 3 (ch); a
store is looked up by its code when the identifier carries a non-empty code and
by its ID otherwise. -/
def demoStorage : Storager :=
  { Website := fun r =>
      match r with
      | some _ => (some euroWebsite, none)
      | none => (none, some (.storage "website not found"))
    Group := fun r =>
      match r with
      | some _ => (some dachGroup, none)
      | none => (none, some (.storage "group not found"))
    Store := fun r =>
      match r with
      | some { ID := id, Code := code } =>
        if code = some "de" ∨ ((code = none ∨ code = some "") ∧ id = 1) then
          (some (storeView 1 "de"), none)
        else if code = some "at" ∨ ((code = none ∨ code = some "") ∧ id = 2) then
          (some (storeView 2 "at"), none)
        else if code = some "ch" ∨ ((code = none ∨ code = some "") ∧ id = 3) then
          (some (storeView 3 "ch"), none)
        else (none, some (.storage "store not found"))
      | none => (none, some (.storage "store not found"))
    Websites := (some [euroWebsite], none)
    Groups := (some [dachGroup], none)
    Stores := (some [storeView 1 "de", storeView 2 "at", storeView 3 "ch"], none)
    DefaultStoreView := (some (storeView 1 "de"), none) }

/-- Example methods: the default store of every group and website is store
view 1, and a store is identified by its ID and its code. -/
def demoMethods : Methods :=
  { GroupDefaultStore := fun g =>
      match g with
      | some _ => (some (storeView 1 "de"), none)
      | none => (none, some (.storage "group has no default store"))
    WebsiteDefaultStore := fun w =>
      match w with
      | some _ => (some (storeView 1 "de"), none)
      | none => (none, some (.storage "website has no default store"))
    StoreIDer := fun s => s.map (fun x => { ID := x.Data.StoreID, Code := some x.Data.Code }) }

/-- A manager on the example storage whose `appStore` is store view 1. -/
def initialisedManager : Manager :=
  { NewManager demoStorage with appStore := some (storeView 1 "de") }

/-- A service on the example storage whose `appStore` is store view 1. -/
def initialisedService : Service :=
  { boundToScope := 2
    storage := demoStorage
    websiteMap := []
    groupMap := []
    storeMap := []
    websites := none
    groups := none
    stores := none
    appStore := some (storeView 1 "de")
    defaultStore := none
    storageLog := [] }

end StorePkg

/-! # storage/dbr: the INSERT builder (`src/storage/dbr/insert.go`) -/

namespace Dbr

/-- A query argument (an `interface{}` handed to the driver). -/
inductive Value where
  | null
  | int (n : Int)
  | str (s : String)
  | bool (b : Bool)
deriving DecidableEq, Repr

/-- Struct `Insert` of insert.go, without the embedded logger and database
handles: the table, the columns, the value rows, the records (each read as its
fields by name) and the map of column to value. -/
structure Insert where
  Into : String
  Cols : List String
  Vals : List (List Value)
  Recs : List (List (String × Value))
  Maps : List (String × Value)
deriving DecidableEq, Repr

/-- Method `Insert.Columns` (insert.go lines 46 to 50). -/
def Insert.Columns (b : Insert) (columns : List String) : Insert :=
  { b with Cols := columns }

/-- Error values of package `errors` as package dbr makes them: an Empty error
made by `NewEmptyf`, an error wrapped with a message by `Wrap`, and any other
error that a helper hands back. -/
inductive Err where
  | Empty (msg : String)
  | Wrap (cause : Err) (msg : String)
  | other (msg : String)
deriving DecidableEq, Repr

/-- Builtin `len` of a Go string: its number of bytes. -/
def len (s : String) : Nat := s.utf8ByteSize

/-- Type `alias` of package dbr, declared outside the files at hand; update.go
reads its field `Expression`. -/
structure TableAlias where
  Expression : String
  Alias : String
deriving DecidableEq, Repr

/-- Struct `expr` of update.go: a SQL fragment with placeholders and the
arguments to replace them with. -/
structure expr where
  SQL : String
  Values : List Value
deriving DecidableEq, Repr

/-- The dynamic value of a SET clause: a pointer to an `expr`, or a plain
argument. -/
inductive ClauseValue where
  | expr (e : Dbr.expr)
  | arg (v : Value)
deriving DecidableEq, Repr

/-- Struct `setClause` of update.go. -/
structure setClause where
  column : String
  value : ClauseValue
deriving DecidableEq, Repr

/-- Struct `Update` of update.go, without the embedded logger and database
handles.  Type `whereFragment` is declared outside the files at hand and is the
parameter `W`. -/
structure Update (W : Type) where
  RawFullSQL : String
  RawArguments : List Value
  Table : TableAlias
  SetClauses : List setClause
  WhereFragments : List W
  OrderBys : List String
  LimitCount : Nat
  LimitValid : Bool
  OffsetCount : Nat
  OffsetValid : Bool

/-- The functions and constants of package dbr that insert.go and update.go use
and that are declared outside the files at hand.  The writers append to the
buffer they are handed: `writeQuotedColumn` gives the text written for a column,
`QuoteAs` the quoted table, `argsValuer` the argument list after the in-place
conversion or its error, `valuesFor` the values of a record for the columns,
`driverValue` the outcome of `Value()` for an argument that is a
`driver.Valuer` and `none` for one that is not. -/
structure Helpers where
  errTableMissing : String
  errColumnsMissing : String
  errRecordsMissing : String
  writeQuotedColumn : String → String
  QuoteAs : TableAlias → String
  argsValuer : List Value → Except Err (List Value)
  valuesFor : List (String × Value) → List String → Except Err (List Value)
  driverValue : Value → Option (Except Err Value)

/-- Method `Update.Limit` (update.go lines 137 to 142). -/
def Update.Limit {W : Type} (b : Update W) (limit : Nat) : Update W :=
  { b with LimitCount := limit, LimitValid := true }

/-- Method `Update.Offset` (update.go lines 144 to 149). -/
def Update.Offset {W : Type} (b : Update W) (offset : Nat) : Update W :=
  { b with OffsetCount := offset, OffsetValid := true }

/-- The loop over the SET clauses (update.go lines 175 to 188), from index `i`
on, on the buffer and the arguments. -/
def writeSetClauses (h : Helpers) : Nat → List setClause → String × List Value → String × List Value
  | _, [], st => st
  | i, c :: cs, (buf, args) =>
    let buf1 := if i > 0 then buf ++ ", " else buf
    let buf2 := buf1 ++ h.writeQuotedColumn c.column
    match c.value with
    | .expr e => writeSetClauses h (i + 1) cs (buf2 ++ " = " ++ e.SQL, args ++ e.Values)
    | .arg v => writeSetClauses h (i + 1) cs (buf2 ++ " = ?", args ++ [v])

/-- The loop over the ORDER BY columns (update.go lines 199 to 204), from index
`i` on. -/
def writeOrderBys : Nat → List String → String → String
  | _, [], buf => buf
  | i, s :: ss, buf => writeOrderBys (i + 1) ss ((if i > 0 then buf ++ ", " else buf) ++ s)

/-- Function `strconv.FormatUint` in base 10. -/
def FormatUint (n : Nat) : String := toString n

/-- Method `Update.ToSQL` (update.go lines 153 to 218): the SQL text, the
arguments and the error.  `writeWhereFragmentsToSql` gives the text and the
arguments that the function of that name appends. -/
def Update.ToSQL {W : Type} (h : Helpers) (writeWhereFragmentsToSql : List W → String × List Value)
    (b : Update W) : String × List Value × Option Err :=
  if b.RawFullSQL ≠ "" then (b.RawFullSQL, b.RawArguments, none)
  else if len b.Table.Expression = 0 then
    ("", [], some (.Empty "[dbr] Update: Table is empty"))
  else if b.SetClauses.length = 0 then
    ("", [], some (.Empty "[dbr] Update: SetClauses are empty"))
  else
    let set := writeSetClauses h 0 b.SetClauses ("UPDATE " ++ h.QuoteAs b.Table ++ " SET ", [])
    let wh : String × List Value :=
      if b.WhereFragments.length > 0 then
        (set.1 ++ " WHERE " ++ (writeWhereFragmentsToSql b.WhereFragments).1,
          set.2 ++ (writeWhereFragmentsToSql b.WhereFragments).2)
      else set
    let ord := if b.OrderBys.length > 0 then writeOrderBys 0 b.OrderBys (wh.1 ++ " ORDER BY ") else wh.1
    let lim := if b.LimitValid then ord ++ " LIMIT " ++ FormatUint b.LimitCount else ord
    let off := if b.OffsetValid then lim ++ " OFFSET " ++ FormatUint b.OffsetCount else lim
    (off, wh.2, none)

/-- Method `Insert.Values` (insert.go lines 56 to 63); an error stands for the
panic. -/
def Insert.Values (h : Helpers) (b : Insert) (vals : List Value) : Except Err Insert :=
  match h.argsValuer vals with
  | .error err => .error err
  | .ok vals1 => .ok { b with Vals := b.Vals ++ [vals1] }

/-- The loop over the columns (insert.go lines 134 to 141 and 200 to 207), from
index `i` on, on the SQL buffer and the placeholder buffer. -/
def writeCols (h : Helpers) : Nat → List String → String × String → String × String
  | _, [], st => st
  | i, c :: cs, (buf, placeholder) =>
    let st : String × String := if i > 0 then (buf ++ ",", placeholder ++ ",") else (buf, placeholder)
    writeCols h (i + 1) cs (st.1 ++ h.writeQuotedColumn c, st.2 ++ "?")

/-- The loop over the value rows (insert.go lines 147 to 153), from index `i`
on. -/
def writeVals (placeholderStr : String) : Nat → List (List Value) → String × List Value → String × List Value
  | _, [], st => st
  | i, row :: rows, (buf, args) =>
    writeVals placeholderStr (i + 1) rows ((if i > 0 then buf ++ "," else buf) ++ placeholderStr, args ++ row)

/-- The loop over the records (insert.go lines 157 to 169), from index `i` on;
the error is the one of `valuesFor`, wrapped. -/
def writeRecs (h : Helpers) (cols : List String) (placeholderStr : String) (anyVals : Bool) :
    Nat → List (List (String × Value)) → String × List Value → Except Err (String × List Value)
  | _, [], st => .ok st
  | i, rec :: recs, (buf, args) =>
    let buf1 := (if i > 0 ∨ anyVals then buf ++ "," else buf) ++ placeholderStr
    match h.valuesFor rec cols with
    | .error err => .error (.Wrap err "[dbr] valuesFor")
    | .ok vals => writeRecs h cols placeholderStr anyVals (i + 1) recs (buf1, args ++ vals)

/-- The first loop of `MapToSql` (insert.go lines 182 to 194): the values of the
map in the order of the iteration, or the error of the first `Value()` that
fails.  The order of the list `Maps` stands for the order of the iteration. -/
def mapValues (h : Helpers) : List (String × Value) → Except Err (List Value)
  | [] => .ok []
  | (_, v) :: rest =>
    match h.driverValue v with
    | some (.error err) => .error err
    | some (.ok val) =>
      match mapValues h rest with
      | .error err => .error err
      | .ok vals => .ok (val :: vals)
    | none =>
      match mapValues h rest with
      | .error err => .error err
      | .ok vals => .ok (v :: vals)

/-- Method `Insert.MapToSql` (insert.go lines 177 to 215) on the buffer `w`. -/
def Insert.MapToSql (h : Helpers) (b : Insert) (w : String) : String × List Value × Option Err :=
  match mapValues h b.Maps with
  | .error err => ("", [], some (.Wrap err "[dbr] MapToSql -> driver.Valuer"))
  | .ok vals =>
    let st := writeCols h 0 (b.Maps.map (fun kv => kv.1)) (w, "(")
    (st.1 ++ ") VALUES " ++ (st.2 ++ ")"), vals, none)

/-- Method `Insert.ToSQL` (insert.go lines 102 to 172): the SQL text, the
arguments and the error. -/
def Insert.ToSQL (h : Helpers) (b : Insert) : String × List Value × Option Err :=
  if len b.Into = 0 then ("", [], some (.Empty h.errTableMissing))
  else if b.Cols.length = 0 ∧ b.Maps.length = 0 then ("", [], some (.Empty h.errColumnsMissing))
  else if b.Maps.length = 0 ∧ (b.Vals.length = 0 ∧ b.Recs.length = 0) then
    ("", [], some (.Empty h.errRecordsMissing))
  else if b.Maps.length = 0 ∧ (b.Cols.length = 0 ∧ (b.Vals.length > 0 ∨ b.Recs.length > 0)) then
    ("", [], some (.Empty h.errColumnsMissing))
  else
    let buf := "INSERT INTO " ++ b.Into ++ " ("
    if b.Maps.length ≠ 0 then b.MapToSql h buf
    else
      let st := writeCols h 0 b.Cols (buf, "(")
      let buf1 := st.1 ++ ") VALUES "
      let placeholderStr := st.2 ++ ")"
      let vs := writeVals placeholderStr 0 b.Vals (buf1, [])
      let anyVals : Bool := b.Vals.length > 0
      match writeRecs h b.Cols placeholderStr anyVals 0 b.Recs vs with
      | .error err => ("", [], some err)
      | .ok r => (r.1, r.2, none)

/-- An example of the helpers: columns and tables are quoted with brackets,
no argument is a `driver.Valuer`, a record gives the values of its fields. -/
def demoHelpers : Helpers :=
  { errTableMissing := "[dbr] Table is missing"
    errColumnsMissing := "[dbr] Columns are missing"
    errRecordsMissing := "[dbr] Records are missing"
    writeQuotedColumn := fun c => "[" ++ c ++ "]"
    QuoteAs := fun a => "[" ++ a.Expression ++ "]"
    argsValuer := fun vals => .ok vals
    valuesFor := fun rec cols => .ok (cols.map (fun c => ((rec.lookup c).getD .null)))
    driverValue := fun _ => none }

/-- An example: `UPDATE` built from a table, one SET clause and an ORDER BY. -/
def demoUpdate : Update Unit :=
  { RawFullSQL := "", RawArguments := [], Table := { Expression := "t", Alias := "" },
    SetClauses := [{ column := "a", value := .arg (.int 1) }], WhereFragments := [],
    OrderBys := ["id"], LimitCount := 0, LimitValid := false, OffsetCount := 7, OffsetValid := true }

/-- An example: an Update made from a full SQL text. -/
def rawUpdate : Update Unit :=
  { RawFullSQL := "UPDATE t SET a = 1", RawArguments := [], Table := { Expression := "", Alias := "" },
    SetClauses := [], WhereFragments := [], OrderBys := [], LimitCount := 0, LimitValid := false,
    OffsetCount := 0, OffsetValid := false }

/-- An example: an Insert of two rows into two columns. -/
def demoInsert : Insert :=
  { Into := "t", Cols := ["a", "b"], Vals := [[.int 1, .int 2], [.int 3, .null]], Recs := [], Maps := [] }

end Dbr

/-! # util/null: the nullable string (`src/util/null/string.go`) -/

namespace NullPkg

/-- A Go string or byte slice: a sequence of bytes, each below 256. -/
abbrev Bytes := List Nat

/-- Type `String` of package null: it embeds `sql.NullString`, whose fields are
`String` and `Valid`. -/
structure NullString where
  String : Bytes
  Valid : Bool
deriving DecidableEq, Repr

/-- Function `MakeString` (string.go lines 33 to 41). -/
def MakeString (s : Bytes) (valid : Bool) : NullString :=
  { String := s, Valid := valid }

/-- Function `StringFrom` (string.go lines 20 to 23). -/
def StringFrom (s : Bytes) : NullString := MakeString s true

/-- Method `String.MarshalText` (string.go lines 89 to 96): the bytes and the
error. -/
def NullString.MarshalText (s : NullString) : Bytes × Option Unit :=
  if !s.Valid then ([], none) else (s.String, none)

/-- Method `String.UnmarshalText` (string.go lines 98 to 104): the receiver
afterwards and the error. -/
def NullString.UnmarshalText (s : NullString) (text : Bytes) : NullString × Option Unit :=
  let s1 := { s with String := text }
  ({ s1 with Valid := !s1.String.isEmpty }, none)

/-- The value a receiver `t` holds after `t.UnmarshalText` of the bytes that
`s.MarshalText()` returned. -/
def textRoundTrip (t s : NullString) : NullString :=
  (t.UnmarshalText s.MarshalText.1).1

/-- Error values of string.go: an error of `encoding/json` and
`errors.NewNotValidf` (the message is the format string). -/
inductive Err where
  | json (msg : Bytes)
  | NotValid (msg : Bytes)
deriving DecidableEq, Repr

/-- What `json.Unmarshal(data, &v)` stores in `v`, an `interface{}`, by the
dynamic type the type switch of `UnmarshalJSON` tests: nil, a string, a
`map[string]interface{}`, or another value (a number, a boolean, an array). -/
inductive JSONValue where
  | null
  | string (x : Bytes)
  | object
  | number
  | bool (b : Bool)
  | array
deriving DecidableEq, Repr

/-- The functions of `encoding/json` that string.go calls: `json.Unmarshal` into
an `interface{}`, `json.Unmarshal` into the embedded `sql.NullString` (the
receiver afterwards and the error), and the text `json.Marshal` puts between
the quotes for a Go string. -/
structure JSONLib where
  unmarshal : Bytes → Except Err JSONValue
  unmarshalInto : Bytes → NullString → NullString × Option Err
  escape : Bytes → Bytes

/-- Function `json.Marshal` on a Go string: a JSON string literal. -/
def jsonMarshalString (lib : JSONLib) (s : Bytes) : Bytes :=
  [34] ++ lib.escape s ++ [34]

/-- Method `String.UnmarshalJSON` (string.go lines 56 to 78): the receiver
afterwards and the error. -/
def NullString.UnmarshalJSON (lib : JSONLib) (s : NullString) (data : Bytes) :
    NullString × Option Err :=
  match lib.unmarshal data with
  | .error err => (s, some err)
  | .ok v =>
    match v with
    | .string x => ({ s with String := x, Valid := true }, none)
    | .object =>
      let r := lib.unmarshalInto data s
      ({ r.1 with Valid := r.2.isNone }, r.2)
    | .null => ({ s with Valid := false }, none)
    | _ =>
      ({ s with Valid := false },
        some (.NotValid
          [91, 110, 117, 108, 108, 93, 32, 106, 115, 111, 110, 58, 32, 99, 97, 110, 110, 111,
           116, 32, 117, 110, 109, 97, 114, 115, 104, 97, 108]))

/-- The bytes of the text `null`. -/
def nullLiteral : Bytes := [110, 117, 108, 108]

/-- Method `String.MarshalJSON` (string.go lines 80 to 87). -/
def NullString.MarshalJSON (lib : JSONLib) (s : NullString) : Bytes × Option Err :=
  if !s.Valid then (nullLiteral, none) else (jsonMarshalString lib s.String, none)

/-- Function `strings.Split(s, sep)` for the separator that is one backtick. -/
def splitBacktick : Bytes → List Bytes
  | [] => [[]]
  | c :: cs =>
    if c = 96 then [] :: splitBacktick cs
    else
      match splitBacktick cs with
      | seg :: rest => (c :: seg) :: rest
      | [] => [[c]]

/-- Function `strings.Join`. -/
def join (parts : List Bytes) (sep : Bytes) : Bytes := List.intercalate sep parts

/-- The separator of `GoString`: a backtick, a plus, a quoted backtick, a plus
and a backtick. -/
def backtickJoin : Bytes := [96, 43, 34, 96, 34, 43, 96]

/-- The text `null.String` followed by an opening and a closing brace. -/
def nullStringLiteral : Bytes :=
  [110, 117, 108, 108, 46, 83, 116, 114, 105, 110, 103, 123, 125]

/-- The text `null.StringFrom(` followed by a backtick. -/
def stringFromOpen : Bytes :=
  [110, 117, 108, 108, 46, 83, 116, 114, 105, 110, 103, 70, 114, 111, 109, 40, 96]

/-- Method `String.GoString` (string.go lines 43 to 54). -/
def NullString.GoString (ns : NullString) : Bytes :=
  let ns1 : NullString :=
    if ns.Valid && ns.String.contains 96 then
      { ns with String := join (splitBacktick ns.String) backtickJoin }
    else ns
  if !ns1.Valid then nullStringLiteral
  else stringFromOpen ++ ns1.String ++ [96, 41]

/-- The text `s` with every backtick replaced by the separator of `GoString`. -/
def replaceBackticks : Bytes → Bytes
  | [] => []
  | c :: cs => if c = 96 then backtickJoin ++ replaceBackticks cs else c :: replaceBackticks cs

/-- A Go raw string literal read from behind its opening backtick: its value
(the bytes up to the closing backtick, carriage returns dropped) and the text
that follows the closing backtick. -/
def readRaw : Bytes → Option (Bytes × Bytes)
  | [] => none
  | c :: cs =>
    if c = 96 then some ([], cs)
    else (readRaw cs).map (fun r => (if c = 13 then r.1 else c :: r.1, r.2))

/-- A Go interpreted string literal without escapes read from behind its
opening quote: its value and the text that follows the closing quote. -/
def readQuoted : Bytes → Option (Bytes × Bytes)
  | [] => none
  | c :: cs =>
    if c = 34 then some ([], cs)
    else if c = 92 ∨ c = 10 then none
    else (readQuoted cs).map (fun r => (c :: r.1, r.2))

/-- A Go string literal: raw or interpreted. -/
def readLiteral : Bytes → Option (Bytes × Bytes)
  | 96 :: cs => readRaw cs
  | 34 :: cs => readQuoted cs
  | _ => none

/-- The value of a Go expression that concatenates string literals with `+`;
`fuel` bounds the number of literals. -/
def concatValue : Nat → Bytes → Option Bytes
  | 0, _ => none
  | fuel + 1, e =>
    match readLiteral e with
    | none => none
    | some (v, []) => some v
    | some (v, 43 :: rest) => (concatValue fuel rest).map (fun w => v ++ w)
    | some (_, _ :: _) => none

/-- The value of a Go expression that concatenates string literals. -/
def goValue (e : Bytes) : Option Bytes := concatValue (e.length + 1) e

/-- An example library: the JSON texts `null`, `"x"`, `1` and `[]`. -/
def demoJSON : JSONLib :=
  { unmarshal := fun data =>
      if data = [110, 117, 108, 108] then .ok .null
      else if data = [34, 120, 34] then .ok (.string [120])
      else if data = [49] then .ok .number
      else if data = [91, 93] then .ok .array
      else .error (.json [])
    unmarshalInto := fun _ s => (s, none)
    escape := fun s => s }

end NullPkg

/-! # util/log: the standard library logger (`src/util/log/stdLib.go`) -/

namespace LogPkg

/-- Constant `StdLevelFatal`. -/
def StdLevelFatal : Int := 1

/-- Constant `StdLevelInfo`. -/
def StdLevelInfo : Int := 2

/-- Constant `StdLevelDebug`. -/
def StdLevelDebug : Int := 3

/-- A `*std.Logger` as made by `std.New(out, prefix, flag)`: the writer (by
number), the text put before each entry and the flag. -/
structure Logger where
  out : Nat
  tag : String
  flag : Int
deriving DecidableEq, Repr

/-- Struct `StdLog` of stdLib.go; a nil sub logger is `none`. -/
structure StdLog where
  gw : Nat
  level : Int
  flag : Int
  noTrace : Bool
  debug : Option Logger
  info : Option Logger
  fatal : Option Logger
deriving DecidableEq, Repr

/-- The option functions of stdLib.go (lines 76 to 128), by name and argument. -/
inductive StdOption where
  | WithStdWriter (w : Nat)
  | WithStdFlag (f : Int)
  | WithStdLevel (level : Int)
  | WithStdDebug (out : Nat) (tag : String) (flag : Int)
  | WithStdInfo (out : Nat) (tag : String) (flag : Int)
  | WithStdFatal (out : Nat) (tag : String) (flag : Int)
  | SetStdDisableStackTrace
deriving DecidableEq, Repr

/-- Method `StdLog.SetLevel` (stdLib.go lines 185 to 188). -/
def StdLog.SetLevel (l : StdLog) (level : Int) : StdLog :=
  { l with level := level }

/-- What an option function does to the logger it is applied to. -/
def StdOption.apply : StdOption → StdLog → StdLog
  | .WithStdWriter w, l => { l with gw := w }
  | .WithStdFlag f, l => { l with flag := f }
  | .WithStdLevel level, l => l.SetLevel level
  | .WithStdDebug out tag flag, l => { l with debug := some { out := out, tag := tag, flag := flag } }
  | .WithStdInfo out tag flag, l => { l with info := some { out := out, tag := tag, flag := flag } }
  | .WithStdFatal out tag flag, l => { l with fatal := some { out := out, tag := tag, flag := flag } }
  | .SetStdDisableStackTrace, l => { l with noTrace := true }

/-- The writer `os.Stderr`, by number. -/
def Stderr : Nat := 2

/-- Constant `std.LstdFlags`. -/
def LstdFlags : Int := 3

/-- Function `NewStdLog` (stdLib.go lines 52 to 74). -/
def NewStdLog (opts : List StdOption) : StdLog :=
  let sl : StdLog :=
    opts.foldl (fun l o => o.apply l)
      { gw := Stderr, level := StdLevelInfo, flag := LstdFlags, noTrace := false,
        debug := none, info := none, fatal := none }
  let sl := if sl.debug.isNone then
    { sl with debug := some { out := sl.gw, tag := "DEBUG ", flag := sl.flag } } else sl
  let sl := if sl.info.isNone then
    { sl with info := some { out := sl.gw, tag := "INFO ", flag := sl.flag } } else sl
  if sl.fatal.isNone then
    { sl with fatal := some { out := sl.gw, tag := "FATAL ", flag := sl.flag } } else sl

/-- A log argument (an `interface{}`): its rendering by `fmt.Sprintf` with the
verb `%#v` when it is the operand itself, its rendering by that verb when it is
an element of a slice that is the operand (package fmt renders a pointer, for
one, differently inside a slice), its value when its dynamic type is string, and
the text of `Error()` when it implements error. -/
structure Arg where
  goSyntax : String
  goSyntaxElem : String
  str : Option String
  err : Option String
deriving DecidableEq, Repr

/-- Variable `AssignmentChar` at its initial value. -/
def AssignmentChar : String := ": "

/-- Variable `Separator` at its initial value. -/
def Separator : String := " "

/-- What `stdSetKV` (stdLib.go lines 208 to 221) writes to the buffer for a key
and a value whose `%#v` rendering is `goSyntax` and whose error text is `err`;
`stack` is what `getStackTrace()` returns. -/
def stdSetKV (stack : String) (key : String) (goSyntax : String) (err : Option String)
    (noTrace : Bool) : String :=
  Separator ++ key ++ AssignmentChar ++
    (match err with
      | some e => e ++ (if noTrace == false then "\n" ++ stack else "")
      | none => goSyntax)

/-- Function `badKeyAtIndex` (stdLib.go lines 254 to 256). -/
def badKeyAtIndex (i : Nat) : String := "BAD_KEY_AT_INDEX_" ++ toString i

/-- The loop over the pairs of `stdFormat` (stdLib.go lines 233 to 245), from
index `i` on. -/
def stdFormatPairs (stack : String) (noTrace : Bool) : Nat → List Arg → String
  | i, k :: v :: rest =>
    (match k.str with
      | some key =>
        if key = "" then stdSetKV stack (badKeyAtIndex i) v.goSyntax v.err noTrace
        else stdSetKV stack key v.goSyntax v.err noTrace
      | none => stdSetKV stack (badKeyAtIndex i) v.goSyntax v.err noTrace) ++
      stdFormatPairs stack noTrace (i + 2) rest
  | _, _ => ""

/-- The `%#v` rendering of a slice of arguments that is not nil: the type, then
the elements, each in its rendering as an element, in braces. -/
def sliceGoSyntax (args : List Arg) : String :=
  "[]interface \x7b\x7d\x7b" ++ ", ".intercalate (args.map (fun a => a.goSyntaxElem)) ++ "\x7d"

/-- Function `stdFormat` (stdLib.go lines 223 to 252). -/
def stdFormat (stack : String) (msg : String) (args : List Arg) (noTrace : Bool) : String :=
  let lenArgs := args.length
  msg ++
    (if lenArgs > 0 then
      if lenArgs == 1 then
        match args with
        | a :: _ => stdSetKV stack "_" a.goSyntax a.err noTrace
        | [] => ""
      else if lenArgs % 2 == 0 then stdFormatPairs stack noTrace 0 args
      else stdSetKV stack "FIX_IMBALANCED_PAIRS" (sliceGoSyntax args) none noTrace
    else "") ++ "\n"

/-- What a call of a log method did: the entries handed to sub loggers, oldest
first, and the panic value when the call panicked instead of returning. -/
structure LogResult where
  written : List (Logger × String)
  panic : Option String
deriving DecidableEq, Repr

/-- Method `Print` of a sub logger; a nil logger panics. -/
def printTo (lg : Option Logger) (text : String) : LogResult :=
  match lg with
  | some g => { written := [(g, text)], panic := none }
  | none => { written := [], panic := some "invalid memory address or nil pointer dereference" }

/-- Method `Panic` of a sub logger: the entry is written, then the call panics
with the text; a nil logger panics before writing. -/
def panicTo (lg : Option Logger) (text : String) : LogResult :=
  match lg with
  | some g => { written := [(g, text)], panic := some text }
  | none => { written := [], panic := some "invalid memory address or nil pointer dereference" }

/-- Method `StdLog.log` (stdLib.go lines 159 to 177). -/
def StdLog.log (l : StdLog) (stack : String) (level : Int) (msg : String) (args : List Arg) :
    LogResult :=
  if l.level ≥ level then
    if level = StdLevelDebug then printTo l.debug (stdFormat stack msg args l.noTrace)
    else if level = StdLevelInfo then printTo l.info (stdFormat stack msg args l.noTrace)
    else if level = StdLevelFatal then panicTo l.fatal (stdFormat stack msg args l.noTrace)
    else { written := [], panic := some "Unknown Log Level" }
  else { written := [], panic := none }

/-- Method `StdLog.Debug` (stdLib.go lines 144 to 147). -/
def StdLog.Debug (l : StdLog) (stack : String) (msg : String) (args : List Arg) : LogResult :=
  l.log stack StdLevelDebug msg args

/-- Method `StdLog.Info` (stdLib.go lines 149 to 152). -/
def StdLog.Info (l : StdLog) (stack : String) (msg : String) (args : List Arg) : LogResult :=
  l.log stack StdLevelInfo msg args

/-- Method `StdLog.Fatal` (stdLib.go lines 154 to 157). -/
def StdLog.Fatal (l : StdLog) (stack : String) (msg : String) (args : List Arg) : LogResult :=
  l.log stack StdLevelFatal msg args

/-- Method `StdLog.IsDebug` (stdLib.go line 180). -/
def StdLog.IsDebug (l : StdLog) : Bool := decide (l.level ≥ StdLevelDebug)

/-- Method `StdLog.IsInfo` (stdLib.go line 183). -/
def StdLog.IsInfo (l : StdLog) : Bool := decide (l.level ≥ StdLevelInfo)

/-- The key under which the pair whose key `k` stands at index `i` is rendered:
`k` itself when it is a non-empty string, `BAD_KEY_AT_INDEX_i` otherwise. -/
def pairKey (i : Nat) (k : Arg) : String :=
  match k.str with
  | some key => if key = "" then badKeyAtIndex i else key
  | none => badKeyAtIndex i

/-- The text of a value in an entry: for an error its `Error()` text, followed
by a newline and the stack trace unless `noTrace` is set; for every other value
its `%#v` rendering. -/
def valueText (stack : String) (v : Arg) (noTrace : Bool) : String :=
  match v.err with
  | some e => if noTrace then e else e ++ "\n" ++ stack
  | none => v.goSyntax

/-- The text of one entry: a blank, the key, a colon and a blank, the value. -/
def entryText (stack : String) (key : String) (v : Arg) (noTrace : Bool) : String :=
  " " ++ key ++ ": " ++ valueText stack v noTrace

/-- The rendering of an even number of arguments in the words of the claim: for
j = 0, 1, ... the entry of the pair of the arguments at the indexes 2j and 2j+1,
in order. -/
def renderPairs (stack : String) (noTrace : Bool) (args : List Arg) : String :=
  ((List.range (args.length / 2)).map (fun j =>
    match args.get? (2 * j), args.get? (2 * j + 1) with
    | some k, some v => entryText stack (pairKey (2 * j) k) v noTrace
    | _, _ => "")).foldr (fun a b => a ++ b) ""

/-- A log argument that is the string `s` (its `%#v` rendering is given). -/
def strArg (s goSyntax : String) : Arg :=
  { goSyntax := goSyntax, goSyntaxElem := goSyntax, str := some s, err := none }

/-- A log argument that is a number. -/
def natArg (n : Nat) : Arg :=
  { goSyntax := toString n, goSyntaxElem := toString n, str := none, err := none }

/-- A log argument that is a pointer to a struct: at top level `%#v` renders the
struct behind it, inside a slice the pointer. -/
def ptrArg : Arg :=
  { goSyntax := "&main.T\x7bA:1\x7d", goSyntaxElem := "(*main.T)(0xc000010000)",
    str := none, err := none }

/-- A log argument that is an error. -/
def errArg (text goSyntax : String) : Arg :=
  { goSyntax := goSyntax, goSyntaxElem := goSyntax, str := none, err := some text }

end LogPkg

/-! # Package csdb: the table structure -/

namespace Csdb

/-- Error values: the error of the function `LoadColumns`, and that error
wrapped by `errors.Wrapf` with its format and its argument. -/
inductive Err where
  | load (msg : String)
  | Wrapf (cause : Err) (format : String) (arg : String)
deriving DecidableEq, Repr

/-- The methods of type `Columns` that table.go calls.  Type `Column` and these
methods are declared outside the files at hand: `C` is the type of a column and
`Columns` is a list of them. -/
structure ColumnsMethods (C : Type) where
  PrimaryKeys : List C → List C
  UniqueKeys : List C → List C
  ColumnsNoPK : List C → List C
  FieldNames : List C → List String
  Len : List C → Int

/-- Struct `Table` of table.go (lines 25 to 41). -/
structure Table (C : Type) where
  Schema : String
  Name : String
  Columns : List C
  CountPK : Int
  CountUnique : Int
  fieldsPK : List String
  fieldsUNI : List String
  fields : List String
deriving DecidableEq, Repr

/-- Method `Table.update` (table.go lines 53 to 63). -/
def Table.update {C : Type} (m : ColumnsMethods C) (t : Table C) : Table C :=
  if t.Columns.length = 0 then t
  else
    { t with
      fieldsPK := m.FieldNames (m.PrimaryKeys t.Columns)
      fieldsUNI := m.FieldNames (m.UniqueKeys t.Columns)
      fields := m.FieldNames (m.ColumnsNoPK t.Columns)
      CountPK := m.Len (m.PrimaryKeys t.Columns)
      CountUnique := m.Len (m.UniqueKeys t.Columns) }

/-- Function `NewTable` (table.go lines 44 to 50). -/
def NewTable {C : Type} (m : ColumnsMethods C) (tableName : String) (cs : List C) : Table C :=
  Table.update m
    { Schema := "", Name := tableName, Columns := cs, CountPK := 0, CountUnique := 0,
      fieldsPK := [], fieldsUNI := [], fields := [] }

/-- Method `Table.LoadColumns` (table.go lines 66 to 70).  The package function
`LoadColumns` is declared outside the files at hand; `loadColumns` gives its
result for a table name. -/
def Table.LoadColumns {C : Type} (m : ColumnsMethods C)
    (loadColumns : String → List C × Option Err) (t : Table C) : Table C × Option Err :=
  (Table.update m { t with Columns := (loadColumns t.Name).1 },
    (loadColumns t.Name).2.map (fun err => Err.Wrapf err "[csdb] table.LoadColumns. Table %q" t.Name))

/-- The values that the cached fields have when they are calculated from the
columns of the table. -/
def Table.Calculated {C : Type} (m : ColumnsMethods C) (t : Table C) : Prop :=
  t.fieldsPK = m.FieldNames (m.PrimaryKeys t.Columns) ∧
  t.fieldsUNI = m.FieldNames (m.UniqueKeys t.Columns) ∧
  t.fields = m.FieldNames (m.ColumnsNoPK t.Columns) ∧
  t.CountPK = m.Len (m.PrimaryKeys t.Columns) ∧
  t.CountUnique = m.Len (m.UniqueKeys t.Columns)

/-- An example of a column: its field name and its key kind (`PRI`, `UNI` or
blank). -/
structure DemoColumn where
  Field : String
  Key : String
deriving DecidableEq, Repr

/-- An example of the methods of `Columns`, on the example columns. -/
def demoMethods : ColumnsMethods DemoColumn :=
  { PrimaryKeys := fun cs => cs.filter (fun c => c.Key == "PRI")
    UniqueKeys := fun cs => cs.filter (fun c => c.Key == "UNI")
    ColumnsNoPK := fun cs => cs.filter (fun c => c.Key != "PRI")
    FieldNames := fun cs => cs.map (fun c => c.Field)
    Len := fun cs => cs.length }

/-- An example: a table with a primary key, a unique key and a plain column. -/
def demoTable : Table DemoColumn :=
  NewTable demoMethods "t"
    [{ Field := "id", Key := "PRI" }, { Field := "sku", Key := "UNI" }, { Field := "name", Key := "" }]

/-- An example: the table after `LoadColumns` when the database gives no
columns. -/
def reloadedTable : Table DemoColumn :=
  (demoTable.LoadColumns demoMethods (fun _ => ([], none))).1

end Csdb

namespace Binlogsync

/-! ## General facts about the loop -/

theorem loop_nil (c : Canal) (st : LoopState) : loop c st [] = (st, none) := rfl

theorem loop_cons_stop (c : Canal) (st st1 : LoopState) (r : Except Err BinlogEvent)
    (rs : List (Except Err BinlogEvent)) (err : Err) (h : loopBody c st r = (st1, some err)) :
    loop c st (r :: rs) = (st1, some err) := by
  simp [loop, h]

theorem loop_cons_continue (c : Canal) (st st1 : LoopState) (r : Except Err BinlogEvent)
    (rs : List (Except Err BinlogEvent)) (h : loopBody c st r = (st1, none)) :
    loop c st (r :: rs) = loop c st1 rs := by
  simp [loop, h]

theorem loop_single (c : Canal) (st : LoopState) (r : Except Err BinlogEvent) :
    loop c st [r] = loopBody c st r := by
  rcases hb : loopBody c st r with ⟨st1, _ | err⟩
  · rw [loop_cons_continue c st st1 r [] hb, loop_nil]
  · rw [loop_cons_stop c st st1 r [] err hb]

theorem loop_append (c : Canal) (st st1 : LoopState) (pre rest : List (Except Err BinlogEvent))
    (h : loop c st pre = (st1, none)) : loop c st (pre ++ rest) = loop c st1 rest := by
  induction pre generalizing st with
  | nil =>
    rw [loop_nil] at h
    cases h
    rfl
  | cons r rs ih =>
    rcases hb : loopBody c st r with ⟨st2, _ | err⟩
    · rw [loop_cons_continue c st st2 r rs hb] at h
      rw [List.cons_append, loop_cons_continue c st st2 r (rs ++ rest) hb]
      exact ih st2 h
    · rw [loop_cons_stop c st st2 r rs err hb] at h
      cases h

theorem startSyncBinlog_append (c : Canal) (st : LoopState)
    (pre rest : List (Except Err BinlogEvent)) (h : startSyncBinlog c pre = (st, none)) :
    startSyncBinlog c (pre ++ rest) = loop c st rest := by
  simp only [startSyncBinlog] at h ⊢
  cases hs : c.StartSync c.masterStatus with
  | some e => simp [hs] at h
  | none =>
    simp only [hs] at h ⊢
    exact loop_append c _ st pre rest h

theorem startSyncBinlog_snoc (c : Canal) (st : LoopState)
    (pre : List (Except Err BinlogEvent)) (r : Except Err BinlogEvent)
    (h : startSyncBinlog c pre = (st, none)) :
    startSyncBinlog c (pre ++ [r]) = loopBody c st r := by
  rw [startSyncBinlog_append c st pre [r] h, loop_single]

/-! ## Reading the history of a grown trace -/

theorem dispatched_append (a b : List Call) :
    dispatched (a ++ b) = dispatched a ++ dispatched b := by
  induction a with
  | nil => rfl
  | cons x xs ih => cases x <;> simp [dispatched, ih]

theorem dispatchedRows_append (a b : List Call) :
    dispatchedRows (a ++ b) = dispatchedRows a ++ dispatchedRows b := by
  simp [dispatchedRows, dispatched_append]

theorem updates_append (a b : List Call) : updates (a ++ b) = updates a ++ updates b := by
  induction a with
  | nil => rfl
  | cons x xs ih => cases x <;> simp [updates, ih]

theorem flushes_append (a b : List Call) : flushes (a ++ b) = flushes a + flushes b := by
  induction a with
  | nil => simp [flushes]
  | cons x xs ih =>
    cases x
    all_goals
      simp [flushes, ih]
      try omega

theorem saves_append (a b : List Call) : saves (a ++ b) = saves a + saves b := by
  induction a with
  | nil => simp [saves]
  | cons x xs ih =>
    cases x
    all_goals
      simp [saves, ih]
      try omega

theorem endsWithFindTable_concat (tr : List Call) (x : Call) :
    endsWithFindTable (tr ++ [x]) = endsWithFindTable [x] := by
  simp [endsWithFindTable]

theorem inScopeRows_cons (db : String) (r : Except Err BinlogEvent)
    (rs : List (Except Err BinlogEvent)) :
    inScopeRows db (r :: rs) = inScopeRows db [r] ++ inScopeRows db rs := by
  rcases r with err | ⟨hdr, ev⟩
  · simp [inScopeRows]
  · cases ev <;> simp [inScopeRows]
    split <;> simp

/-- What one pass of the loop body adds to the dispatcher invocations. -/
theorem loopBody_dispatch (c : Canal) (st : LoopState) (r : Except Err BinlogEvent)
    (h : endsWithFindTable st.trace = false) :
    dispatchedRows (loopBody c st r).1.trace =
      dispatchedRows st.trace ++
        (if stoppedBeforeDispatch (loopBody c st r) then [] else inScopeRows c.DBName [r]) ∧
    (stoppedBeforeDispatch (loopBody c st r) = true → inScopeRows c.DBName [r] ≠ []) ∧
    ((loopBody c st r).2 = none → endsWithFindTable (loopBody c st r).1.trace = false) ∧
    (loopBody c st r).1.waits.length = st.waits.length + 1 := by
  rcases r with err | ⟨hdr, ev⟩
  · by_cases he : err = Err.DeadlineExceeded <;>
      simp [loopBody, he, stoppedBeforeDispatch, h, inScopeRows]
  · cases ev with
    | RotateEvent n p =>
      cases hf : c.flushEventHandlers st.trace <;>
        simp [loopBody, hf, masterUpdateSave, stoppedBeforeDispatch, inScopeRows,
          dispatched_append, endsWithFindTable, dispatchedRows, dispatched]
    | RowsEvent id schema table rows =>
      by_cases hs : c.DBName = schema
      · subst hs
        cases hft : c.FindTable st.trace (int id) table with
        | error e =>
          simp [loopBody, handleRowsEvent, hft, masterUpdateSave, stoppedBeforeDispatch,
            inScopeRows, dispatched_append, endsWithFindTable, dispatchedRows, dispatched]
        | ok t =>
          cases ha : rowsAction hdr.EventType with
          | none =>
            simp [loopBody, handleRowsEvent, hft, ha, masterUpdateSave, stoppedBeforeDispatch,
              inScopeRows, dispatched_append, endsWithFindTable, dispatchedRows, dispatched]
          | some a =>
            cases hd : c.travelRowsEventHandler
                (st.trace ++ [Call.FindTable (int id) table]) a t rows <;>
              simp [loopBody, handleRowsEvent, hft, ha, hd, masterUpdateSave,
                stoppedBeforeDispatch, inScopeRows, dispatched_append, endsWithFindTable,
                dispatchedRows, dispatched]
      · simp [loopBody, handleRowsEvent, hs, masterUpdateSave, stoppedBeforeDispatch,
          inScopeRows, dispatched_append, endsWithFindTable, dispatchedRows, dispatched]
    | TableMapEvent => simp [loopBody, stoppedBeforeDispatch, h, inScopeRows]
    | FormatDescriptionEvent => simp [loopBody, stoppedBeforeDispatch, h, inScopeRows]
    | otherEvent k =>
      simp [loopBody, masterUpdateSave, stoppedBeforeDispatch, inScopeRows,
        dispatched_append, endsWithFindTable, dispatchedRows, dispatched]

theorem inScopeRows_single_dropLast (db : String) (r : Except Err BinlogEvent) :
    (inScopeRows db [r]).dropLast = [] := by
  rcases r with err | ⟨hdr, ev⟩
  · simp [inScopeRows]
  · cases ev <;> simp [inScopeRows]
    split <;> simp

/-- The table lookup of `handleRowsEvent` leaves the locals of the loop alone. -/
theorem handleRowsEvent_locals (c : Canal) (st : LoopState) (e : BinlogEvent) :
    (handleRowsEvent c st e).1.waits = st.waits ∧
    (handleRowsEvent c st e).1.pos = st.pos ∧
    (handleRowsEvent c st e).1.timeout = st.timeout := by
  unfold handleRowsEvent
  split
  · split
    · simp
    · split
      · simp
      · split <;> simp
  · simp

/-- Every pass of the loop body makes one `GetEvent` call, with a wait of two seconds. -/
theorem loopBody_waits (c : Canal) (st : LoopState) (r : Except Err BinlogEvent) :
    (loopBody c st r).1.waits = st.waits ++ [2 * Second] := by
  rcases r with err | ⟨hdr, ev⟩
  · by_cases he : err = Err.DeadlineExceeded <;> simp [loopBody, he]
  · cases ev with
    | RotateEvent n p =>
      cases hf : c.flushEventHandlers st.trace <;> simp [loopBody, hf, masterUpdateSave]
    | RowsEvent id schema table rows =>
      simp only [loopBody]
      split
      all_goals
        rename_i heq
        have hw := congrArg (fun x => x.1.waits) heq
        simp only [(handleRowsEvent_locals c _ _).1] at hw
        simp [masterUpdateSave, ← hw]
    | TableMapEvent => simp [loopBody]
    | FormatDescriptionEvent => simp [loopBody]
    | otherEvent k => simp [loopBody, masterUpdateSave]

theorem loop_waits_le (c : Canal) (st : LoopState) (s : List (Except Err BinlogEvent)) :
    st.waits.length ≤ (loop c st s).1.waits.length := by
  induction s generalizing st with
  | nil => simp [loop]
  | cons r rs ih =>
    have hw := loopBody_waits c st r
    rcases hb : loopBody c st r with ⟨st1, _ | err⟩
    · rw [loop_cons_continue c st st1 r rs hb]
      rw [hb] at hw
      have := ih st1
      simp only at hw
      rw [hw] at this
      simp at this
      omega
    · rw [loop_cons_stop c st st1 r rs err hb]
      rw [hb] at hw
      simp only at hw
      simp [hw]

/-- The dispatcher invocations of a run of the loop, against the Rows events of
the tracked database among the answers it took. -/
theorem loop_dispatch (c : Canal) (st : LoopState) (s : List (Except Err BinlogEvent))
    (h : endsWithFindTable st.trace = false) :
    dispatchedRows (loop c st s).1.trace =
      dispatchedRows st.trace ++
        (if stoppedBeforeDispatch (loop c st s) then
          (inScopeRows c.DBName
            (s.take ((loop c st s).1.waits.length - st.waits.length))).dropLast
        else
          inScopeRows c.DBName (s.take ((loop c st s).1.waits.length - st.waits.length))) ∧
    (stoppedBeforeDispatch (loop c st s) = true →
      inScopeRows c.DBName (s.take ((loop c st s).1.waits.length - st.waits.length)) ≠ []) := by
  induction s generalizing st with
  | nil => simp [loop, stoppedBeforeDispatch, inScopeRows]
  | cons r rs ih =>
    obtain ⟨h1, h2, h3, h4⟩ := loopBody_dispatch c st r h
    rcases hb : loopBody c st r with ⟨st1, _ | err⟩
    · rw [hb] at h1 h2 h3 h4
      simp only [stoppedBeforeDispatch, Option.isSome_none, Bool.false_and, Bool.false_eq_true,
        if_false] at h1
      simp only [forall_const] at h3
      simp only at h4
      rw [loop_cons_continue c st st1 r rs hb]
      obtain ⟨ih1, ih2⟩ := ih st1 h3
      have hle := loop_waits_le c st1 rs
      have hn : (loop c st1 rs).1.waits.length - st.waits.length =
          ((loop c st1 rs).1.waits.length - st1.waits.length) + 1 := by omega
      rw [hn, List.take_succ_cons, inScopeRows_cons]
      constructor
      · rw [ih1, h1]
        by_cases hR : stoppedBeforeDispatch (loop c st1 rs) = true
        · simp only [hR, if_true]
          rw [List.dropLast_append_of_ne_nil _ (ih2 hR), List.append_assoc]
        · simp only [hR, if_false, List.append_assoc]
          simp
      · intro hR
        simp [ih2 hR]
    · rw [hb] at h1 h2 h3 h4
      simp only at h4
      rw [loop_cons_stop c st st1 r rs err hb]
      have hn : st1.waits.length - st.waits.length = 1 := by omega
      simp only [hn, List.take_succ_cons, List.take_zero]
      constructor
      · rw [h1]
        by_cases hR : stoppedBeforeDispatch (st1, some err) = true
        · simp [hR, inScopeRows_single_dropLast]
        · simp [hR]
      · exact h2

theorem handleRowsEvent_updates (c : Canal) (st : LoopState) (e : BinlogEvent) :
    updates (handleRowsEvent c st e).1.trace = updates st.trace := by
  unfold handleRowsEvent
  split
  · split
    · simp
    · split
      · simp [updates_append, updates]
      · split <;> simp [updates_append, updates]
  · simp

/-- What one pass of the loop body adds to the positions passed to `masterUpdate`. -/
theorem loopBody_updates (c : Canal) (st : LoopState) (r : Except Err BinlogEvent)
    (rs : List (Except Err BinlogEvent)) (hr : uintKeeps r) :
    ((loopBody c st r).2 = none →
      updates st.trace ++ reportedPositions st.pos.File (r :: rs) =
        updates (loopBody c st r).1.trace ++
          reportedPositions (loopBody c st r).1.pos.File rs) ∧
    ((loopBody c st r).2 ≠ none → updates (loopBody c st r).1.trace = updates st.trace) := by
  rcases r with err | ⟨hdr, ev⟩
  · by_cases he : err = Err.DeadlineExceeded <;> simp [loopBody, he, reportedPositions]
  · have hl : uint hdr.LogPos = hdr.LogPos := hr.1
    cases ev with
    | RotateEvent n p =>
      have hq : uint p = p := hr.2
      cases hf : c.flushEventHandlers st.trace <;>
        simp [loopBody, hf, masterUpdateSave, reportedPositions, updates_append, updates, hq]
    | RowsEvent id schema table rows =>
      simp only [loopBody]
      split
      all_goals
        rename_i heq
        have hu := congrArg (fun x => updates x.1.trace) heq
        have hp := congrArg (fun x => x.1.pos) heq
        simp only [handleRowsEvent_updates, (handleRowsEvent_locals c _ _).2.1] at hu hp
        simp [masterUpdateSave, reportedPositions, updates_append, updates, ← hu, ← hp, hl]
    | TableMapEvent => simp [loopBody, reportedPositions]
    | FormatDescriptionEvent => simp [loopBody, reportedPositions]
    | otherEvent k =>
      simp [loopBody, masterUpdateSave, reportedPositions, updates_append, updates, hl]

/-- The positions passed to `masterUpdate` by a run of the loop are the
positions reported by the answers it has handled to the end of the loop body. -/
theorem loop_updates (c : Canal) (st : LoopState) (s : List (Except Err BinlogEvent))
    (hr : ∀ r ∈ s, uintKeeps r) :
    updates (loop c st s).1.trace =
      updates st.trace ++ reportedPositions st.pos.File
        (if (loop c st s).2.isSome then
          (s.take ((loop c st s).1.waits.length - st.waits.length)).dropLast
        else s.take ((loop c st s).1.waits.length - st.waits.length)) ∧
    ((loop c st s).2.isSome = true →
      s.take ((loop c st s).1.waits.length - st.waits.length) ≠ []) := by
  induction s generalizing st with
  | nil => simp [loop, reportedPositions]
  | cons r rs ih =>
    have hr0 : uintKeeps r := hr r (List.mem_cons_self r rs)
    have hrs : ∀ x ∈ rs, uintKeeps x := fun x hx => hr x (List.mem_cons_of_mem r hx)
    have hw := loopBody_waits c st r
    rcases hb : loopBody c st r with ⟨st1, _ | err⟩
    · rw [hb] at hw
      simp only at hw
      rw [loop_cons_continue c st st1 r rs hb]
      obtain ⟨ih1, ih2⟩ := ih st1 hrs
      have hle := loop_waits_le c st1 rs
      have hlen : st1.waits.length = st.waits.length + 1 := by simp [hw]
      have hn : (loop c st1 rs).1.waits.length - st.waits.length =
          ((loop c st1 rs).1.waits.length - st1.waits.length) + 1 := by omega
      rw [hn, List.take_succ_cons]
      refine ⟨?_, fun _ => List.cons_ne_nil _ _⟩
      rw [ih1]
      by_cases hR : (loop c st1 rs).2.isSome = true
      · simp only [hR, if_true]
        rw [List.dropLast_cons_of_ne_nil (ih2 hR)]
        have h1 := (loopBody_updates c st r
          (List.take ((loop c st1 rs).1.waits.length - st1.waits.length) rs).dropLast hr0).1
        rw [hb] at h1
        exact (h1 rfl).symm
      · simp only [hR, if_false, Bool.false_eq_true]
        have h1 := (loopBody_updates c st r
          (List.take ((loop c st1 rs).1.waits.length - st1.waits.length) rs) hr0).1
        rw [hb] at h1
        exact (h1 rfl).symm
    · rw [hb] at hw
      simp only at hw
      rw [loop_cons_stop c st st1 r rs err hb]
      have hn : st1.waits.length - st.waits.length = 1 := by simp [hw]
      have h2 := (loopBody_updates c st r rs hr0).2
      rw [hb] at h2
      simp only [hn, List.take_succ_cons, List.take_zero, Option.isSome_some, if_true,
        List.dropLast_single, reportedPositions, List.append_nil]
      exact ⟨h2 (by simp), by simp⟩

theorem sameRun_refl (x : LoopState × Option Err) : sameRun x x :=
  ⟨rfl, rfl, rfl, rfl⟩

theorem sameRun_trans (x y z : LoopState × Option Err) (h1 : sameRun x y) (h2 : sameRun y z) :
    sameRun x z := by
  obtain ⟨a1, a2, a3, a4⟩ := h1
  obtain ⟨b1, b2, b3, b4⟩ := h2
  exact ⟨a1.trans b1, a2.trans b2, a3.trans b3, a4.trans b4⟩

/-- The loop body reads neither the local `timeout` nor the recorded waits. -/
theorem loopBody_congr (c : Canal) (a b : LoopState) (r : Except Err BinlogEvent)
    (h : sameProgress a b) : sameRun (loopBody c a r) (loopBody c b r) := by
  rcases a with ⟨pa, ta, tra, la, wa⟩
  rcases b with ⟨pb, tb, trb, lb, wb⟩
  obtain ⟨h1, h2, h3⟩ := h
  simp only at h1 h2 h3
  subst h1 h2 h3
  rcases r with err | ⟨hdr, ev⟩
  · by_cases he : err = Err.DeadlineExceeded <;> simp [loopBody, he, sameRun, sameProgress]
  · cases ev with
    | RotateEvent n p =>
      cases hf : c.flushEventHandlers tra <;>
        simp [loopBody, hf, masterUpdateSave, sameRun, sameProgress]
    | RowsEvent id schema table rows =>
      by_cases hs : c.DBName = schema
      · subst hs
        cases hft : c.FindTable tra (int id) table with
        | error e => simp [loopBody, handleRowsEvent, hft, sameRun, sameProgress]
        | ok t =>
          cases ha : rowsAction hdr.EventType with
          | none => simp [loopBody, handleRowsEvent, hft, ha, sameRun, sameProgress]
          | some a =>
            cases hd : c.travelRowsEventHandler (tra ++ [Call.FindTable (int id) table]) a t rows <;>
              simp [loopBody, handleRowsEvent, hft, ha, hd, masterUpdateSave, sameRun,
                sameProgress]
      · simp [loopBody, handleRowsEvent, hs, masterUpdateSave, sameRun, sameProgress]
    | TableMapEvent => simp [loopBody, sameRun, sameProgress]
    | FormatDescriptionEvent => simp [loopBody, sameRun, sameProgress]
    | otherEvent k => simp [loopBody, masterUpdateSave, sameRun, sameProgress]

theorem loop_congr (c : Canal) (a b : LoopState) (s : List (Except Err BinlogEvent))
    (h : sameProgress a b) : sameRun (loop c a s) (loop c b s) := by
  induction s generalizing a b with
  | nil => exact ⟨rfl, h⟩
  | cons r rs ih =>
    obtain ⟨h1, h2⟩ := loopBody_congr c a b r h
    rcases ha : loopBody c a r with ⟨a1, _ | ea⟩ <;>
      rcases hb : loopBody c b r with ⟨b1, _ | eb⟩ <;>
      rw [ha, hb] at h1 h2 <;> simp only at h1 h2
    · rw [loop_cons_continue c a a1 r rs ha, loop_cons_continue c b b1 r rs hb]
      exact ih a1 b1 h2
    · cases h1
    · cases h1
    · rw [loop_cons_stop c a a1 r rs ea ha, loop_cons_stop c b b1 r rs eb hb]
      exact ⟨h1, h2⟩

/-- A `DeadlineExceeded` answer only doubles the local `timeout`. -/
theorem loopBody_deadline (c : Canal) (st : LoopState) :
    loopBody c st (.error Err.DeadlineExceeded) =
      ({ st with waits := st.waits ++ [2 * Second], timeout := wrapInt64 (2 * st.timeout) },
        none) := by
  simp [loopBody]

theorem loop_deadlines (c : Canal) (st : LoopState) (n : Nat)
    (rest : List (Except Err BinlogEvent)) :
    sameRun (loop c st (List.replicate n (.error Err.DeadlineExceeded) ++ rest))
      (loop c st rest) := by
  induction n generalizing st with
  | zero => exact sameRun_refl _
  | succ k ih =>
    rw [List.replicate_succ, List.cons_append,
      loop_cons_continue c st _ _ _ (loopBody_deadline c st)]
    refine sameRun_trans _ _ _ (ih _) ?_
    exact loop_congr c _ _ rest ⟨rfl, rfl, rfl⟩

theorem loop_deadlines_inside (c : Canal) (st : LoopState) (n : Nat)
    (pre rest : List (Except Err BinlogEvent)) :
    sameRun (loop c st (pre ++ (List.replicate n (.error Err.DeadlineExceeded) ++ rest)))
      (loop c st (pre ++ rest)) := by
  induction pre generalizing st with
  | nil => exact loop_deadlines c st n rest
  | cons r rs ih =>
    rcases hb : loopBody c st r with ⟨st1, _ | err⟩
    · rw [List.cons_append, List.cons_append, loop_cons_continue c st st1 r _ hb,
        loop_cons_continue c st st1 r _ hb]
      exact ih st1
    · rw [List.cons_append, List.cons_append, loop_cons_stop c st st1 r _ err hb,
        loop_cons_stop c st st1 r _ err hb]
      exact sameRun_refl _

/-- The loop body makes the same calls and returns the same result whatever
`masterSave` answers and whatever offset the local `pos` held before. -/
theorem loopBody_calls_congr (c : Canal) (save : List Call → Option Err) (a b : LoopState)
    (r : Except Err BinlogEvent) (h : sameCalls a b) :
    (loopBody { c with masterSave := save } a r).2 = (loopBody c b r).2 ∧
    sameCalls (loopBody { c with masterSave := save } a r).1 (loopBody c b r).1 ∧
    (a.pos = b.pos → (loopBody { c with masterSave := save } a r).1.pos = (loopBody c b r).1.pos) := by
  rcases a with ⟨⟨fa, pa⟩, ta, tra, la, wa⟩
  rcases b with ⟨⟨fb, pb⟩, tb, trb, lb, wb⟩
  obtain ⟨h1, h2⟩ := h
  simp only at h1 h2
  subst h1 h2
  rcases r with err | ⟨hdr, ev⟩
  · by_cases he : err = Err.DeadlineExceeded <;> simp [loopBody, he, sameCalls]
  · cases ev with
    | RotateEvent n p =>
      cases hf : c.flushEventHandlers tra <;>
        simp [loopBody, hf, masterUpdateSave, sameCalls]
    | RowsEvent id schema table rows =>
      by_cases hs : c.DBName = schema
      · subst hs
        cases hft : c.FindTable tra (int id) table with
        | error e => simp [loopBody, handleRowsEvent, hft, sameCalls]
        | ok t =>
          cases ha : rowsAction hdr.EventType with
          | none => simp [loopBody, handleRowsEvent, hft, ha, sameCalls]
          | some a =>
            cases hd : c.travelRowsEventHandler (tra ++ [Call.FindTable (int id) table]) a t rows <;>
              simp [loopBody, handleRowsEvent, hft, ha, hd, masterUpdateSave, sameCalls]
      · simp [loopBody, handleRowsEvent, hs, masterUpdateSave, sameCalls]
    | TableMapEvent => simp [loopBody, sameCalls]
    | FormatDescriptionEvent => simp [loopBody, sameCalls]
    | otherEvent k => simp [loopBody, masterUpdateSave, sameCalls]

theorem loop_calls_congr (c : Canal) (save : List Call → Option Err) (a b : LoopState)
    (s : List (Except Err BinlogEvent)) (h : sameCalls a b) :
    (loop { c with masterSave := save } a s).2 = (loop c b s).2 ∧
    sameCalls (loop { c with masterSave := save } a s).1 (loop c b s).1 ∧
    (a.pos = b.pos → (loop { c with masterSave := save } a s).1.pos = (loop c b s).1.pos) := by
  induction s generalizing a b with
  | nil => exact ⟨rfl, h, fun hp => hp⟩
  | cons r rs ih =>
    obtain ⟨h1, h2, h3⟩ := loopBody_calls_congr c save a b r h
    rcases ha : loopBody { c with masterSave := save } a r with ⟨a1, _ | ea⟩ <;>
      rcases hb : loopBody c b r with ⟨b1, _ | eb⟩ <;>
      rw [ha, hb] at h1 h2 h3 <;> simp only at h1 h2 h3
    · rw [loop_cons_continue _ a a1 r rs ha, loop_cons_continue c b b1 r rs hb]
      obtain ⟨i1, i2, i3⟩ := ih a1 b1 h2
      exact ⟨i1, i2, fun hp => i3 (h3 hp)⟩
    · cases h1
    · cases h1
    · rw [loop_cons_stop _ a a1 r rs ea ha, loop_cons_stop c b b1 r rs eb hb]
      exact ⟨h1, h2, h3⟩

/-- A TableMap or FormatDescription event only touches the locals of the loop. -/
theorem loop_ignored_inside (c : Canal) (st : LoopState) (hdr : EventHeader) (e : Event)
    (he : e = .TableMapEvent ∨ e = .FormatDescriptionEvent)
    (pre rest : List (Except Err BinlogEvent)) :
    (loop c st (pre ++ (.ok { Header := hdr, Event := e } :: rest))).2 =
      (loop c st (pre ++ rest)).2 ∧
    sameCalls (loop c st (pre ++ (.ok { Header := hdr, Event := e } :: rest))).1
      (loop c st (pre ++ rest)).1 := by
  induction pre generalizing st with
  | nil =>
    have hb : ∃ st1, loopBody c st (.ok { Header := hdr, Event := e }) = (st1, none) ∧
        sameCalls st1 st := by
      rcases he with rfl | rfl <;> exact ⟨_, rfl, rfl, rfl⟩
    obtain ⟨st1, hb1, hb2⟩ := hb
    rw [List.nil_append, List.nil_append, loop_cons_continue c st st1 _ rest hb1]
    have hc := loop_calls_congr c c.masterSave st1 st rest hb2
    exact ⟨hc.1, hc.2.1⟩
  | cons r rs ih =>
    rcases hb : loopBody c st r with ⟨st1, _ | err⟩
    · rw [List.cons_append, List.cons_append, loop_cons_continue c st st1 r _ hb,
        loop_cons_continue c st st1 r _ hb]
      exact ih st1
    · rw [List.cons_append, List.cons_append, loop_cons_stop c st st1 r _ err hb,
        loop_cons_stop c st st1 r _ err hb]
      exact ⟨rfl, rfl, rfl⟩

/-- Every recorded wait of a run of the loop is an old one or two seconds. -/
theorem loop_waits_mem (c : Canal) (st : LoopState) (s : List (Except Err BinlogEvent)) :
    ∀ w ∈ (loop c st s).1.waits, w ∈ st.waits ∨ w = 2 * Second := by
  induction s generalizing st with
  | nil =>
    intro w hw
    exact Or.inl hw
  | cons r rs ih =>
    have hw1 := loopBody_waits c st r
    rcases hb : loopBody c st r with ⟨st1, _ | err⟩
    · rw [loop_cons_continue c st st1 r rs hb]
      rw [hb] at hw1
      simp only at hw1
      intro w hw
      rcases ih st1 w hw with h | h
      · rw [hw1] at h
        simpa using h
      · exact Or.inr h
    · rw [loop_cons_stop c st st1 r rs err hb]
      rw [hb] at hw1
      simp only at hw1
      intro w hw
      rw [hw1] at hw
      simpa using hw

/-- The locals after `n` answers `DeadlineExceeded` in a row. -/
theorem loop_deadlines_locals (c : Canal) (st : LoopState) (n : Nat) :
    (loop c st (List.replicate n (.error Err.DeadlineExceeded))).1.waits =
      st.waits ++ List.replicate n (2 * Second) ∧
    (loop c st (List.replicate n (.error Err.DeadlineExceeded))).1.timeout =
      doubled st.timeout n := by
  induction n generalizing st with
  | zero => simp [loop, doubled]
  | succ k ih =>
    rw [List.replicate_succ, loop_cons_continue c st _ _ _ (loopBody_deadline c st)]
    obtain ⟨i1, i2⟩ := ih
      { st with waits := st.waits ++ [2 * Second], timeout := wrapInt64 (2 * st.timeout) }
    constructor
    · rw [i1]
      simp [List.replicate_succ]
    · rw [i2]
      clear i1 i2 ih
      induction k with
      | zero => simp [doubled]
      | succ j ihj => simp only [doubled] at ihj ⊢; rw [ihj]

/-! ## Claims -/

/-- C1 (as stated, refuted): an event outside the four kinds of the type switch
does not stop the loop; the run on one such event is still looping and has
called `masterUpdate` and `masterSave` for it. -/
theorem c1_otherEvent_not_rejected :
    (startSyncBinlog demoCanal [xidEvent 120]).2 = none ∧
    (startSyncBinlog demoCanal [xidEvent 120]).1.trace =
      [Call.StartSync { File := "bin.000001", Position := 4 },
       Call.masterUpdate "bin.000001" 120, Call.masterSave] := by
  constructor <;> rfl

/-- C1 (amended): in `startSyncBinlog`, an event whose kind is none of Rotate,
Rows, TableMap or FormatDescription does not stop the loop: nothing is flushed
or dispatched, `masterUpdate` is called with the current file and the end
offset of the event header, `masterSave` is called once, and the loop goes on. -/
theorem startSyncBinlog_otherEvent_advances (c : Canal) (st : LoopState)
    (pre : List (Except Err BinlogEvent)) (hdr : EventHeader) (kind : String)
    (h : startSyncBinlog c pre = (st, none)) :
    (startSyncBinlog c (pre ++ [.ok { Header := hdr, Event := .otherEvent kind }])).2 = none ∧
    (startSyncBinlog c (pre ++ [.ok { Header := hdr, Event := .otherEvent kind }])).1.pos =
      { File := st.pos.File, Position := uint hdr.LogPos } ∧
    (startSyncBinlog c (pre ++ [.ok { Header := hdr, Event := .otherEvent kind }])).1.trace =
      st.trace ++ [Call.masterUpdate st.pos.File (uint hdr.LogPos), Call.masterSave] := by
  rw [startSyncBinlog_snoc c st pre _ h]
  simp [loopBody, masterUpdateSave]

theorem startSyncBinlog_otherEvent_advances_witness :
    startSyncBinlog demoCanal [] = (demoState, none) ∧
    (startSyncBinlog demoCanal ([] ++ [xidEvent 120])).1.trace =
      demoState.trace ++ [Call.masterUpdate demoState.pos.File (uint 120), Call.masterSave] :=
  ⟨rfl, (startSyncBinlog_otherEvent_advances demoCanal demoState []
    { LogPos := 120, EventType := .unlisted 16 } "XIDEvent" rfl).2.2⟩

/-- C2 (as stated, refuted): an in-scope Rows event whose table cannot be
resolved stops the loop and is among the events taken, but it is not dispatched. -/
theorem c2_unresolved_table_not_dispatched :
    dispatchedRows (startSyncBinlog lookupFailCanal
      [rowsEvent 120 .WRITE_ROWS_EVENTv2 "shop" "orders" [["1", "a"]]]).1.trace = [] ∧
    inScopeRows lookupFailCanal.DBName
      (consumed [rowsEvent 120 .WRITE_ROWS_EVENTv2 "shop" "orders" [["1", "a"]]]
        (startSyncBinlog lookupFailCanal
          [rowsEvent 120 .WRITE_ROWS_EVENTv2 "shop" "orders" [["1", "a"]]])) =
      [[["1", "a"]]] := by
  constructor <;> rfl

/-- C2 (amended): for every finite sequence of answers of the stream, the rows
handed to the dispatcher by `startSyncBinlog` are exactly the rows of the Rows
events of the configured database among the answers taken up to and including
the one on which the loop stops, in stream order and once each, except that the
stopping event itself is left out when the loop stopped right after its table
lookup (the lookup failed or the event type is not supported). -/
theorem startSyncBinlog_dispatch_order (c : Canal) (stream : List (Except Err BinlogEvent)) :
    dispatchedRows (startSyncBinlog c stream).1.trace =
      if stoppedBeforeDispatch (startSyncBinlog c stream) then
        (inScopeRows c.DBName (consumed stream (startSyncBinlog c stream))).dropLast
      else
        inScopeRows c.DBName (consumed stream (startSyncBinlog c stream)) := by
  unfold consumed
  simp only [startSyncBinlog]
  cases hs : c.StartSync c.masterStatus with
  | some e =>
    simp [stoppedBeforeDispatch, endsWithFindTable, dispatchedRows, dispatched, inScopeRows]
  | none =>
    have h := (loop_dispatch c
      { pos := c.masterStatus
        timeout := Second
        trace := [Call.StartSync c.masterStatus]
        log := if c.IsInfo then ["[binlogsync] Start syncing of binlog"] else []
        waits := [] } stream (by simp [endsWithFindTable])).1
    simpa [dispatchedRows, dispatched] using h

/-- C3 (as stated, refuted): two events in one file whose end offsets go down
make `startSyncBinlog` pass a Position to `masterUpdate` that is strictly less
than the one before. -/
theorem c3_position_rewound :
    updates (startSyncBinlog demoCanal [xidEvent 120, xidEvent 50]).1.trace =
      [{ File := "bin.000001", Position := 120 }, { File := "bin.000001", Position := 50 }] ∧
    ¬ MasterStatus.le { File := "bin.000001", Position := 120 }
        { File := "bin.000001", Position := 50 } := by
  constructor
  · rfl
  · simp [MasterStatus.le]

/-- C3 (amended): the Positions that `startSyncBinlog` passes to `masterUpdate`
are, in order, exactly the positions reported by the answers of the stream that
the loop has handled to the end (the answers taken, without the one on which
the loop returned an error): the current file and the end offset of the header
for a Rows or other event, the next file and the start offset for a Rotate
event, nothing for a TableMap or FormatDescription event or a failed
`GetEvent`.  The loop makes no order check, so the Positions are
non-decreasing, from the starting Position on, if and only if those reported
positions are. -/
theorem startSyncBinlog_updates_reported (c : Canal) (stream : List (Except Err BinlogEvent))
    (h : ∀ r ∈ stream, answerInRange r = true) :
    updates (startSyncBinlog c stream).1.trace =
      reportedPositions c.masterStatus.File (processed stream (startSyncBinlog c stream)) ∧
    (List.Pairwise MasterStatus.le
        (c.masterStatus :: updates (startSyncBinlog c stream).1.trace) ↔
      List.Pairwise MasterStatus.le
        (c.masterStatus ::
          reportedPositions c.masterStatus.File
            (processed stream (startSyncBinlog c stream)))) := by
  have hk : ∀ r ∈ stream, uintKeeps r := by
    intro r hr
    have hin := h r hr
    rcases r with err | ⟨hdr, ev⟩
    · exact True.intro
    · simp only [answerInRange, Bool.and_eq_true, decide_eq_true_eq] at hin
      have hl : hdr.LogPos % 2 ^ 64 = hdr.LogPos := Nat.mod_eq_of_lt (by omega)
      cases ev with
      | RotateEvent n p =>
        have hq : p < 2 ^ 64 := by simpa using hin.2
        exact ⟨hl, Nat.mod_eq_of_lt hq⟩
      | RowsEvent id schema table rows => exact ⟨hl, True.intro⟩
      | TableMapEvent => exact ⟨hl, True.intro⟩
      | FormatDescriptionEvent => exact ⟨hl, True.intro⟩
      | otherEvent k => exact ⟨hl, True.intro⟩
  have heq : updates (startSyncBinlog c stream).1.trace =
      reportedPositions c.masterStatus.File (processed stream (startSyncBinlog c stream)) := by
    unfold processed consumed
    simp only [startSyncBinlog]
    cases hs : c.StartSync c.masterStatus with
    | some e => simp [updates, reportedPositions]
    | none =>
      have hl := (loop_updates c
        { pos := c.masterStatus
          timeout := Second
          trace := [Call.StartSync c.masterStatus]
          log := if c.IsInfo then ["[binlogsync] Start syncing of binlog"] else []
          waits := [] } stream hk).1
      simpa [updates] using hl
  exact ⟨heq, by rw [heq]⟩

theorem startSyncBinlog_updates_reported_witness :
    (∀ r ∈ [xidEvent 120, rotateEvent 0 "bin.000002" 4, xidEvent 90],
      answerInRange r = true) ∧
    updates (startSyncBinlog demoCanal
        [xidEvent 120, rotateEvent 0 "bin.000002" 4, xidEvent 90]).1.trace =
      reportedPositions demoCanal.masterStatus.File
        (processed [xidEvent 120, rotateEvent 0 "bin.000002" 4, xidEvent 90]
          (startSyncBinlog demoCanal
            [xidEvent 120, rotateEvent 0 "bin.000002" 4, xidEvent 90])) :=
  ⟨by decide, (startSyncBinlog_updates_reported demoCanal
    [xidEvent 120, rotateEvent 0 "bin.000002" 4, xidEvent 90] (by decide)).1⟩

/-- Two runs by evaluation: a run over three events passes their three reported
positions on; a run that stops on a failed `GetEvent` passes on the positions of
the events before it only. -/
theorem startSyncBinlog_updates_examples :
    updates (startSyncBinlog demoCanal
        [xidEvent 120, rotateEvent 0 "bin.000002" 4, xidEvent 90]).1.trace =
      [{ File := "bin.000001", Position := 120 }, { File := "bin.000002", Position := 4 },
        { File := "bin.000002", Position := 90 }] ∧
    processed [xidEvent 120, .error (.other "EOF"), xidEvent 50]
        (startSyncBinlog demoCanal [xidEvent 120, .error (.other "EOF"), xidEvent 50]) =
      [xidEvent 120] ∧
    updates (startSyncBinlog demoCanal
        [xidEvent 120, .error (.other "EOF"), xidEvent 50]).1.trace =
      [{ File := "bin.000001", Position := 120 }] := by
  refine ⟨?_, ?_, ?_⟩ <;> rfl

/-- C4: for a Rows event whose schema differs from the configured database
name, `handleRowsEvent` returns nil and makes no collaborator call (no table
lookup, no dispatch), whatever the event type of the header. -/
theorem handleRowsEvent_other_schema (c : Canal) (st : LoopState) (hdr : EventHeader)
    (id : Nat) (schema table : String) (rows : List Row) (h : c.DBName ≠ schema) :
    (handleRowsEvent c st { Header := hdr, Event := .RowsEvent id schema table rows }).2 = none ∧
    (handleRowsEvent c st { Header := hdr, Event := .RowsEvent id schema table rows }).1.trace =
      st.trace ∧
    dispatched
      (handleRowsEvent c st { Header := hdr, Event := .RowsEvent id schema table rows }).1.trace =
      dispatched st.trace := by
  simp [handleRowsEvent, h]

theorem handleRowsEvent_other_schema_witness :
    demoCanal.DBName ≠ "test" ∧
    (handleRowsEvent demoCanal demoState
      { Header := { LogPos := 300, EventType := .UPDATE_ROWS_EVENTv2 },
        Event := .RowsEvent 9 "test" "users" [["1"]] }).1.trace = demoState.trace :=
  ⟨by decide, (handleRowsEvent_other_schema demoCanal demoState
    { LogPos := 300, EventType := .UPDATE_ROWS_EVENTv2 } 9 "test" "users" [["1"]]
    (by decide)).2.1⟩

/-- C5: on a Rows event whose schema differs from the configured database name
`startSyncBinlog` does not stop: with the end offset p of the event header (a
uint32) and the active log file f, the Position becomes exactly (f, p), the
only calls made are `masterUpdate` with (f, p) and `masterSave` (no lookup, no
dispatch), and the loop goes on with the next event. -/
theorem startSyncBinlog_skipped_rows_advances (c : Canal) (st : LoopState)
    (pre rest : List (Except Err BinlogEvent)) (hdr : EventHeader)
    (id : Nat) (schema table : String) (rows : List Row)
    (h : startSyncBinlog c pre = (st, none)) (hs : c.DBName ≠ schema)
    (hp : hdr.LogPos < 2 ^ 32) :
    (startSyncBinlog c
      (pre ++ [.ok { Header := hdr, Event := .RowsEvent id schema table rows }])).2 = none ∧
    (startSyncBinlog c
      (pre ++ [.ok { Header := hdr, Event := .RowsEvent id schema table rows }])).1.pos =
      { File := st.pos.File, Position := hdr.LogPos } ∧
    (startSyncBinlog c
      (pre ++ [.ok { Header := hdr, Event := .RowsEvent id schema table rows }])).1.trace =
      st.trace ++ [Call.masterUpdate st.pos.File hdr.LogPos, Call.masterSave] ∧
    updates (startSyncBinlog c
      (pre ++ [.ok { Header := hdr, Event := .RowsEvent id schema table rows }])).1.trace =
      updates st.trace ++ [{ File := st.pos.File, Position := hdr.LogPos }] ∧
    saves (startSyncBinlog c
      (pre ++ [.ok { Header := hdr, Event := .RowsEvent id schema table rows }])).1.trace =
      saves st.trace + 1 ∧
    startSyncBinlog c
      (pre ++ [.ok { Header := hdr, Event := .RowsEvent id schema table rows }] ++ rest) =
      loop c (startSyncBinlog c
        (pre ++ [.ok { Header := hdr, Event := .RowsEvent id schema table rows }])).1 rest := by
  have hu : uint hdr.LogPos = hdr.LogPos := by
    unfold uint
    apply Nat.mod_eq_of_lt
    omega
  have hb : (loopBody c st
      (.ok { Header := hdr, Event := .RowsEvent id schema table rows })).2 = none := by
    simp [loopBody, handleRowsEvent, hs, masterUpdateSave]
  refine ⟨?_, ?_, ?_, ?_, ?_, ?_⟩
  · rw [startSyncBinlog_snoc c st pre _ h]
    exact hb
  · rw [startSyncBinlog_snoc c st pre _ h]
    simp [loopBody, handleRowsEvent, hs, masterUpdateSave, hu]
  · rw [startSyncBinlog_snoc c st pre _ h]
    simp [loopBody, handleRowsEvent, hs, masterUpdateSave, hu]
  · rw [startSyncBinlog_snoc c st pre _ h]
    simp [loopBody, handleRowsEvent, hs, masterUpdateSave, hu, updates_append, updates]
  · rw [startSyncBinlog_snoc c st pre _ h]
    simp [loopBody, handleRowsEvent, hs, masterUpdateSave, saves_append, saves]
  · apply startSyncBinlog_append
    rw [startSyncBinlog_snoc c st pre _ h]
    exact Prod.ext rfl hb

theorem startSyncBinlog_skipped_rows_advances_witness :
    startSyncBinlog demoCanal [] = (demoState, none) ∧ demoCanal.DBName ≠ "test" ∧
    (300 : Nat) < 2 ^ 32 ∧
    (startSyncBinlog demoCanal
      ([] ++ [.ok { Header := { LogPos := 300, EventType := .UPDATE_ROWS_EVENTv2 },
                    Event := .RowsEvent 9 "test" "users" [["1"]] }])).1.trace =
      demoState.trace ++ [Call.masterUpdate demoState.pos.File 300, Call.masterSave] :=
  ⟨rfl, by decide, by decide, (startSyncBinlog_skipped_rows_advances demoCanal demoState [] []
    { LogPos := 300, EventType := .UPDATE_ROWS_EVENTv2 } 9 "test" "users" [["1"]]
    rfl (by decide) (by decide)).2.2.1⟩

/-- C6: for an in-scope Rows event whose table resolves, the action passed to
the dispatcher is Insert for WRITE_ROWS v1 and v2, Update for UPDATE_ROWS v1 and
v2 and Delete for DELETE_ROWS v1 and v2, and the three actions are pairwise
distinct. -/
theorem handleRowsEvent_action_classes (c : Canal) (st : LoopState) (logPos id : Nat)
    (table : String) (rows : List Row) (t : Table)
    (h : c.FindTable st.trace (int id) table = .ok t) :
    (∀ ty, ty = EventType.WRITE_ROWS_EVENTv1 ∨ ty = EventType.WRITE_ROWS_EVENTv2 →
      (handleRowsEvent c st
        { Header := { LogPos := logPos, EventType := ty },
          Event := .RowsEvent id c.DBName table rows }).1.trace =
        st.trace ++ [Call.FindTable (int id) table,
          Call.travelRowsEventHandler InsertAction t rows]) ∧
    (∀ ty, ty = EventType.UPDATE_ROWS_EVENTv1 ∨ ty = EventType.UPDATE_ROWS_EVENTv2 →
      (handleRowsEvent c st
        { Header := { LogPos := logPos, EventType := ty },
          Event := .RowsEvent id c.DBName table rows }).1.trace =
        st.trace ++ [Call.FindTable (int id) table,
          Call.travelRowsEventHandler UpdateAction t rows]) ∧
    (∀ ty, ty = EventType.DELETE_ROWS_EVENTv1 ∨ ty = EventType.DELETE_ROWS_EVENTv2 →
      (handleRowsEvent c st
        { Header := { LogPos := logPos, EventType := ty },
          Event := .RowsEvent id c.DBName table rows }).1.trace =
        st.trace ++ [Call.FindTable (int id) table,
          Call.travelRowsEventHandler DeleteAction t rows]) ∧
    InsertAction ≠ UpdateAction ∧ InsertAction ≠ DeleteAction ∧ UpdateAction ≠ DeleteAction := by
  refine ⟨?_, ?_, ?_, by decide, by decide, by decide⟩
  all_goals
    rintro ty (rfl | rfl) <;> simp [handleRowsEvent, h, rowsAction]

theorem handleRowsEvent_action_classes_witness :
    demoCanal.FindTable demoState.trace (int 7) "orders" =
      .ok { Schema := "shop", Name := "orders" } ∧
    (handleRowsEvent demoCanal demoState
      { Header := { LogPos := 120, EventType := .WRITE_ROWS_EVENTv2 },
        Event := .RowsEvent 7 demoCanal.DBName "orders" [["1", "a"]] }).1.trace =
      demoState.trace ++ [Call.FindTable (int 7) "orders",
        Call.travelRowsEventHandler InsertAction { Schema := "shop", Name := "orders" }
          [["1", "a"]]] :=
  ⟨rfl, (handleRowsEvent_action_classes demoCanal demoState 120 7 "orders" [["1", "a"]]
    { Schema := "shop", Name := "orders" } rfl).1 .WRITE_ROWS_EVENTv2 (Or.inr rfl)⟩

/-- C7: for every n, n `DeadlineExceeded` answers in a row, wherever they come
in the stream, never make `startSyncBinlog` return and never change or persist
the Position: they add no collaborator call (no `masterUpdate`, `masterSave`,
flush or dispatch) and leave the local `pos` alone, and the answers after them
are handled exactly as if the `DeadlineExceeded` answers had not occurred. -/
theorem startSyncBinlog_deadline_ignored (c : Canal) (n : Nat)
    (pre rest : List (Except Err BinlogEvent)) :
    ((startSyncBinlog c (pre ++ List.replicate n (.error Err.DeadlineExceeded))).2 =
        (startSyncBinlog c pre).2 ∧
      (startSyncBinlog c (pre ++ List.replicate n (.error Err.DeadlineExceeded))).1.trace =
        (startSyncBinlog c pre).1.trace ∧
      (startSyncBinlog c (pre ++ List.replicate n (.error Err.DeadlineExceeded))).1.pos =
        (startSyncBinlog c pre).1.pos) ∧
    ((startSyncBinlog c (pre ++ (List.replicate n (.error Err.DeadlineExceeded) ++ rest))).2 =
        (startSyncBinlog c (pre ++ rest)).2 ∧
      (startSyncBinlog c (pre ++ (List.replicate n (.error Err.DeadlineExceeded) ++ rest))).1.trace =
        (startSyncBinlog c (pre ++ rest)).1.trace ∧
      (startSyncBinlog c (pre ++ (List.replicate n (.error Err.DeadlineExceeded) ++ rest))).1.pos =
        (startSyncBinlog c (pre ++ rest)).1.pos) := by
  have key : ∀ rest : List (Except Err BinlogEvent),
      sameRun (startSyncBinlog c (pre ++ (List.replicate n (.error Err.DeadlineExceeded) ++ rest)))
        (startSyncBinlog c (pre ++ rest)) := by
    intro rest
    simp only [startSyncBinlog]
    cases hs : c.StartSync c.masterStatus with
    | some e => exact sameRun_refl _
    | none => exact loop_deadlines_inside c _ n pre rest
  constructor
  · have h := key []
    simp only [List.append_nil] at h
    exact ⟨h.1, h.2.2.1, h.2.1⟩
  · have h := key rest
    exact ⟨h.1, h.2.2.1, h.2.1⟩

/-- C8: on a Rotate event `startSyncBinlog` calls `flushEventHandlers` before any
Position update for the new file.  If the flush fails the loop stops with the
wrapped error, `masterUpdate` is not called and the local `pos` keeps the old
file; if it succeeds, `masterUpdate` with the new file and start offset and
`masterSave` follow the flush. -/
theorem startSyncBinlog_rotate_flush_first (c : Canal) (st : LoopState)
    (pre : List (Except Err BinlogEvent)) (hdr : EventHeader) (nextLogName : String)
    (position : Nat) (h : startSyncBinlog c pre = (st, none)) :
    match c.flushEventHandlers st.trace with
    | some err =>
      (startSyncBinlog c
        (pre ++ [.ok { Header := hdr, Event := .RotateEvent nextLogName position }])).2 =
        some (.Wrap err "[binlogsync] startSyncBinlog.flushEventHandlers") ∧
      (startSyncBinlog c
        (pre ++ [.ok { Header := hdr, Event := .RotateEvent nextLogName position }])).1.trace =
        st.trace ++ [Call.flushEventHandlers] ∧
      (startSyncBinlog c
        (pre ++ [.ok { Header := hdr, Event := .RotateEvent nextLogName position }])).1.pos.File =
        st.pos.File
    | none =>
      (startSyncBinlog c
        (pre ++ [.ok { Header := hdr, Event := .RotateEvent nextLogName position }])).2 = none ∧
      (startSyncBinlog c
        (pre ++ [.ok { Header := hdr, Event := .RotateEvent nextLogName position }])).1.trace =
        st.trace ++ [Call.flushEventHandlers, Call.masterUpdate nextLogName (uint position),
          Call.masterSave] ∧
      (startSyncBinlog c
        (pre ++ [.ok { Header := hdr, Event := .RotateEvent nextLogName position }])).1.pos =
        { File := nextLogName, Position := uint position } := by
  rw [startSyncBinlog_snoc c st pre _ h]
  cases hf : c.flushEventHandlers st.trace <;> simp [loopBody, hf, masterUpdateSave]

theorem startSyncBinlog_rotate_flush_first_witness :
    startSyncBinlog flushFailCanal [] = (demoState, none) ∧
    ((startSyncBinlog flushFailCanal ([] ++ [rotateEvent 0 "bin.000002" 4])).2 =
        some (.Wrap (.other "flush failed") "[binlogsync] startSyncBinlog.flushEventHandlers") ∧
      (startSyncBinlog flushFailCanal ([] ++ [rotateEvent 0 "bin.000002" 4])).1.trace =
        demoState.trace ++ [Call.flushEventHandlers] ∧
      (startSyncBinlog flushFailCanal ([] ++ [rotateEvent 0 "bin.000002" 4])).1.pos.File =
        demoState.pos.File) :=
  ⟨rfl, startSyncBinlog_rotate_flush_first flushFailCanal demoState []
    { LogPos := 0, EventType := .unlisted 4 } "bin.000002" 4 rfl⟩

/-- C9 (scenario A): with target schema DB, collaborators that succeed and the
events Rows(insert, schema DB, table T, rows [r1]) then Rotate(file2, 0),
`startSyncBinlog` dispatches exactly once, with (Insert, the table resolved for
T, [r1]), flushes exactly once, and ends at Position (file2, 0): the next file
and start offset of the Rotate event, not the end offset of its header. -/
theorem startSyncBinlog_scenarioA (c : Canal) (logPos1 logPos2 id : Nat) (ty : EventType)
    (tyRotate : EventType) (T file2 : String) (r1 : Row) (t : Table)
    (hty : ty = .WRITE_ROWS_EVENTv1 ∨ ty = .WRITE_ROWS_EVENTv2)
    (hs : c.StartSync c.masterStatus = none)
    (hf : ∀ tr, c.FindTable tr (int id) T = .ok t)
    (hd : ∀ tr, c.travelRowsEventHandler tr InsertAction t [r1] = none)
    (hfl : ∀ tr, c.flushEventHandlers tr = none) :
    (startSyncBinlog c
      [.ok { Header := { LogPos := logPos1, EventType := ty },
             Event := .RowsEvent id c.DBName T [r1] },
       .ok { Header := { LogPos := logPos2, EventType := tyRotate },
             Event := .RotateEvent file2 0 }]).2 = none ∧
    dispatched (startSyncBinlog c
      [.ok { Header := { LogPos := logPos1, EventType := ty },
             Event := .RowsEvent id c.DBName T [r1] },
       .ok { Header := { LogPos := logPos2, EventType := tyRotate },
             Event := .RotateEvent file2 0 }]).1.trace = [(InsertAction, t, [r1])] ∧
    flushes (startSyncBinlog c
      [.ok { Header := { LogPos := logPos1, EventType := ty },
             Event := .RowsEvent id c.DBName T [r1] },
       .ok { Header := { LogPos := logPos2, EventType := tyRotate },
             Event := .RotateEvent file2 0 }]).1.trace = 1 ∧
    updates (startSyncBinlog c
      [.ok { Header := { LogPos := logPos1, EventType := ty },
             Event := .RowsEvent id c.DBName T [r1] },
       .ok { Header := { LogPos := logPos2, EventType := tyRotate },
             Event := .RotateEvent file2 0 }]).1.trace =
      [{ File := c.masterStatus.File, Position := uint logPos1 },
       { File := file2, Position := 0 }] ∧
    (startSyncBinlog c
      [.ok { Header := { LogPos := logPos1, EventType := ty },
             Event := .RowsEvent id c.DBName T [r1] },
       .ok { Header := { LogPos := logPos2, EventType := tyRotate },
             Event := .RotateEvent file2 0 }]).1.pos = { File := file2, Position := 0 } := by
  rcases hty with rfl | rfl <;>
    simp [startSyncBinlog, loop, loopBody, handleRowsEvent, rowsAction, masterUpdateSave,
      hs, hf, hd, hfl, dispatched, flushes, updates, uint]

theorem startSyncBinlog_scenarioA_witness :
    (EventType.WRITE_ROWS_EVENTv2 = .WRITE_ROWS_EVENTv1 ∨
      EventType.WRITE_ROWS_EVENTv2 = .WRITE_ROWS_EVENTv2) ∧
    demoCanal.StartSync demoCanal.masterStatus = none ∧
    (∀ tr, demoCanal.FindTable tr (int 7) "orders" = .ok { Schema := "shop", Name := "orders" }) ∧
    (∀ tr, demoCanal.travelRowsEventHandler tr InsertAction
      { Schema := "shop", Name := "orders" } [["1", "a"]] = none) ∧
    (∀ tr, demoCanal.flushEventHandlers tr = none) ∧
    dispatched (startSyncBinlog demoCanal
      [.ok { Header := { LogPos := 120, EventType := .WRITE_ROWS_EVENTv2 },
             Event := .RowsEvent 7 demoCanal.DBName "orders" [["1", "a"]] },
       .ok { Header := { LogPos := 167, EventType := .unlisted 4 },
             Event := .RotateEvent "bin.000002" 0 }]).1.trace =
      [(InsertAction, { Schema := "shop", Name := "orders" }, [["1", "a"]])] :=
  ⟨Or.inr rfl, rfl, fun _ => rfl, fun _ => rfl, fun _ => rfl,
    (startSyncBinlog_scenarioA demoCanal 120 167 7 .WRITE_ROWS_EVENTv2 (.unlisted 4) "orders"
      "bin.000002" ["1", "a"] { Schema := "shop", Name := "orders" } (Or.inr rfl) rfl
      (fun _ => rfl) (fun _ => rfl) (fun _ => rfl)).2.1⟩

/-- C10 (scenario D): when the dispatcher returns an error for an in-scope Rows
event, `startSyncBinlog` stops and returns that error wrapped, and neither
`masterUpdate` nor `masterSave` is called for the event: the Position stays at
the value it had before that Rows event. -/
theorem startSyncBinlog_dispatch_error_stops (c : Canal) (st : LoopState)
    (pre : List (Except Err BinlogEvent)) (hdr : EventHeader) (id : Nat) (table : String)
    (rows : List Row) (t : Table) (a : String) (err : Err)
    (h : startSyncBinlog c pre = (st, none))
    (hf : c.FindTable st.trace (int id) table = .ok t)
    (ha : rowsAction hdr.EventType = some a)
    (hd : c.travelRowsEventHandler (st.trace ++ [Call.FindTable (int id) table]) a t rows =
      some err) :
    (startSyncBinlog c
      (pre ++ [.ok { Header := hdr, Event := .RowsEvent id c.DBName table rows }])).2 =
      some (.Wrap err "[binlogsync] handleRowsEvent") ∧
    (startSyncBinlog c
      (pre ++ [.ok { Header := hdr, Event := .RowsEvent id c.DBName table rows }])).1.trace =
      st.trace ++ [Call.FindTable (int id) table, Call.travelRowsEventHandler a t rows] ∧
    updates (startSyncBinlog c
      (pre ++ [.ok { Header := hdr, Event := .RowsEvent id c.DBName table rows }])).1.trace =
      updates st.trace ∧
    saves (startSyncBinlog c
      (pre ++ [.ok { Header := hdr, Event := .RowsEvent id c.DBName table rows }])).1.trace =
      saves st.trace := by
  rw [startSyncBinlog_snoc c st pre _ h]
  simp [loopBody, handleRowsEvent, hf, ha, hd, updates_append, updates, saves_append, saves]

theorem startSyncBinlog_dispatch_error_stops_witness :
    startSyncBinlog dispatchFailCanal [] = (demoState, none) ∧
    dispatchFailCanal.FindTable demoState.trace (int 7) "orders" =
      .ok { Schema := "shop", Name := "orders" } ∧
    rowsAction EventType.DELETE_ROWS_EVENTv1 = some DeleteAction ∧
    dispatchFailCanal.travelRowsEventHandler
      (demoState.trace ++ [Call.FindTable (int 7) "orders"]) DeleteAction
      { Schema := "shop", Name := "orders" } [["1", "a"]] = some (.other "handler failed") ∧
    (startSyncBinlog dispatchFailCanal
      ([] ++ [.ok { Header := { LogPos := 120, EventType := .DELETE_ROWS_EVENTv1 },
                    Event := .RowsEvent 7 dispatchFailCanal.DBName "orders" [["1", "a"]] }])).2 =
      some (.Wrap (.other "handler failed") "[binlogsync] handleRowsEvent") :=
  ⟨rfl, rfl, rfl, rfl,
    (startSyncBinlog_dispatch_error_stops dispatchFailCanal demoState []
      { LogPos := 120, EventType := .DELETE_ROWS_EVENTv1 } 7 "orders" [["1", "a"]]
      { Schema := "shop", Name := "orders" } DeleteAction (.other "handler failed")
      rfl rfl rfl rfl).1⟩

/-- C11: when `FindTable` fails for an in-scope Rows event, `handleRowsEvent`
returns the wrapped lookup error without calling the dispatcher,
`startSyncBinlog` stops with that error (wrapped once more), and neither
`masterUpdate` nor `masterSave` is called for the event. -/
theorem startSyncBinlog_lookup_error_stops (c : Canal) (st : LoopState)
    (pre : List (Except Err BinlogEvent)) (hdr : EventHeader) (id : Nat) (table : String)
    (rows : List Row) (e : Err)
    (h : startSyncBinlog c pre = (st, none))
    (hf : c.FindTable st.trace (int id) table = .error e) :
    handleRowsEvent c st { Header := hdr, Event := .RowsEvent id c.DBName table rows } =
      ({ st with trace := st.trace ++ [Call.FindTable (int id) table] },
        some (.Wrap e "[binlogsync] GetTable %q.%q")) ∧
    (startSyncBinlog c
      (pre ++ [.ok { Header := hdr, Event := .RowsEvent id c.DBName table rows }])).2 =
      some (.Wrap (.Wrap e "[binlogsync] GetTable %q.%q") "[binlogsync] handleRowsEvent") ∧
    (startSyncBinlog c
      (pre ++ [.ok { Header := hdr, Event := .RowsEvent id c.DBName table rows }])).1.trace =
      st.trace ++ [Call.FindTable (int id) table] ∧
    dispatched (startSyncBinlog c
      (pre ++ [.ok { Header := hdr, Event := .RowsEvent id c.DBName table rows }])).1.trace =
      dispatched st.trace ∧
    updates (startSyncBinlog c
      (pre ++ [.ok { Header := hdr, Event := .RowsEvent id c.DBName table rows }])).1.trace =
      updates st.trace ∧
    saves (startSyncBinlog c
      (pre ++ [.ok { Header := hdr, Event := .RowsEvent id c.DBName table rows }])).1.trace =
      saves st.trace := by
  rw [startSyncBinlog_snoc c st pre _ h]
  simp [loopBody, handleRowsEvent, hf, updates_append, updates, saves_append, saves,
    dispatched_append, dispatched]

theorem startSyncBinlog_lookup_error_stops_witness :
    startSyncBinlog lookupFailCanal [] = (demoState, none) ∧
    lookupFailCanal.FindTable demoState.trace (int 7) "orders" =
      .error (.other "table not found") ∧
    (startSyncBinlog lookupFailCanal
      ([] ++ [.ok { Header := { LogPos := 120, EventType := .WRITE_ROWS_EVENTv2 },
                    Event := .RowsEvent 7 lookupFailCanal.DBName "orders" [["1", "a"]] }])).2 =
      some (.Wrap (.Wrap (.other "table not found") "[binlogsync] GetTable %q.%q")
        "[binlogsync] handleRowsEvent") :=
  ⟨rfl, rfl,
    (startSyncBinlog_lookup_error_stops lookupFailCanal demoState []
      { LogPos := 120, EventType := .WRITE_ROWS_EVENTv2 } 7 "orders" [["1", "a"]]
      (.other "table not found") rfl rfl).2.1⟩

/-- C12: a TableMap or FormatDescription event, wherever it comes in the
stream, makes `startSyncBinlog` neither update nor persist the Position, nor
flush or dispatch: the run has the same result and the same calls as the run
without the event, so the loop continues and the Position passed on after the
next events does not depend on the offset carried by the ignored event. -/
theorem startSyncBinlog_ignored_event (c : Canal) (hdr : EventHeader) (e : Event)
    (pre rest : List (Except Err BinlogEvent))
    (he : e = .TableMapEvent ∨ e = .FormatDescriptionEvent) :
    ((startSyncBinlog c (pre ++ [.ok { Header := hdr, Event := e }])).2 =
        (startSyncBinlog c pre).2 ∧
      (startSyncBinlog c (pre ++ [.ok { Header := hdr, Event := e }])).1.trace =
        (startSyncBinlog c pre).1.trace) ∧
    ((startSyncBinlog c (pre ++ (.ok { Header := hdr, Event := e } :: rest))).2 =
        (startSyncBinlog c (pre ++ rest)).2 ∧
      (startSyncBinlog c (pre ++ (.ok { Header := hdr, Event := e } :: rest))).1.trace =
        (startSyncBinlog c (pre ++ rest)).1.trace ∧
      updates (startSyncBinlog c (pre ++ (.ok { Header := hdr, Event := e } :: rest))).1.trace =
        updates (startSyncBinlog c (pre ++ rest)).1.trace) := by
  have key : ∀ rest : List (Except Err BinlogEvent),
      (startSyncBinlog c (pre ++ (.ok { Header := hdr, Event := e } :: rest))).2 =
        (startSyncBinlog c (pre ++ rest)).2 ∧
      (startSyncBinlog c (pre ++ (.ok { Header := hdr, Event := e } :: rest))).1.trace =
        (startSyncBinlog c (pre ++ rest)).1.trace := by
    intro rest
    simp only [startSyncBinlog]
    cases hs : c.StartSync c.masterStatus with
    | some e => exact ⟨rfl, rfl⟩
    | none =>
      have hl := loop_ignored_inside c
        { pos := c.masterStatus
          timeout := Second
          trace := [Call.StartSync c.masterStatus]
          log := if c.IsInfo then ["[binlogsync] Start syncing of binlog"] else []
          waits := [] } hdr e he pre rest
      exact ⟨hl.1, hl.2.2⟩
  constructor
  · have h := key []
    simp only [List.append_nil] at h
    exact h
  · have h := key rest
    exact ⟨h.1, h.2, by rw [h.2]⟩

theorem startSyncBinlog_ignored_event_witness :
    (Event.TableMapEvent = .TableMapEvent ∨ Event.TableMapEvent = .FormatDescriptionEvent) ∧
    (startSyncBinlog demoCanal
      ([xidEvent 120] ++
        (.ok { Header := { LogPos := 999, EventType := .unlisted 19 }, Event := .TableMapEvent } ::
          [xidEvent 200]))).1.trace =
      (startSyncBinlog demoCanal ([xidEvent 120] ++ [xidEvent 200])).1.trace :=
  ⟨Or.inl rfl, (startSyncBinlog_ignored_event demoCanal
    { LogPos := 999, EventType := .unlisted 19 } .TableMapEvent [xidEvent 120] [xidEvent 200]
    (Or.inl rfl)).2.2.1⟩

/-- C13: after `startSyncBinlog` has handled an in-scope Rows event with header
end offset p (a uint32) while the active log file is f, the calls made for the
event are the lookup, the dispatch, `masterUpdate` with exactly (f, p) and one
`masterSave`, and the loop goes on. -/
theorem startSyncBinlog_rows_advances (c : Canal) (st : LoopState)
    (pre : List (Except Err BinlogEvent)) (hdr : EventHeader) (id : Nat) (table : String)
    (rows : List Row) (t : Table) (a : String)
    (h : startSyncBinlog c pre = (st, none))
    (hp : hdr.LogPos < 2 ^ 32)
    (hf : c.FindTable st.trace (int id) table = .ok t)
    (ha : rowsAction hdr.EventType = some a)
    (hd : c.travelRowsEventHandler (st.trace ++ [Call.FindTable (int id) table]) a t rows =
      none) :
    (startSyncBinlog c
      (pre ++ [.ok { Header := hdr, Event := .RowsEvent id c.DBName table rows }])).2 = none ∧
    (startSyncBinlog c
      (pre ++ [.ok { Header := hdr, Event := .RowsEvent id c.DBName table rows }])).1.trace =
      st.trace ++ [Call.FindTable (int id) table, Call.travelRowsEventHandler a t rows,
        Call.masterUpdate st.pos.File hdr.LogPos, Call.masterSave] ∧
    updates (startSyncBinlog c
      (pre ++ [.ok { Header := hdr, Event := .RowsEvent id c.DBName table rows }])).1.trace =
      updates st.trace ++ [{ File := st.pos.File, Position := hdr.LogPos }] ∧
    saves (startSyncBinlog c
      (pre ++ [.ok { Header := hdr, Event := .RowsEvent id c.DBName table rows }])).1.trace =
      saves st.trace + 1 := by
  have hu : uint hdr.LogPos = hdr.LogPos := by
    unfold uint
    apply Nat.mod_eq_of_lt
    omega
  rw [startSyncBinlog_snoc c st pre _ h]
  simp [loopBody, handleRowsEvent, hf, ha, hd, masterUpdateSave, hu, updates_append, updates,
    saves_append, saves]

theorem startSyncBinlog_rows_advances_witness :
    startSyncBinlog demoCanal [] = (demoState, none) ∧
    (120 : Nat) < 2 ^ 32 ∧
    demoCanal.FindTable demoState.trace (int 7) "orders" =
      .ok { Schema := "shop", Name := "orders" } ∧
    rowsAction EventType.UPDATE_ROWS_EVENTv1 = some UpdateAction ∧
    demoCanal.travelRowsEventHandler
      (demoState.trace ++ [Call.FindTable (int 7) "orders"]) UpdateAction
      { Schema := "shop", Name := "orders" } [["1", "a"]] = none ∧
    updates (startSyncBinlog demoCanal
      ([] ++ [.ok { Header := { LogPos := 120, EventType := .UPDATE_ROWS_EVENTv1 },
                    Event := .RowsEvent 7 demoCanal.DBName "orders" [["1", "a"]] }])).1.trace =
      updates demoState.trace ++ [{ File := demoState.pos.File, Position := 120 }] :=
  ⟨rfl, by decide, rfl, rfl, rfl,
    (startSyncBinlog_rows_advances demoCanal demoState []
      { LogPos := 120, EventType := .UPDATE_ROWS_EVENTv1 } 7 "orders" [["1", "a"]]
      { Schema := "shop", Name := "orders" } UpdateAction rfl (by decide) rfl rfl rfl).2.2.1⟩

/-- C14: a failing `masterSave` never stops `startSyncBinlog`: for every stream
and whatever each `masterSave` call answers, the result of the run, the calls
made (so the events dispatched, the flushes and the Positions passed to
`masterUpdate`) and the local `pos` are those of the run in which `masterSave`
answers as in `c`. -/
theorem startSyncBinlog_save_result_ignored (c : Canal) (save : List Call → Option Err)
    (stream : List (Except Err BinlogEvent)) :
    (startSyncBinlog { c with masterSave := save } stream).2 = (startSyncBinlog c stream).2 ∧
    (startSyncBinlog { c with masterSave := save } stream).1.trace =
      (startSyncBinlog c stream).1.trace ∧
    dispatched (startSyncBinlog { c with masterSave := save } stream).1.trace =
      dispatched (startSyncBinlog c stream).1.trace ∧
    flushes (startSyncBinlog { c with masterSave := save } stream).1.trace =
      flushes (startSyncBinlog c stream).1.trace ∧
    updates (startSyncBinlog { c with masterSave := save } stream).1.trace =
      updates (startSyncBinlog c stream).1.trace ∧
    (startSyncBinlog { c with masterSave := save } stream).1.pos =
      (startSyncBinlog c stream).1.pos := by
  have key : (startSyncBinlog { c with masterSave := save } stream).2 =
        (startSyncBinlog c stream).2 ∧
      (startSyncBinlog { c with masterSave := save } stream).1.trace =
        (startSyncBinlog c stream).1.trace ∧
      (startSyncBinlog { c with masterSave := save } stream).1.pos =
        (startSyncBinlog c stream).1.pos := by
    simp only [startSyncBinlog]
    cases hs : c.StartSync c.masterStatus with
    | some e => exact ⟨rfl, rfl, rfl⟩
    | none =>
      have hl := loop_calls_congr c save
        { pos := c.masterStatus
          timeout := Second
          trace := [Call.StartSync c.masterStatus]
          log := if c.IsInfo then ["[binlogsync] Start syncing of binlog"] else []
          waits := [] }
        { pos := c.masterStatus
          timeout := Second
          trace := [Call.StartSync c.masterStatus]
          log := if c.IsInfo then ["[binlogsync] Start syncing of binlog"] else []
          waits := [] } stream ⟨rfl, rfl⟩
      exact ⟨hl.1, hl.2.1.2, hl.2.2 rfl⟩
  obtain ⟨k1, k2, k3⟩ := key
  exact ⟨k1, k2, by rw [k2], by rw [k2], by rw [k2], k3⟩

/-- C15: if `StartSync` fails, `startSyncBinlog` returns a Fatal error at once:
`StartSync` is the only call made (once, no retry), `GetEvent` is never called,
and there is no flush, dispatch, `masterUpdate` or `masterSave`, whatever the
stream holds. -/
theorem startSyncBinlog_start_failure (c : Canal) (stream : List (Except Err BinlogEvent))
    (e : Err) (h : c.StartSync c.masterStatus = some e) :
    (startSyncBinlog c stream).2 =
      some (.Fatal "[binlogsync] Start sync replication at %s error %v") ∧
    (startSyncBinlog c stream).1.trace = [Call.StartSync c.masterStatus] ∧
    (startSyncBinlog c stream).1.waits = [] := by
  simp [startSyncBinlog, h]

theorem startSyncBinlog_start_failure_witness :
    startFailCanal.StartSync startFailCanal.masterStatus = some (.other "connection refused") ∧
    (startSyncBinlog startFailCanal [xidEvent 120]).1.trace =
      [Call.StartSync startFailCanal.masterStatus] :=
  ⟨rfl, (startSyncBinlog_start_failure startFailCanal [xidEvent 120]
    (.other "connection refused") rfl).2.1⟩

/-- C16: if `GetEvent` returns an error other than `DeadlineExceeded` (such as a
cancellation), `startSyncBinlog` stops and returns that error wrapped; the
attempt makes no collaborator call and leaves the local `pos` as it was. -/
theorem startSyncBinlog_getEvent_error_stops (c : Canal) (st : LoopState)
    (pre : List (Except Err BinlogEvent)) (err : Err)
    (h : startSyncBinlog c pre = (st, none)) (he : err ≠ Err.DeadlineExceeded) :
    (startSyncBinlog c (pre ++ [.error err])).2 =
      some (.Wrap err "[binlogsync] startSyncBinlog.GetEvent") ∧
    (startSyncBinlog c (pre ++ [.error err])).1.trace = st.trace ∧
    (startSyncBinlog c (pre ++ [.error err])).1.pos = st.pos := by
  rw [startSyncBinlog_snoc c st pre _ h]
  simp [loopBody, he]

theorem startSyncBinlog_getEvent_error_stops_witness :
    startSyncBinlog demoCanal [] = (demoState, none) ∧
    Err.other "context canceled" ≠ Err.DeadlineExceeded ∧
    (startSyncBinlog demoCanal ([] ++ [.error (.other "context canceled")])).2 =
      some (.Wrap (.other "context canceled") "[binlogsync] startSyncBinlog.GetEvent") :=
  ⟨rfl, by decide,
    (startSyncBinlog_getEvent_error_stops demoCanal demoState [] (.other "context canceled")
      rfl (by decide)).1⟩

/-- C17: every `GetEvent` attempt of `startSyncBinlog` is given a timeout of
exactly two seconds, for every stream; in particular n `DeadlineExceeded`
answers in a row double the local `timeout` n times (with int64 wrap-around)
while each of the n attempts still waits two seconds. -/
theorem startSyncBinlog_wait_is_two_seconds (c : Canal) (st : LoopState) (n : Nat)
    (pre stream : List (Except Err BinlogEvent)) (h : startSyncBinlog c pre = (st, none)) :
    (∀ w ∈ (startSyncBinlog c stream).1.waits, w = 2000000000) ∧
    (startSyncBinlog c (pre ++ List.replicate n (.error Err.DeadlineExceeded))).1.waits =
      st.waits ++ List.replicate n 2000000000 ∧
    (startSyncBinlog c (pre ++ List.replicate n (.error Err.DeadlineExceeded))).1.timeout =
      doubled st.timeout n := by
  refine ⟨?_, ?_, ?_⟩
  · simp only [startSyncBinlog]
    cases hs : c.StartSync c.masterStatus with
    | some e => simp
    | none =>
      intro w hw
      rcases loop_waits_mem c _ stream w hw with h1 | h1
      · simp at h1
      · rw [h1]
        rfl
  · rw [startSyncBinlog_append c st pre _ h, (loop_deadlines_locals c st n).1]
    rfl
  · rw [startSyncBinlog_append c st pre _ h, (loop_deadlines_locals c st n).2]

theorem startSyncBinlog_wait_is_two_seconds_witness :
    startSyncBinlog demoCanal [] = (demoState, none) ∧
    (startSyncBinlog demoCanal ([] ++ List.replicate 3 (.error Err.DeadlineExceeded))).1.waits =
      demoState.waits ++ List.replicate 3 2000000000 ∧
    (startSyncBinlog demoCanal ([] ++ List.replicate 3 (.error Err.DeadlineExceeded))).1.timeout =
      doubled demoState.timeout 3 :=
  ⟨rfl, (startSyncBinlog_wait_is_two_seconds demoCanal demoState 3 [] [] rfl).2⟩

/-- C39: for a Rows event of the configured schema whose header event type is
none of the six WRITE, UPDATE and DELETE ROWS types, `handleRowsEvent` calls
`FindTable` first and, the table resolved, returns a NotSupported error without
calling the dispatcher; `startSyncBinlog` then stops with that error wrapped
and calls neither `masterUpdate` nor `masterSave`. -/
theorem startSyncBinlog_unsupported_rows_type (c : Canal) (st : LoopState)
    (pre : List (Except Err BinlogEvent)) (hdr : EventHeader) (id : Nat) (table : String)
    (rows : List Row) (t : Table)
    (h : startSyncBinlog c pre = (st, none))
    (hty : hdr.EventType ≠ .WRITE_ROWS_EVENTv1 ∧ hdr.EventType ≠ .WRITE_ROWS_EVENTv2 ∧
      hdr.EventType ≠ .UPDATE_ROWS_EVENTv1 ∧ hdr.EventType ≠ .UPDATE_ROWS_EVENTv2 ∧
      hdr.EventType ≠ .DELETE_ROWS_EVENTv1 ∧ hdr.EventType ≠ .DELETE_ROWS_EVENTv2)
    (hf : c.FindTable st.trace (int id) table = .ok t) :
    handleRowsEvent c st { Header := hdr, Event := .RowsEvent id c.DBName table rows } =
      ({ st with trace := st.trace ++ [Call.FindTable (int id) table] },
        some (.NotSupported "[binlogsync] EventType %v not yet supported. Table %q.%q")) ∧
    (startSyncBinlog c
      (pre ++ [.ok { Header := hdr, Event := .RowsEvent id c.DBName table rows }])).2 =
      some (.Wrap (.NotSupported "[binlogsync] EventType %v not yet supported. Table %q.%q")
        "[binlogsync] handleRowsEvent") ∧
    (startSyncBinlog c
      (pre ++ [.ok { Header := hdr, Event := .RowsEvent id c.DBName table rows }])).1.trace =
      st.trace ++ [Call.FindTable (int id) table] ∧
    dispatched (startSyncBinlog c
      (pre ++ [.ok { Header := hdr, Event := .RowsEvent id c.DBName table rows }])).1.trace =
      dispatched st.trace ∧
    updates (startSyncBinlog c
      (pre ++ [.ok { Header := hdr, Event := .RowsEvent id c.DBName table rows }])).1.trace =
      updates st.trace ∧
    saves (startSyncBinlog c
      (pre ++ [.ok { Header := hdr, Event := .RowsEvent id c.DBName table rows }])).1.trace =
      saves st.trace := by
  have ha : rowsAction hdr.EventType = none := by
    obtain ⟨h1, h2, h3, h4, h5, h6⟩ := hty
    cases hty2 : hdr.EventType <;> simp_all [rowsAction]
  rw [startSyncBinlog_snoc c st pre _ h]
  simp [loopBody, handleRowsEvent, hf, ha, updates_append, updates, saves_append, saves,
    dispatched_append, dispatched]

theorem startSyncBinlog_unsupported_rows_type_witness :
    startSyncBinlog demoCanal [] = (demoState, none) ∧
    demoCanal.FindTable demoState.trace (int 7) "orders" =
      .ok { Schema := "shop", Name := "orders" } ∧
    (startSyncBinlog demoCanal
      ([] ++ [.ok { Header := { LogPos := 120, EventType := .unlisted 20 },
                    Event := .RowsEvent 7 demoCanal.DBName "orders" [["1", "a"]] }])).1.trace =
      demoState.trace ++ [Call.FindTable (int 7) "orders"] :=
  ⟨rfl, rfl,
    (startSyncBinlog_unsupported_rows_type demoCanal demoState []
      { LogPos := 120, EventType := .unlisted 20 } 7 "orders" [["1", "a"]]
      { Schema := "shop", Name := "orders" } rfl
      ⟨by decide, by decide, by decide, by decide, by decide, by decide⟩ rfl).2.2.1⟩

end Binlogsync

namespace ConfigPath

/-- What `Contains` computes: some element of the slice agrees with `p` on `ID`
and `Scope`; `Sum32` is not compared with `p.Sum32`. -/
theorem PathSlice.contains_iff (ps : PathSlice) (p : Path) :
    PathSlice.Contains ps p = true ↔ ∃ q ∈ ps, q.ID = p.ID ∧ q.Scope = p.Scope := by
  induction ps with
  | nil => simp [PathSlice.Contains]
  | cons x xs ih =>
    by_cases h : x.ID = p.ID ∧ x.Scope = p.Scope
    · simp [PathSlice.Contains, h]
    · have h2 : ¬ (x.ID = p.ID ∧ x.Scope = p.Scope) := h
      simp only [PathSlice.Contains, beq_self_eq_true, Bool.and_true, Bool.and_eq_true,
        beq_iff_eq, h, if_false, ih, List.mem_cons, exists_eq_or_imp, false_or]

/-- C18 (the code departs from the claim): an element that agrees with `p` on
`ID` and `Scope` but has a different `Sum32` makes `Contains` return true. -/
theorem c18_contains_ignores_sum32 :
    PathSlice.Contains [{ ID := 1, Scope := 2, Sum32 := 10 }]
      { ID := 1, Scope := 2, Sum32 := 20 } = true := by
  decide

end ConfigPath

namespace StorePkg

/-- C19 (the code departs from the claim): on a manager whose `appStore` is
set, `Store`, `Group` and `Website` called with two arguments return the
`appStore` (its group, its website) and a nil error; `Service.Store` does the
same. -/
theorem c19_two_arguments_no_error :
    (initialisedManager.Store [some { ID := 2, Code := none }, some { ID := 3, Code := none }]).1 =
      (some (storeView 1 "de"), none) ∧
    (initialisedManager.Group [some { ID := 2, Code := none }, some { ID := 3, Code := none }]).1 =
      (some dachGroup, none) ∧
    (initialisedManager.Website
      [some { ID := 2, Code := none }, some { ID := 3, Code := none }]).1 =
      (some euroWebsite, none) ∧
    (initialisedService.Store [some { ID := 2, Code := none }, some { ID := 3, Code := none }]).1 =
      (some (storeView 1 "de"), none) := by
  refine ⟨?_, ?_, ?_, ?_⟩ <;> rfl

/-- C20 (the code departs from the claim): two identifiers with empty codes and
the IDs 2 and 3 get the same cache key, so after `Store` was called for ID 2
the call for ID 3 returns store view 2 from the cache, while the storage
returns store view 3 for it. -/
theorem c20_empty_codes_share_cache_entry :
    hash none none (some { ID := 2, Code := some "" }) =
      hash none none (some { ID := 3, Code := some "" }) ∧
    ((NewManager demoStorage).Store [some { ID := 2, Code := some "" }]).1 =
      (some (storeView 2 "at"), none) ∧
    (((NewManager demoStorage).Store [some { ID := 2, Code := some "" }]).2.Store
      [some { ID := 3, Code := some "" }]).1 = (some (storeView 2 "at"), none) ∧
    demoStorage.Store (some { ID := 3, Code := some "" }) = (some (storeView 3 "ch"), none) := by
  refine ⟨?_, ?_, ?_, ?_⟩ <;> rfl

/-! ## Facts about the cache maps and the manager methods -/

theorem GoMap.lookup_filter_ne {α : Type} (m : GoMap α) (k k2 : Nat) (h : k ≠ k2) :
    List.lookup k (m.filter (fun kv => kv.1 != k2)) = List.lookup k m := by
  induction m with
  | nil => rfl
  | cons x xs ih =>
    rcases x with ⟨a, v⟩
    by_cases ha : a = k2
    · subst ha
      have hk : (k == a) = false := by simpa using h
      simp [List.filter, List.lookup, hk, ih]
    · have hne : (a != k2) = true := by simpa using ha
      simp only [List.filter, hne, List.lookup, ih]

theorem GoMap.get_set_ne {α : Type} (m : GoMap α) (k k2 : Nat) (v : α) (h : k ≠ k2) :
    (m.set k2 v).get k = m.get k := by
  have hk : (k == k2) = false := by simpa using h
  simp only [GoMap.get, GoMap.set, List.lookup, hk]
  exact GoMap.lookup_filter_ne m k k2 h

theorem GoMap.clear_length {α : Type} (m : GoMap α) : m.clear.length = 0 := by
  unfold GoMap.clear
  split
  · rfl
  · omega

theorem Keeps.refl (a : Manager) : Keeps a a :=
  ⟨fun _ _ h => h, fun _ h => h, fun _ h => h⟩

theorem Keeps.trans {a b c : Manager} (h1 : Keeps a b) (h2 : Keeps b c) : Keeps a c :=
  ⟨fun k s h => h2.1 k s (h1.1 k s h), fun ss h => h2.2.1 ss (h1.2.1 ss h),
    fun d h => h2.2.2 d (h1.2.2 d h)⟩

/-- `Manager.Store` leaves `appStore` and the storage alone and keeps the caches. -/
theorem Manager.Store_frame (sm : Manager) (r : List (Option IDer)) :
    (sm.Store r).2.appStore = sm.appStore ∧ (sm.Store r).2.storage = sm.storage ∧
    Keeps sm (sm.Store r).2 := by
  unfold Manager.Store
  simp only
  split
  · exact ⟨rfl, rfl, Keeps.refl sm⟩
  · split
    · exact ⟨rfl, rfl, Keeps.refl sm⟩
    · split
      · exact ⟨rfl, rfl, Keeps.refl sm⟩
      · rename_i key hkey
        split
        · exact ⟨rfl, rfl, Keeps.refl sm⟩
        · rename_i hmiss
          refine ⟨rfl, rfl, ?_, fun _ h => h, fun _ h => h⟩
          intro k s hk
          by_cases hkk : k = key
          · subst hkk
            exact absurd hk (hmiss s)
          · simp only
            rw [GoMap.get_set_ne _ _ _ _ hkk]
            exact hk

/-- `Manager.Group` leaves `appStore` and the storage alone and keeps the caches. -/
theorem Manager.Group_frame (sm : Manager) (r : List (Option IDer)) :
    (sm.Group r).2.appStore = sm.appStore ∧ (sm.Group r).2.storage = sm.storage ∧
    Keeps sm (sm.Group r).2 := by
  unfold Manager.Group
  simp only
  split
  · exact ⟨rfl, rfl, Keeps.refl sm⟩
  · split
    · exact ⟨rfl, rfl, Keeps.refl sm⟩
    · split
      · exact ⟨rfl, rfl, Keeps.refl sm⟩
      · split
        · exact ⟨rfl, rfl, Keeps.refl sm⟩
        · exact ⟨rfl, rfl, fun _ _ h => h, fun _ h => h, fun _ h => h⟩

/-- `Manager.Website` leaves `appStore` and the storage alone and keeps the caches. -/
theorem Manager.Website_frame (sm : Manager) (r : List (Option IDer)) :
    (sm.Website r).2.appStore = sm.appStore ∧ (sm.Website r).2.storage = sm.storage ∧
    Keeps sm (sm.Website r).2 := by
  unfold Manager.Website
  simp only
  split
  · exact ⟨rfl, rfl, Keeps.refl sm⟩
  · split
    · exact ⟨rfl, rfl, Keeps.refl sm⟩
    · split
      · exact ⟨rfl, rfl, Keeps.refl sm⟩
      · split
        · exact ⟨rfl, rfl, Keeps.refl sm⟩
        · exact ⟨rfl, rfl, fun _ _ h => h, fun _ h => h, fun _ h => h⟩

/-- `FindDefaultStoreByScope` leaves `appStore` and the storage alone and keeps
the caches. -/
theorem Manager.FindDefaultStoreByScope_frame (md : Methods) (sm : Manager)
    (so : ScopeOption) :
    (sm.FindDefaultStoreByScope md so).2.appStore = sm.appStore ∧
    (sm.FindDefaultStoreByScope md so).2.storage = sm.storage ∧
    Keeps sm (sm.FindDefaultStoreByScope md so).2 := by
  unfold Manager.FindDefaultStoreByScope
  split
  · exact Manager.Store_frame sm _
  · simp only
    split <;> exact Manager.Group_frame sm _
  · simp only
    split <;> exact Manager.Website_frame sm _
  · exact ⟨rfl, rfl, Keeps.refl sm⟩

/-- C23: for every manager state, `IsCacheEmpty()` returns true right after
`ClearCache` with any arguments. -/
theorem Manager.clearCache_isCacheEmpty (sm : Manager) (clearAll : List Bool) :
    (sm.ClearCache clearAll).IsCacheEmpty = true := by
  simp [Manager.ClearCache, Manager.IsCacheEmpty, GoMap.clear_length]

/-- After `ClearCache(true)` method `Init` looks the default store up again: it
returns the error of that lookup and sets `appStore` to the store found. -/
theorem Manager.Init_after_clearCache (md : Methods) (sm : Manager) (so : ScopeOption) :
    ((sm.ClearCache [true]).Init md so).1 =
      ((sm.ClearCache [true]).FindDefaultStoreByScope md so).1.2.map
        (Err.logged "store.Manager.Init") ∧
    ((sm.ClearCache [true]).Init md so).2.appStore =
      ((sm.ClearCache [true]).FindDefaultStoreByScope md so).1.1 := by
  have h0 : (sm.ClearCache [true]).appStore = none := by simp [Manager.ClearCache]
  unfold Manager.Init
  simp only [h0, Option.isSome_none, Bool.false_eq_true, if_false]
  split <;> rename_i h <;> simp [h]

/-- C24: `ClearCache` sets `appStore` to nil when it is called with exactly one
argument and that argument is true, and leaves `appStore` unchanged otherwise
(so `ClearCache()` and `ClearCache(false)` keep an initialised manager
initialised, and `Init` on it still fails with `ErrAppStoreSet`).  After
`ClearCache(true)` on a manager whose storage finds the default store s of the
scope option, `Init` succeeds again: it returns nil and sets `appStore` to s,
and `Store()` without argument returns s. -/
theorem Manager.clearCache_appStore (md : Methods) (sm : Manager) (clearAll : List Bool)
    (so : ScopeOption) (s : StorePkg.Store)
    (hfind : ((sm.ClearCache [true]).FindDefaultStoreByScope md so).1 = (some s, none)) :
    (sm.ClearCache clearAll).appStore = (if clearAll = [true] then none else sm.appStore) ∧
    (sm.ClearCache []).appStore = sm.appStore ∧
    (sm.ClearCache [false]).appStore = sm.appStore ∧
    (sm.ClearCache [true]).appStore = none ∧
    (sm.appStore.isSome = true →
      ((sm.ClearCache []).Init md so).1 = some .ErrAppStoreSet ∧
      ((sm.ClearCache [false]).Init md so).1 = some .ErrAppStoreSet) ∧
    ((sm.ClearCache [true]).Init md so).1 = none ∧
    ((sm.ClearCache [true]).Init md so).2.appStore = some s ∧
    (((sm.ClearCache [true]).Init md so).2.Store []).1 = (some s, none) := by
  have hinit := Manager.Init_after_clearCache md sm so
  rw [hfind] at hinit
  simp only [Option.map_none'] at hinit
  refine ⟨?_, ?_, ?_, ?_, ?_, hinit.1, hinit.2, ?_⟩
  · rcases clearAll with _ | ⟨b, _ | ⟨c, t⟩⟩
    · simp [Manager.ClearCache]
    · cases b <;> simp [Manager.ClearCache]
    · simp [Manager.ClearCache]
  · simp [Manager.ClearCache]
  · simp [Manager.ClearCache]
  · simp [Manager.ClearCache]
  · intro hs
    constructor <;> simp [Manager.Init, Manager.ClearCache, hs]
  · simp [Manager.Store, hinit.2]

theorem Manager.clearCache_appStore_witness :
    ((initialisedManager.ClearCache [true]).FindDefaultStoreByScope demoMethods
      { Website := none, Group := none, Store := some { ID := 2, Code := none },
        Scope := .StoreID }).1 = (some (storeView 2 "at"), none) ∧
    (initialisedManager.Init demoMethods
      { Website := none, Group := none, Store := some { ID := 2, Code := none },
        Scope := .StoreID }).1 = some .ErrAppStoreSet ∧
    ((initialisedManager.ClearCache [true]).Init demoMethods
      { Website := none, Group := none, Store := some { ID := 2, Code := none },
        Scope := .StoreID }).1 = none ∧
    ((initialisedManager.ClearCache [true]).Init demoMethods
      { Website := none, Group := none, Store := some { ID := 2, Code := none },
        Scope := .StoreID }).2.appStore = some (storeView 2 "at") :=
  ⟨rfl, rfl,
    (Manager.clearCache_appStore demoMethods initialisedManager []
      { Website := none, Group := none, Store := some { ID := 2, Code := none },
        Scope := .StoreID } (storeView 2 "at") rfl).2.2.2.2.2.1,
    (Manager.clearCache_appStore demoMethods initialisedManager []
      { Website := none, Group := none, Store := some { ID := 2, Code := none },
        Scope := .StoreID } (storeView 2 "at") rfl).2.2.2.2.2.2.1⟩

/-- C25: `Init` on a manager whose `appStore` is set returns `ErrAppStoreSet` for
every scope option and leaves the manager as it was: the storage is not called
and `Store()` without argument returns the same store as before. -/
theorem Manager.init_twice (md : Methods) (sm : Manager) (so : ScopeOption)
    (s : StorePkg.Store) (h : sm.appStore = some s) :
    sm.Init md so = (some .ErrAppStoreSet, sm) ∧
    (sm.Init md so).2.storageLog = sm.storageLog ∧
    ((sm.Init md so).2.Store []).1 = (some s, none) ∧
    (sm.Store []).1 = (some s, none) := by
  have h1 : sm.Init md so = (some .ErrAppStoreSet, sm) := by
    simp [Manager.Init, h]
  rw [h1]
  simp [Manager.Store, h]

theorem Manager.init_twice_witness :
    initialisedManager.appStore = some (storeView 1 "de") ∧
    (initialisedManager.Init demoMethods
      { Website := none, Group := none, Store := some { ID := 2, Code := none },
        Scope := .StoreID }).1 = some .ErrAppStoreSet :=
  ⟨rfl, congrArg Prod.fst (Manager.init_twice demoMethods initialisedManager
    { Website := none, Group := none, Store := some { ID := 2, Code := none },
      Scope := .StoreID } (storeView 1 "de") rfl).1⟩

/-- C28: on a manager whose `appStore` is not set, `GetRequestStore` returns
(nil, `ErrAppStoreNotSet`) for every option and scope type without calling the
storage, and `Store`, `Group` and `Website` called with no argument or with a
single nil argument return (nil, `ErrAppStoreNotSet`). -/
theorem Manager.uninitialised (md : Methods) (sm : Manager) (so : ScopeOption)
    (scopeType : Scope) (h : sm.appStore = none) :
    sm.GetRequestStore md so scopeType = (some (none, some .ErrAppStoreNotSet), sm) ∧
    sm.Store [] = ((none, some .ErrAppStoreNotSet), sm) ∧
    sm.Store [none] = ((none, some .ErrAppStoreNotSet), sm) ∧
    sm.Group [] = ((none, some .ErrAppStoreNotSet), sm) ∧
    sm.Group [none] = ((none, some .ErrAppStoreNotSet), sm) ∧
    sm.Website [] = ((none, some .ErrAppStoreNotSet), sm) ∧
    sm.Website [none] = ((none, some .ErrAppStoreNotSet), sm) := by
  simp [Manager.GetRequestStore, Manager.Store, Manager.Group, Manager.Website, h]

theorem Manager.uninitialised_witness :
    (NewManager demoStorage).appStore = none ∧
    ((NewManager demoStorage).Store [none]).1 = (none, some .ErrAppStoreNotSet) :=
  ⟨rfl, congrArg Prod.fst (Manager.uninitialised demoMethods (NewManager demoStorage)
    { Website := none, Group := none, Store := some { ID := 2, Code := none },
      Scope := .StoreID } .StoreID rfl).2.2.1⟩

/-- With a storage that returns no store together with an error, so does
`Manager.Store`. -/
theorem Manager.Store_nil_on_error (sm : Manager) (r : List (Option IDer))
    (hs : sm.storage.NilOnError) (he : (sm.Store r).1.2 ≠ none) : (sm.Store r).1.1 = none := by
  unfold Manager.Store at he ⊢
  simp only at he ⊢
  cases c1 : ((r.length == 0 || r.length == 1 && (r.headD none).isNone ||
      decide (r.length > 1)) && sm.appStore.isNone)
  · cases c2 : ((r.length == 0 || r.length == 1 && (r.headD none).isNone ||
        decide (r.length > 1)) && sm.appStore.isSome)
    · simp only [c1, c2, Bool.false_eq_true, if_false] at he ⊢
      rcases hh : hash none none (r.headD none) with ⟨key, _ | err⟩
      · simp only [hh] at he ⊢
        rcases hg : sm.storeMap.get key with _ | _ | s1
        · simp only [hg] at he ⊢
          apply hs
          intro hnone
          exact he (by rw [hnone]; rfl)
        · simp only [hg] at he ⊢
          apply hs
          intro hnone
          exact he (by rw [hnone]; rfl)
        · simp only [hg] at he
          exact absurd rfl he
      · simp only [hh]
    · simp only [c1, c2, Bool.false_eq_true, if_false, if_true] at he
      exact absurd rfl he
  · simp only [c1, if_true]

/-- With a storage and methods that return no store together with an error, so
does `FindDefaultStoreByScope`. -/
theorem Manager.FindDefaultStoreByScope_nil_on_error (md : Methods) (sm : Manager)
    (so : ScopeOption) (hs : sm.storage.NilOnError) (hm : md.NilOnError)
    (he : (sm.FindDefaultStoreByScope md so).1.2 ≠ none) :
    (sm.FindDefaultStoreByScope md so).1.1 = none := by
  unfold Manager.FindDefaultStoreByScope at he ⊢
  split
  · rename_i h
    rw [h] at he
    exact Manager.Store_nil_on_error sm _ hs he
  · rename_i h
    rw [h] at he
    simp only at he ⊢
    split
    · rfl
    · rename_i h2
      simp only [h2] at he
      exact hm.1 _ he
  · rename_i h
    rw [h] at he
    simp only at he ⊢
    split
    · rfl
    · rename_i h2
      simp only [h2] at he
      exact hm.2 _ he
  · rfl

/-- On a manager whose `appStore` is not set, `Init` does not return
`ErrAppStoreSet`. -/
theorem Manager.Init_of_unset (md : Methods) (sm : Manager) (so : ScopeOption)
    (h : sm.appStore = none) : (sm.Init md so).1 ≠ some .ErrAppStoreSet := by
  unfold Manager.Init
  simp only [h, Option.isSome_none, Bool.false_eq_true, if_false]
  split <;> simp

/-- C26: if `Init` fails on a manager whose `appStore` is not set (the scope is
not supported, or the website, group or store is not found, the storage and the
`DefaultStore` methods returning no store together with their error), then
`appStore` stays unset: `Store()` without argument still returns
`ErrAppStoreNotSet` and a later `Init` is not rejected with `ErrAppStoreSet`. -/
theorem Manager.init_failure (md : Methods) (sm : Manager) (so so2 : ScopeOption)
    (h : sm.appStore = none) (hs : sm.storage.NilOnError) (hm : md.NilOnError)
    (hf : (sm.Init md so).1 ≠ none) :
    (sm.Init md so).2.appStore = none ∧
    ((sm.Init md so).2.Store []).1 = (none, some .ErrAppStoreNotSet) ∧
    ((sm.Init md so).2.Init md so2).1 ≠ some .ErrAppStoreSet := by
  have happ : (sm.Init md so).2.appStore = none := by
    unfold Manager.Init at hf ⊢
    simp only [h, Option.isSome_none, Bool.false_eq_true, if_false] at hf ⊢
    have hnil := Manager.FindDefaultStoreByScope_nil_on_error md sm so hs hm
    split
    · rename_i err herr
      simp only
      apply hnil
      rw [herr]
      simp
    · rename_i herr
      simp [herr] at hf
  refine ⟨happ, ?_, ?_⟩
  · simp [Manager.Store, happ]
  · exact Manager.Init_of_unset md _ so2 happ

theorem Manager.init_failure_witness :
    (NewManager demoStorage).appStore = none ∧
    ((NewManager demoStorage).Init demoMethods
      { Website := none, Group := none, Store := some { ID := 9, Code := none },
        Scope := .StoreID }).1 ≠ none ∧
    ((NewManager demoStorage).Init demoMethods
      { Website := none, Group := none, Store := some { ID := 9, Code := none },
        Scope := .StoreID }).2.appStore = none := by
  have hs : (NewManager demoStorage).storage.NilOnError := by
    intro r hr
    rcases r with _ | ⟨id, code⟩
    · rfl
    · simp only [NewManager, demoStorage] at hr ⊢
      split_ifs at hr ⊢ <;> simp_all
  have hm : demoMethods.NilOnError := by
    constructor <;> intro x hx <;> cases x <;> simp_all [demoMethods]
  have hf : ((NewManager demoStorage).Init demoMethods
      { Website := none, Group := none, Store := some { ID := 9, Code := none },
        Scope := .StoreID }).1 ≠ none := by decide
  exact ⟨rfl, hf, (Manager.init_failure demoMethods (NewManager demoStorage)
    { Website := none, Group := none, Store := some { ID := 9, Code := none },
      Scope := .StoreID }
    { Website := none, Group := none, Store := some { ID := 1, Code := none },
      Scope := .StoreID } rfl hs hm hf).1⟩

/-- C27: on an initialised manager, when the scope option resolves (the lookup
of `FindDefaultStoreByScope` succeeds) and the storage returns the store s for
what was found, `GetRequestStore` returns s if s is active and the scope type
is StoreID, or GroupID with the `GroupID` of the `appStore`, or WebsiteID with
the `WebsiteID` of the `appStore`; for an active s it returns nil and
`ErrStoreChangeNotAllowed` in every other case; for an inactive s it returns
nil and `ErrStoreNotActive` for every scope type. -/
theorem Manager.getRequestStore_result (md : Methods) (sm : Manager) (so : ScopeOption)
    (scopeType : Scope) (app s : StorePkg.Store) (found : Option StorePkg.Store)
    (happ : sm.appStore = some app)
    (hfind : (sm.FindDefaultStoreByScope md so).1 = (found, none))
    (hact : sm.storage.Store (md.StoreIDer found) = (some s, none)) :
    (sm.GetRequestStore md so scopeType).1 =
      some (if s.Data.IsActive then
          (if scopeType = .StoreID ∨
              (scopeType = .GroupID ∧ s.Data.GroupID = app.Data.GroupID) ∨
              (scopeType = .WebsiteID ∧ s.Data.WebsiteID = app.Data.WebsiteID) then
            (some s, none)
          else (none, some .ErrStoreChangeNotAllowed))
        else (none, some .ErrStoreNotActive)) := by
  obtain ⟨f1, f2, _⟩ := Manager.FindDefaultStoreByScope_frame md sm so
  have h1 : (sm.FindDefaultStoreByScope md so).1.1 = found := by rw [hfind]
  have h2 : (sm.FindDefaultStoreByScope md so).1.2 = none := by rw [hfind]
  unfold Manager.GetRequestStore
  simp only [happ, Option.isNone_some, Bool.false_eq_true, if_false, h2, h1]
  unfold Manager.activeStore
  simp only [f2, hact]
  cases hia : s.Data.IsActive
  · simp
  · simp only [if_true, f1, happ]
    cases scopeType <;> simp <;> split <;> rfl

theorem Manager.getRequestStore_result_witness :
    initialisedManager.appStore = some (storeView 1 "de") ∧
    (initialisedManager.FindDefaultStoreByScope demoMethods
      { Website := none, Group := none, Store := some { ID := 2, Code := none },
        Scope := .StoreID }).1 = (some (storeView 2 "at"), none) ∧
    initialisedManager.storage.Store (demoMethods.StoreIDer (some (storeView 2 "at"))) =
      (some (storeView 2 "at"), none) ∧
    (initialisedManager.GetRequestStore demoMethods
      { Website := none, Group := none, Store := some { ID := 2, Code := none },
        Scope := .StoreID } .GroupID).1 = some (some (storeView 2 "at"), none) :=
  ⟨rfl, rfl, rfl, Manager.getRequestStore_result demoMethods initialisedManager
    { Website := none, Group := none, Store := some { ID := 2, Code := none },
      Scope := .StoreID } .GroupID (storeView 1 "de") (storeView 2 "at")
    (some (storeView 2 "at")) rfl rfl rfl⟩

theorem GoMap.get_set_self {α : Type} (m : GoMap α) (k : Nat) (v : α) :
    (m.set k v).get k = some v := by
  simp [GoMap.get, GoMap.set, List.lookup]

theorem hash_store_ok (r : IDer) : (hash none none (some r)).2 = none := by
  rcases r with ⟨id, _ | code⟩ <;> simp [hash]

theorem Manager.Stores_keeps (sm : Manager) : Keeps sm sm.Stores.2 := by
  unfold Manager.Stores
  split
  · exact Keeps.refl sm
  · rename_i h
    exact ⟨fun _ _ hk => hk, fun ss hs => by simp [h] at hs, fun _ hd => hd⟩

theorem Manager.DefaultStoreView_keeps (sm : Manager) : Keeps sm sm.DefaultStoreView.2 := by
  unfold Manager.DefaultStoreView
  split
  · exact Keeps.refl sm
  · rename_i h
    exact ⟨fun _ _ hk => hk, fun _ hs => hs, fun d hd => by simp [h] at hd⟩

theorem Manager.Websites_keeps (sm : Manager) : Keeps sm sm.Websites.2 := by
  unfold Manager.Websites
  split
  · exact Keeps.refl sm
  · exact ⟨fun _ _ hk => hk, fun _ hs => hs, fun _ hd => hd⟩

theorem Manager.Groups_keeps (sm : Manager) : Keeps sm sm.Groups.2 := by
  unfold Manager.Groups
  split
  · exact Keeps.refl sm
  · exact ⟨fun _ _ hk => hk, fun _ hs => hs, fun _ hd => hd⟩

theorem Manager.HasSingleStore_keeps (sm : Manager) : Keeps sm sm.HasSingleStore.2 := by
  unfold Manager.HasSingleStore
  simp only
  split <;> exact Manager.Stores_keeps sm

theorem Manager.Init_keeps (md : Methods) (sm : Manager) (so : ScopeOption) :
    Keeps sm (sm.Init md so).2 := by
  unfold Manager.Init
  split
  · exact Keeps.refl sm
  · have hk := (Manager.FindDefaultStoreByScope_frame md sm so).2.2
    simp only
    split <;> exact ⟨hk.1, hk.2.1, hk.2.2⟩

theorem Manager.activeStore_keeps (sm : Manager) (r : Option IDer) :
    Keeps sm (sm.activeStore r).2 := by
  unfold Manager.activeStore
  simp only
  split
  · exact ⟨fun _ _ hk => hk, fun _ hs => hs, fun _ hd => hd⟩
  · split
    · exact ⟨fun _ _ hk => hk, fun _ hs => hs, fun _ hd => hd⟩
    · split <;> exact ⟨fun _ _ hk => hk, fun _ hs => hs, fun _ hd => hd⟩

theorem Manager.GetRequestStore_keeps (md : Methods) (sm : Manager) (so : ScopeOption)
    (scopeType : Scope) : Keeps sm (sm.GetRequestStore md so scopeType).2 := by
  have hk := (Manager.FindDefaultStoreByScope_frame md sm so).2.2
  have ha := Manager.activeStore_keeps (sm.FindDefaultStoreByScope md so).2
    (md.StoreIDer (sm.FindDefaultStoreByScope md so).1.1)
  have hka := Keeps.trans hk ha
  unfold Manager.GetRequestStore
  simp only
  split
  · exact Keeps.refl sm
  · split
    · exact hk
    · split
      · exact hka
      · split
        · split <;> exact hka
        · split <;> exact hka
      · exact hka

theorem Manager.after_keeps (md : Methods) (sm : Manager) (op : Op) :
    Keeps sm (sm.after md op) := by
  cases op with
  | Website r => exact (Manager.Website_frame sm r).2.2
  | Websites => exact Manager.Websites_keeps sm
  | Group r => exact (Manager.Group_frame sm r).2.2
  | Groups => exact Manager.Groups_keeps sm
  | Store r => exact (Manager.Store_frame sm r).2.2
  | Stores => exact Manager.Stores_keeps sm
  | DefaultStoreView => exact Manager.DefaultStoreView_keeps sm
  | HasSingleStore => exact Manager.HasSingleStore_keeps sm
  | FindDefaultStoreByScope so => exact (Manager.FindDefaultStoreByScope_frame md sm so).2.2
  | Init so => exact Manager.Init_keeps md sm so
  | GetRequestStore so scopeType => exact Manager.GetRequestStore_keeps md sm so scopeType

theorem Manager.afterAll_keeps (md : Methods) (sm : Manager) (ops : List Op) :
    Keeps sm (sm.afterAll md ops) := by
  induction ops generalizing sm with
  | nil => exact Keeps.refl sm
  | cons op ops ih => exact Keeps.trans (Manager.after_keeps md sm op) (ih _)

/-- After `Store` has returned a non-nil store for an identifier, the store map
holds that store under the key of the identifier. -/
theorem Manager.Store_caches (sm : Manager) (r : IDer) (s : StorePkg.Store)
    (h : (sm.Store [some r]).1.1 = some s) :
    (sm.Store [some r]).2.storeMap.get (hash none none (some r)).1 = some (some s) := by
  have hh := hash_store_ok r
  unfold Manager.Store at h ⊢
  simp only [List.length_singleton, List.headD_cons, Option.isNone_some, Bool.and_false,
    Bool.or_false, Bool.false_and, Bool.false_eq_true, if_false, gt_iff_lt, lt_self_iff_false,
    decide_False, Nat.one_ne_zero, beq_iff_eq, beq_self_eq_true,
    (by decide : ((1 : Nat) == 0) = false)] at h ⊢
  rcases hk : hash none none (some r) with ⟨key, _ | err⟩
  · simp only [hk] at h ⊢
    rcases hg : sm.storeMap.get key with _ | _ | s1
    · simp only [hg] at h ⊢
      rw [GoMap.get_set_self, h]
    · simp only [hg] at h ⊢
      rw [GoMap.get_set_self, h]
    · simp only [hg] at h ⊢
      rw [h]
  · rw [hk] at hh
    cases hh

/-- A store held by the store map under the key of an identifier is returned by
`Store` without a call to the storage. -/
theorem Manager.Store_hit (sm : Manager) (r : IDer) (s : StorePkg.Store)
    (h : sm.storeMap.get (hash none none (some r)).1 = some (some s)) :
    sm.Store [some r] = ((some s, none), sm) := by
  have hh := hash_store_ok r
  unfold Manager.Store
  simp only [List.length_singleton, List.headD_cons, Option.isNone_some, Bool.and_false,
    Bool.or_false, Bool.false_and, Bool.false_eq_true, if_false, gt_iff_lt, lt_self_iff_false,
    decide_False, Nat.one_ne_zero, beq_iff_eq, beq_self_eq_true,
    (by decide : ((1 : Nat) == 0) = false)]
  rcases hk : hash none none (some r) with ⟨key, _ | err⟩
  · rw [hk] at h
    simp only [h]
  · rw [hk] at hh
    cases hh

theorem Manager.Stores_hit (sm : Manager) (ss : List StorePkg.Store)
    (h : sm.stores = some ss) : sm.Stores = ((some ss, none), sm) := by
  unfold Manager.Stores
  simp only [h]

theorem Manager.DefaultStoreView_hit (sm : Manager) (d : StorePkg.Store)
    (h : sm.defaultStore = some d) : sm.DefaultStoreView = ((some d, none), sm) := by
  unfold Manager.DefaultStoreView
  simp only [h]

/-- C29: once `Store(r)` has returned a non-nil store for the identifier r,
`Store(r)` returns that same store, with a nil error and without calling the
storage (the manager, and so its log of storage calls, is unchanged), after any
further calls of manager methods other than `ClearCache` and `ReInit`; the same
holds for `Stores()` and `DefaultStoreView()` once they have returned a non-nil
result. -/
theorem Manager.lookups_cached (md : Methods) (sm : Manager) (r : IDer) (s : StorePkg.Store)
    (ops : List Op) (h : (sm.Store [some r]).1.1 = some s) :
    ((sm.Store [some r]).2.afterAll md ops).Store [some r] =
      ((some s, none), (sm.Store [some r]).2.afterAll md ops) ∧
    (∀ ss, sm.Stores.1.1 = some ss →
      (sm.Stores.2.afterAll md ops).Stores = ((some ss, none), sm.Stores.2.afterAll md ops)) ∧
    (∀ d, sm.DefaultStoreView.1.1 = some d →
      (sm.DefaultStoreView.2.afterAll md ops).DefaultStoreView =
        ((some d, none), sm.DefaultStoreView.2.afterAll md ops)) := by
  refine ⟨?_, ?_, ?_⟩
  · apply Manager.Store_hit
    exact (Manager.afterAll_keeps md _ ops).1 _ _ (Manager.Store_caches sm r s h)
  · intro ss hss
    have h1 : sm.Stores.2.stores = some ss := by
      unfold Manager.Stores at hss ⊢
      split
      · rename_i ss1 h1
        simp only [h1] at hss ⊢
        exact hss
      · rename_i h1
        simp only [h1] at hss ⊢
        exact hss
    exact Manager.Stores_hit _ ss ((Manager.afterAll_keeps md _ ops).2.1 ss h1)
  · intro d hd
    have h1 : sm.DefaultStoreView.2.defaultStore = some d := by
      unfold Manager.DefaultStoreView at hd ⊢
      split
      · rename_i d1 h1
        simp only [h1] at hd ⊢
        exact hd
      · rename_i h1
        simp only [h1] at hd ⊢
        exact hd
    exact Manager.DefaultStoreView_hit _ d ((Manager.afterAll_keeps md _ ops).2.2 d h1)

theorem Manager.lookups_cached_witness :
    ((NewManager demoStorage).Store [some { ID := 2, Code := none }]).1.1 =
      some (storeView 2 "at") ∧
    ((((NewManager demoStorage).Store [some { ID := 2, Code := none }]).2.afterAll demoMethods
      [.Stores, .Store [some { ID := 3, Code := none }]]).Store
        [some { ID := 2, Code := none }]).1 = (some (storeView 2 "at"), none) :=
  ⟨rfl, congrArg Prod.fst (Manager.lookups_cached demoMethods (NewManager demoStorage)
    { ID := 2, Code := none } (storeView 2 "at")
    [.Stores, .Store [some { ID := 3, Code := none }]] rfl).1⟩

theorem hashCode_eq_fnv (h : Nat) (bs : List Nat) :
    bs.foldl (fun hash c => ((hash ^^^ c) * 1099511628211) % 2 ^ 64) h = fnv1a64 h bs := by
  induction bs generalizing h with
  | nil => rfl
  | cons b bs ih => exact ih _

/-- C37: `hashCode(code)` is the 64-bit FNV-1a hash of the bytes of `code`, from
the offset basis 14695981039346656037 (so `hashCode("")` is the offset basis and
`hashCode("a")` is the published value af63dc4c8601ec8c); `hash` returns
(0, `ErrHashRetrieverNil`) exactly when all three identifier arguments are nil. -/
theorem hashCode_is_fnv1a (code : String) (wID gID sID : Option IDer) :
    hashCode code =
      fnv1a64 14695981039346656037 (code.toUTF8.data.toList.map UInt8.toNat) ∧
    hashCode "" = 14695981039346656037 ∧
    hashCode "a" = 12638187200555641996 ∧
    (hash wID gID sID = (0, some .ErrHashRetrieverNil) ↔
      (wID = none ∧ gID = none ∧ sID = none)) ∧
    ((hash wID gID sID).2 = none ↔ ¬ (wID = none ∧ gID = none ∧ sID = none)) := by
  refine ⟨hashCode_eq_fnv _ _, rfl, rfl, ?_, ?_⟩
  · rcases wID with _ | ⟨wi, _ | wc⟩ <;> rcases gID with _ | g <;>
      rcases sID with _ | ⟨si, _ | sc⟩ <;> simp [hash]
  · rcases wID with _ | ⟨wi, _ | wc⟩ <;> rcases gID with _ | g <;>
      rcases sID with _ | ⟨si, _ | sc⟩ <;> simp [hash]

end StorePkg

namespace Dbr

/-- C21 (the code departs from the claim): `Columns` replaces the column list
instead of appending to it: on an Insert with the columns [a], `Columns("b")`
leaves the columns [b], and `Columns("a")` then `Columns("b")` yields [b]. -/
theorem c21_columns_replaces :
    (Insert.Columns { Into := "t", Cols := ["a"], Vals := [], Recs := [], Maps := [] }
      ["b"]).Cols = ["b"] ∧
    (Insert.Columns
      (Insert.Columns { Into := "t", Cols := [], Vals := [], Recs := [], Maps := [] } ["a"])
      ["b"]).Cols = ["b"] := by
  constructor <;> rfl

theorem intercalate_go_append (x a s : String) (l : List String) :
    String.intercalate.go (x ++ a) s l = x ++ String.intercalate.go a s l := by
  induction l generalizing a with
  | nil => simp [String.intercalate.go]
  | cons b l ih =>
    simp only [String.intercalate.go]
    rw [String.append_assoc x a s, String.append_assoc x (a ++ s) b, ih]

theorem writeOrderBys_succ (i : Nat) (ss : List String) (buf : String) :
    writeOrderBys (i + 1) ss buf = String.intercalate.go buf ", " ss := by
  induction ss generalizing i buf with
  | nil => simp [writeOrderBys, String.intercalate.go]
  | cons s ss ih =>
    simp only [writeOrderBys, String.intercalate.go, Nat.succ_pos, if_true, gt_iff_lt, ih]

/-- The loop over the ORDER BY columns joins them with a comma and a blank. -/
theorem writeOrderBys_zero (s : String) (ss : List String) (buf : String) :
    writeOrderBys 0 (s :: ss) buf = buf ++ ", ".intercalate (s :: ss) := by
  simp only [writeOrderBys, Nat.lt_irrefl, if_false, gt_iff_lt, writeOrderBys_succ,
    String.intercalate, intercalate_go_append]

theorem writeCols_succ (h : Helpers) (i : Nat) (cs : List String) (buf ph : String) :
    writeCols h (i + 1) cs (buf, ph) =
      (String.intercalate.go buf "," (cs.map h.writeQuotedColumn),
        String.intercalate.go ph "," (List.replicate cs.length "?")) := by
  induction cs generalizing i buf ph with
  | nil => simp [writeCols, String.intercalate.go]
  | cons c cs ih =>
    simp only [writeCols, Nat.succ_pos, if_true, gt_iff_lt, ih, List.map_cons, List.length_cons,
      List.replicate_succ, String.intercalate.go]

/-- The loop over the columns joins the quoted columns, and as many question
marks, with commas. -/
theorem writeCols_zero (h : Helpers) (c : String) (cs : List String) (buf ph : String) :
    writeCols h 0 (c :: cs) (buf, ph) =
      (buf ++ ",".intercalate ((c :: cs).map h.writeQuotedColumn),
        ph ++ ",".intercalate (List.replicate (c :: cs).length "?")) := by
  simp only [writeCols, Nat.lt_irrefl, if_false, gt_iff_lt, writeCols_succ, List.map_cons,
    List.length_cons, List.replicate_succ, String.intercalate, intercalate_go_append]

theorem writeVals_succ (p : String) (i : Nat) (rows : List (List Value)) (buf : String)
    (args : List Value) :
    writeVals p (i + 1) rows (buf, args) =
      (String.intercalate.go buf "," (List.replicate rows.length p), args ++ rows.flatten) := by
  induction rows generalizing i buf args with
  | nil => simp [writeVals, String.intercalate.go]
  | cons r rows ih =>
    simp only [writeVals, Nat.succ_pos, if_true, gt_iff_lt, ih, List.length_cons,
      List.replicate_succ, String.intercalate.go, List.flatten_cons, List.append_assoc]

/-- The loop over the value rows writes one placeholder group for each row,
joined with commas, and appends the rows to the arguments. -/
theorem writeVals_zero (p : String) (r : List Value) (rows : List (List Value)) (buf : String)
    (args : List Value) :
    writeVals p 0 (r :: rows) (buf, args) =
      (buf ++ ",".intercalate (List.replicate (r :: rows).length p), args ++ (r :: rows).flatten) := by
  simp only [writeVals, Nat.lt_irrefl, if_false, gt_iff_lt, writeVals_succ, List.length_cons,
    List.replicate_succ, String.intercalate, intercalate_go_append, List.flatten_cons,
    List.append_assoc]

theorem flatten_length_of_rows (n : Nat) (rows : List (List Value))
    (hrow : ∀ row ∈ rows, row.length = n) : rows.flatten.length = n * rows.length := by
  induction rows with
  | nil => simp
  | cons r rows ih =>
    have h1 : r.length = n := hrow r (List.mem_cons_self r rows)
    have h2 := ih (fun row hr => hrow row (List.mem_cons_of_mem r hr))
    simp only [List.flatten_cons, List.length_append, List.length_cons, h1, h2]
    rw [Nat.mul_succ, Nat.add_comm]

theorem count_intercalate_go (c : Char) (acc s : String) (l : List String) :
    (String.intercalate.go acc s l).data.count c =
      acc.data.count c + (l.map (fun x => s.data.count c + x.data.count c)).sum := by
  induction l generalizing acc with
  | nil => simp [String.intercalate.go]
  | cons a l ih =>
    simp only [String.intercalate.go, ih, String.data_append, List.count_append, List.map_cons,
      List.sum_cons]
    omega

/-- The number of occurrences of a character in a text joined from `k` copies of
a part. -/
theorem count_intercalate_replicate (c : Char) (s p : String) (k : Nat) (hs : s.data.count c = 0) :
    (s.intercalate (List.replicate k p)).data.count c = k * p.data.count c := by
  cases k with
  | zero => simp [String.intercalate]
  | succ k =>
    simp only [List.replicate_succ, String.intercalate, count_intercalate_go, hs, Nat.zero_add,
      List.map_replicate, List.sum_replicate, smul_eq_mul]
    rw [Nat.succ_mul, Nat.add_comm]

/-- The number of placeholders in text. -/
theorem count_group (n : Nat) :
    ("(" ++ ",".intercalate (List.replicate n "?") ++ ")").data.count (Char.ofNat 63) = n := by
  have h := count_intercalate_replicate (Char.ofNat 63) "," "?" n (by decide)
  simp only [String.data_append, List.count_append, h]
  have h1 : ("(" : String).data.count (Char.ofNat 63) = 0 := by decide
  have h2 : (")" : String).data.count (Char.ofNat 63) = 0 := by decide
  have h3 : ("?" : String).data.count (Char.ofNat 63) = 1 := by decide
  rw [h1, h2, h3]
  omega

/-- `ToSQL` of an Update that is built from its clauses. -/
theorem Update.ToSQL_built {W : Type} (h : Helpers) (wh : List W → String × List Value)
    (b : Update W) (hraw : b.RawFullSQL = "") (htab : len b.Table.Expression ≠ 0)
    (hset : b.SetClauses ≠ []) :
    b.ToSQL h wh =
      ((({ b with OrderBys := [], LimitValid := false, OffsetValid := false }).ToSQL h wh).1
        ++ (if b.OrderBys = [] then "" else " ORDER BY " ++ ", ".intercalate b.OrderBys)
        ++ (if b.LimitValid then " LIMIT " ++ FormatUint b.LimitCount else "")
        ++ (if b.OffsetValid then " OFFSET " ++ FormatUint b.OffsetCount else ""),
       (({ b with OrderBys := [], LimitValid := false, OffsetValid := false }).ToSQL h wh).2.1,
       none) := by
  have hlen : b.SetClauses.length ≠ 0 := by
    cases hs : b.SetClauses with
    | nil => exact absurd hs hset
    | cons c cs => simp
  simp only [Update.ToSQL, hraw, htab, hlen, ne_eq, not_true_eq_false, if_false, List.length_nil,
    gt_iff_lt, Nat.lt_irrefl, Bool.false_eq_true]
  rcases hob : b.OrderBys with _ | ⟨o, os⟩
  · cases b.LimitValid <;> cases b.OffsetValid <;>
      simp [String.append_assoc]
  · cases b.LimitValid <;> cases b.OffsetValid <;>
      simp [writeOrderBys_zero, String.append_assoc]

/-- C32 counterexample: an Update made from a full SQL text keeps that text, so
after `Limit(5)` the SQL of `ToSQL` holds no LIMIT clause; and an Update without
SET clauses gives no SQL at all after `Limit(5)`. -/
theorem c32_raw_update_has_no_limit :
    (rawUpdate.Limit 5).ToSQL demoHelpers (fun _ => ("", [])) = ("UPDATE t SET a = 1", [], none) ∧
    (rawUpdate.Limit 5).LimitValid = true ∧
    (({ demoUpdate with SetClauses := [] }).Limit 5).ToSQL demoHelpers (fun _ => ("", [])) =
      ("", [], some (.Empty "[dbr] Update: SetClauses are empty")) := by
  refine ⟨?_, ?_, ?_⟩ <;> decide

/-- C32 (amended): `Limit` overrides any existing LIMIT: `b.Limit(a).Limit(c)` is
`b.Limit(c)`, no other field of the Update is changed, and, for an Update that
`ToSQL` builds from its clauses (no raw SQL, a table, at least one SET clause),
the SQL is the statement without ORDER BY, LIMIT and OFFSET, followed by the
ORDER BY clause if there are columns to order by, then the one clause
`LIMIT c` (the text `LIMIT 0` when c is 0), then the OFFSET clause if an offset
is set. -/
theorem Update.Limit_overrides {W : Type} (h : Helpers) (wh : List W → String × List Value)
    (b : Update W) (a c : Nat) (hraw : b.RawFullSQL = "") (htab : len b.Table.Expression ≠ 0)
    (hset : b.SetClauses ≠ []) :
    (b.Limit a).Limit c = b.Limit c ∧
    ((b.Limit c).LimitCount = c ∧ (b.Limit c).LimitValid = true ∧
      (b.Limit c).RawFullSQL = b.RawFullSQL ∧ (b.Limit c).RawArguments = b.RawArguments ∧
      (b.Limit c).Table = b.Table ∧ (b.Limit c).SetClauses = b.SetClauses ∧
      (b.Limit c).WhereFragments = b.WhereFragments ∧ (b.Limit c).OrderBys = b.OrderBys ∧
      (b.Limit c).OffsetCount = b.OffsetCount ∧ (b.Limit c).OffsetValid = b.OffsetValid) ∧
    (b.Limit c).ToSQL h wh =
      ((({ b with OrderBys := [], LimitValid := false, OffsetValid := false }).ToSQL h wh).1
        ++ (if b.OrderBys = [] then "" else " ORDER BY " ++ ", ".intercalate b.OrderBys)
        ++ (" LIMIT " ++ FormatUint c)
        ++ (if b.OffsetValid then " OFFSET " ++ FormatUint b.OffsetCount else ""),
       (({ b with OrderBys := [], LimitValid := false, OffsetValid := false }).ToSQL h wh).2.1,
       none) ∧
    FormatUint 0 = "0" := by
  refine ⟨rfl, ⟨rfl, rfl, rfl, rfl, rfl, rfl, rfl, rfl, rfl, rfl⟩, ?_, by decide⟩
  have hbase : ({ (b.Limit c) with OrderBys := [], LimitValid := false, OffsetValid := false } :
        Update W).ToSQL h wh =
      ({ b with OrderBys := [], LimitValid := false, OffsetValid := false } : Update W).ToSQL h wh := by
    simp [Update.ToSQL, Update.Limit]
  rw [Update.ToSQL_built h wh (b.Limit c) hraw htab hset, hbase]
  simp [Update.Limit]

theorem Update.Limit_overrides_witness :
    demoUpdate.RawFullSQL = "" ∧ len demoUpdate.Table.Expression ≠ 0 ∧
    demoUpdate.SetClauses ≠ [] ∧
    (demoUpdate.Limit 3).Limit 5 = demoUpdate.Limit 5 :=
  ⟨by decide, by decide, by decide,
    (Update.Limit_overrides demoHelpers (fun _ => ("", [])) demoUpdate 3 5 (by decide) (by decide)
      (by decide)).1⟩

theorem Update.Limit_example :
    (demoUpdate.Limit 5).ToSQL demoHelpers (fun _ => ("", [])) =
      ("UPDATE [t] SET [a] = ? ORDER BY id LIMIT 5 OFFSET 7", [.int 1], none) := by
  decide

/-- C33: `ToSQL` of an Update returns `RawFullSQL` and `RawArguments` unchanged
with a nil error whenever `RawFullSQL` is not empty, whatever the other fields
hold; otherwise it returns an Empty error with an empty string and nil arguments
when the table expression is empty or when there are no SET clauses, and a nil
error in every other case. -/
theorem Update.ToSQL_outcomes {W : Type} (h : Helpers) (wh : List W → String × List Value)
    (b : Update W) :
    (b.RawFullSQL ≠ "" → b.ToSQL h wh = (b.RawFullSQL, b.RawArguments, none)) ∧
    (b.RawFullSQL = "" → (len b.Table.Expression = 0 ∨ b.SetClauses = []) →
      ∃ msg, b.ToSQL h wh = ("", [], some (.Empty msg))) ∧
    (b.RawFullSQL = "" → len b.Table.Expression = 0 →
      b.ToSQL h wh = ("", [], some (.Empty "[dbr] Update: Table is empty"))) ∧
    (b.RawFullSQL = "" → len b.Table.Expression ≠ 0 → b.SetClauses = [] →
      b.ToSQL h wh = ("", [], some (.Empty "[dbr] Update: SetClauses are empty"))) ∧
    (b.RawFullSQL = "" → len b.Table.Expression ≠ 0 → b.SetClauses ≠ [] →
      (b.ToSQL h wh).2.2 = none) := by
  refine ⟨?_, ?_, ?_, ?_, ?_⟩
  · intro hraw
    simp [Update.ToSQL, hraw]
  · intro hraw hor
    by_cases htab : len b.Table.Expression = 0
    · exact ⟨"[dbr] Update: Table is empty", by simp [Update.ToSQL, hraw, htab]⟩
    · rcases hor with h0 | h0
      · exact absurd h0 htab
      · exact ⟨"[dbr] Update: SetClauses are empty", by simp [Update.ToSQL, hraw, htab, h0]⟩
  · intro hraw htab
    simp [Update.ToSQL, hraw, htab]
  · intro hraw htab hset
    simp [Update.ToSQL, hraw, htab, hset]
  · intro hraw htab hset
    rw [Update.ToSQL_built h wh b hraw htab hset]

theorem Update.ToSQL_outcomes_example :
    rawUpdate.ToSQL demoHelpers (fun _ => ("", [])) = ("UPDATE t SET a = 1", [], none) ∧
    ({ rawUpdate with RawFullSQL := "" }).ToSQL demoHelpers (fun _ => ("", [])) =
      ("", [], some (.Empty "[dbr] Update: Table is empty")) ∧
    ({ demoUpdate with SetClauses := [] }).ToSQL demoHelpers (fun _ => ("", [])) =
      ("", [], some (.Empty "[dbr] Update: SetClauses are empty")) ∧
    demoUpdate.ToSQL demoHelpers (fun _ => ("", [])) =
      ("UPDATE [t] SET [a] = ? ORDER BY id OFFSET 7", [.int 1], none) := by
  refine ⟨?_, ?_, ?_, ?_⟩ <;> decide

/-- C40: for an Insert with a table, n >= 1 columns, no Maps, no Recs and
m >= 1 value rows of n values each, `ToSQL` succeeds; the SQL is `INSERT INTO`,
the table, the n quoted columns joined by commas in brackets, `VALUES` and m
groups of n question marks joined by commas; the arguments are the rows
concatenated in the order of insertion (`Values` appends its row at the end),
so the number of question marks after `VALUES` equals the number of arguments,
n*m.  `ToSQL` fails with an Empty error when the table is empty, when there are
neither columns nor Maps, and when there are columns but neither value rows,
records nor Maps. -/
theorem Insert.ToSQL_values (h : Helpers) (b : Insert) (hInto : len b.Into ≠ 0)
    (hCols : b.Cols ≠ []) (hMaps : b.Maps = []) (hRecs : b.Recs = []) (hVals : b.Vals ≠ [])
    (hRow : ∀ row ∈ b.Vals, row.length = b.Cols.length) :
    b.ToSQL h =
      ("INSERT INTO " ++ b.Into ++ " (" ++ ",".intercalate (b.Cols.map h.writeQuotedColumn)
        ++ ") VALUES "
        ++ ",".intercalate (List.replicate b.Vals.length
            ("(" ++ ",".intercalate (List.replicate b.Cols.length "?") ++ ")")),
       b.Vals.flatten, none) ∧
    b.Vals.flatten.length = b.Cols.length * b.Vals.length ∧
    (",".intercalate (List.replicate b.Vals.length
        ("(" ++ ",".intercalate (List.replicate b.Cols.length "?") ++ ")"))).data.count
      (Char.ofNat 63) = b.Vals.flatten.length ∧
    (∀ vals vals1, h.argsValuer vals = .ok vals1 →
      b.Values h vals = .ok { b with Vals := b.Vals ++ [vals1] }) ∧
    (∀ e : Insert, len e.Into = 0 → e.ToSQL h = ("", [], some (.Empty h.errTableMissing))) ∧
    (∀ e : Insert, len e.Into ≠ 0 → e.Cols = [] → e.Maps = [] →
      e.ToSQL h = ("", [], some (.Empty h.errColumnsMissing))) ∧
    (∀ e : Insert, len e.Into ≠ 0 → e.Cols ≠ [] → e.Vals = [] → e.Recs = [] → e.Maps = [] →
      e.ToSQL h = ("", [], some (.Empty h.errRecordsMissing))) := by
  have hlen := flatten_length_of_rows b.Cols.length b.Vals hRow
  refine ⟨?_, hlen, ?_, ?_, ?_, ?_, ?_⟩
  · rcases hc : b.Cols with _ | ⟨c, cs⟩
    · exact absurd hc hCols
    rcases hv : b.Vals with _ | ⟨r, rows⟩
    · exact absurd hv hVals
    simp only [Insert.ToSQL, hInto, hc, hv, hMaps, hRecs, if_false, List.length_cons,
      List.length_nil, Nat.succ_ne_zero, false_and, and_false, true_and, ne_eq,
      not_true_eq_false, writeCols_zero, writeVals_zero, writeRecs, List.nil_append,
      String.append_assoc, gt_iff_lt, Nat.lt_irrefl, or_false, and_self]
  · rw [count_intercalate_replicate _ _ _ _ (by decide), count_group, hlen, Nat.mul_comm]
  · intro vals vals1 hv
    simp [Insert.Values, hv]
  · intro e he
    simp [Insert.ToSQL, he]
  · intro e he hc hm
    simp [Insert.ToSQL, he, hc, hm]
  · intro e he hc hv hr hm
    have hc1 : e.Cols.length ≠ 0 := by
      cases hcs : e.Cols with
      | nil => exact absurd hcs hc
      | cons c cs => simp
    simp [Insert.ToSQL, he, hc1, hv, hr, hm]

theorem Insert.ToSQL_values_witness :
    len demoInsert.Into ≠ 0 ∧ demoInsert.Cols ≠ [] ∧ demoInsert.Vals ≠ [] ∧
    demoInsert.ToSQL demoHelpers =
      ("INSERT INTO " ++ demoInsert.Into ++ " ("
        ++ ",".intercalate (demoInsert.Cols.map demoHelpers.writeQuotedColumn) ++ ") VALUES "
        ++ ",".intercalate (List.replicate demoInsert.Vals.length
            ("(" ++ ",".intercalate (List.replicate demoInsert.Cols.length "?") ++ ")")),
       demoInsert.Vals.flatten, none) :=
  ⟨by decide, by decide, by decide,
    (Insert.ToSQL_values demoHelpers demoInsert (by decide) (by decide) rfl rfl (by decide)
      (by decide)).1⟩

theorem Insert.ToSQL_example :
    demoInsert.ToSQL demoHelpers =
      ("INSERT INTO t ([a],[b]) VALUES (?,?),(?,?)", [.int 1, .int 2, .int 3, .null], none) := by
  decide

end Dbr

namespace NullPkg

/-- C30 (as stated, refuted): a null String whose `String` field is not blank
is not restored by `MarshalText` followed by `UnmarshalText`: the field comes
back blank. -/
theorem c30_null_string_field_lost :
    textRoundTrip (MakeString [] false) (MakeString [120] false) = MakeString [] false ∧
    textRoundTrip (MakeString [] false) (MakeString [120] false) ≠ MakeString [120] false := by
  constructor
  · rfl
  · decide

/-- C30 (amended): `UnmarshalText` never fails and, for every byte sequence,
sets `String` to the text and `Valid` to true exactly when the text is not
empty; `MarshalText` followed by `UnmarshalText` restores every valid non-empty
String, and turns every null String into the null String with a blank `String`
field (so it restores the null Strings whose `String` field is blank). -/
theorem unmarshalText_spec (t s : NullString) (text : Bytes) :
    (t.UnmarshalText text).2 = none ∧
    (t.UnmarshalText text).1.String = text ∧
    ((t.UnmarshalText text).1.Valid = true ↔ text ≠ []) ∧
    ((t.UnmarshalText text).1.Valid = false ↔ text = []) ∧
    (s.Valid = true → s.String ≠ [] → textRoundTrip t s = s) ∧
    (s.Valid = false → textRoundTrip t s = MakeString [] false) ∧
    (s.Valid = false → s.String = [] → textRoundTrip t s = s) := by
  refine ⟨rfl, rfl, ?_, ?_, ?_, ?_, ?_⟩
  · cases text <;> simp [NullString.UnmarshalText]
  · cases text <;> simp [NullString.UnmarshalText]
  · intro hv hs
    rcases s with ⟨str, v⟩
    simp only at hv hs
    subst hv
    cases str with
    | nil => exact absurd rfl hs
    | cons x xs => rfl
  · intro hv
    rcases s with ⟨str, v⟩
    simp only at hv
    subst hv
    rfl
  · intro hv hs
    rcases s with ⟨str, v⟩
    simp only at hv hs
    subst hv hs
    rfl

/-- C31: `UnmarshalJSON`, for input that decodes to a JSON string x (the blank
string included), sets `String` to x and `Valid` to true and returns nil; for
JSON null it sets `Valid` to false and returns nil; for a JSON number, boolean
or array it returns a NotValid error and sets `Valid` to false.  `MarshalJSON`
returns the literal `null` exactly when the String is not valid. -/
theorem unmarshalJSON_spec (lib : JSONLib) (s : NullString) (data x : Bytes) :
    (lib.unmarshal data = .ok (.string x) →
      s.UnmarshalJSON lib data = ({ String := x, Valid := true }, none)) ∧
    (lib.unmarshal data = .ok .null →
      s.UnmarshalJSON lib data = ({ s with Valid := false }, none)) ∧
    (∀ v, lib.unmarshal data = .ok v → (v = .number ∨ (∃ b, v = .bool b) ∨ v = .array) →
      (∃ msg, (s.UnmarshalJSON lib data).2 = some (.NotValid msg)) ∧
      (s.UnmarshalJSON lib data).1.Valid = false) ∧
    ((s.MarshalJSON lib).1 = nullLiteral ↔ s.Valid = false) ∧
    (s.MarshalJSON lib).2 = none := by
  refine ⟨?_, ?_, ?_, ?_, ?_⟩
  · intro h
    simp [NullString.UnmarshalJSON, h]
  · intro h
    simp [NullString.UnmarshalJSON, h]
  · rintro v h (rfl | ⟨b, rfl⟩ | rfl) <;> simp [NullString.UnmarshalJSON, h]
  · cases hv : s.Valid <;>
      simp [NullString.MarshalJSON, hv, jsonMarshalString, nullLiteral]
  · cases hv : s.Valid <;> simp [NullString.MarshalJSON, hv]

theorem unmarshalJSON_spec_example :
    ((MakeString [] false).UnmarshalJSON demoJSON [34, 120, 34]) = (MakeString [120] true, none) ∧
    ((MakeString [120] true).UnmarshalJSON demoJSON [110, 117, 108, 108]).1.Valid = false ∧
    ((MakeString [] false).UnmarshalJSON demoJSON [49]).1.Valid = false := by
  refine ⟨?_, ?_, ?_⟩ <;> rfl

theorem splitBacktick_ne_nil (s : Bytes) : splitBacktick s ≠ [] := by
  cases s with
  | nil => simp [splitBacktick]
  | cons c cs =>
    unfold splitBacktick
    split
    · simp
    · split <;> simp

/-- `strings.Join(strings.Split(s, backtick), sep)` replaces every backtick. -/
theorem join_split (s : Bytes) :
    join (splitBacktick s) backtickJoin = replaceBackticks s := by
  induction s with
  | nil => rfl
  | cons c cs ih =>
    have hne := splitBacktick_ne_nil cs
    rcases hs : splitBacktick cs with _ | ⟨seg, rest⟩
    · exact absurd hs hne
    · rw [hs] at ih
      by_cases hc : c = 96
      · subst hc
        simp only [splitBacktick, if_true, hs, replaceBackticks, ← ih]
        simp [join, List.intercalate, List.intersperse]
      · simp only [splitBacktick, hc, if_false, hs, replaceBackticks, ← ih]
        cases rest <;> simp [join, List.intercalate, List.intersperse]

theorem replaceBackticks_of_not_contains (s : Bytes) (h : s.contains 96 = false) :
    replaceBackticks s = s := by
  induction s with
  | nil => rfl
  | cons c cs ih =>
    simp only [List.contains_cons, Bool.or_eq_false_iff, beq_eq_false_iff_ne, ne_eq] at h
    have hc : ¬ c = 96 := fun e => h.1 e.symm
    simp only [replaceBackticks, hc, if_false, ih h.2]

/-- A byte other than a backtick and a carriage return in front of a raw string
literal comes out in front of the value. -/
theorem concatValue_raw_cons (fuel : Nat) (c : Nat) (y : Bytes) (h1 : c ≠ 96) (h2 : c ≠ 13) :
    concatValue (fuel + 1) (96 :: c :: y) =
      (concatValue (fuel + 1) (96 :: y)).map (fun w => c :: w) := by
  simp only [concatValue, readLiteral, readRaw, h1, if_false, h2]
  rcases readRaw y with _ | ⟨v, _ | ⟨d, rest⟩⟩
  · rfl
  · rfl
  · by_cases hd : d = 43
    · subst hd
      simp only [Option.map_some', Option.map_map]
      rfl
    · simp only [Option.map_some']
      rfl

theorem replaceBackticks_length (s : Bytes) : 2 * s.count 96 ≤ (replaceBackticks s).length := by
  induction s with
  | nil => simp [replaceBackticks]
  | cons c cs ih =>
    by_cases hc : c = 96
    · subst hc
      simp [replaceBackticks, backtickJoin]
      omega
    · have : (c == 96) = false := by simpa using hc
      simp [replaceBackticks, hc, List.count_cons, this]
      omega

/-- The expression written by `GoString` denotes the text it was written for. -/
theorem concatValue_replaceBackticks (s : Bytes) (h : ∀ c ∈ s, c ≠ 13) :
    ∀ fuel, 2 * s.count 96 + 1 ≤ fuel →
      concatValue fuel (96 :: replaceBackticks s ++ [96]) = some s := by
  induction s with
  | nil =>
    intro fuel hf
    obtain ⟨f, rfl⟩ : ∃ f, fuel = f + 1 := ⟨fuel - 1, by omega⟩
    rfl
  | cons c cs ih =>
    have hcs : ∀ d ∈ cs, d ≠ 13 := fun d hd => h d (List.mem_cons_of_mem c hd)
    have hc13 : c ≠ 13 := h c (List.mem_cons_self c cs)
    intro fuel hf
    by_cases hc : c = 96
    · subst hc
      simp only [List.count_cons_self] at hf
      obtain ⟨f, rfl⟩ : ∃ f, fuel = f + 2 := ⟨fuel - 2, by omega⟩
      have ihf : concatValue f (96 :: (replaceBackticks cs ++ [96])) = some cs :=
        ih hcs f (by omega)
      simp only [replaceBackticks, if_true, backtickJoin, List.cons_append, List.nil_append]
      simp only [concatValue, readLiteral, readRaw, if_true, readQuoted]
      simp [ihf]
    · have hb : (c == 96) = false := by simpa using hc
      simp only [List.count_cons, hb, Bool.false_eq_true, if_false, Nat.add_zero] at hf
      obtain ⟨f, rfl⟩ : ∃ f, fuel = f + 1 := ⟨fuel - 1, by omega⟩
      simp only [replaceBackticks, hc, if_false, List.cons_append]
      have ihf : concatValue (f + 1) (96 :: (replaceBackticks cs ++ [96])) = some cs :=
        ih hcs (f + 1) hf
      rw [concatValue_raw_cons f c _ hc hc13, ihf]
      rfl

/-- C38: `GoString` returns `null.String` with an empty pair of braces for every
String that is not valid; for a valid String with value s it returns
`null.StringFrom(` followed by a backtick, s with every backtick replaced by a
backtick, a plus, a quoted backtick, a plus and a backtick, then a backtick and
`)`; read as a Go expression of concatenated string literals, that argument of
`StringFrom` denotes exactly s, for every s without carriage returns. -/
theorem goString_spec (ns : NullString) (s : Bytes) (h : ∀ c ∈ s, c ≠ 13) :
    (ns.Valid = false → ns.GoString = nullStringLiteral) ∧
    (StringFrom s).GoString = stringFromOpen ++ replaceBackticks s ++ [96, 41] ∧
    (ns.Valid = true →
      ns.GoString = stringFromOpen ++ replaceBackticks ns.String ++ [96, 41]) ∧
    goValue (96 :: replaceBackticks s ++ [96]) = some s := by
  have hvalid : ∀ t : NullString, t.Valid = true →
      t.GoString = stringFromOpen ++ replaceBackticks t.String ++ [96, 41] := by
    intro t ht
    rcases t with ⟨str, v⟩
    simp only at ht
    subst ht
    cases hcb : str.contains 96
    · have hmem : 96 ∉ str := by simpa using hcb
      simp [NullString.GoString, hmem, replaceBackticks_of_not_contains str hcb]
    · have hmem : 96 ∈ str := by simpa using hcb
      simp [NullString.GoString, hmem, join_split]
  refine ⟨?_, hvalid _ rfl, hvalid ns, ?_⟩
  · intro hv
    rcases ns with ⟨str, v⟩
    simp only at hv
    subst hv
    simp [NullString.GoString]
  · apply concatValue_replaceBackticks s h
    have := replaceBackticks_length s
    simp only [List.length_cons, List.length_append, List.length_nil]
    omega

theorem goString_spec_witness :
    (∀ c ∈ [97, 96, 98], c ≠ 13) ∧
    (StringFrom [97, 96, 98]).GoString =
      stringFromOpen ++ replaceBackticks [97, 96, 98] ++ [96, 41] ∧
    goValue (96 :: replaceBackticks [97, 96, 98] ++ [96]) = some [97, 96, 98] :=
  ⟨by decide, (goString_spec (MakeString [] false) [97, 96, 98] (by decide)).2.1,
    (goString_spec (MakeString [] false) [97, 96, 98] (by decide)).2.2.2⟩

end NullPkg

namespace LogPkg

theorem StdOption.apply_fatal_foldl (opts : List StdOption) (l : StdLog)
    (h : l.fatal.isSome = true) :
    (opts.foldl (fun l o => o.apply l) l).fatal.isSome = true := by
  induction opts generalizing l with
  | nil => exact h
  | cons o os ih =>
    apply ih
    cases o <;> simp [StdOption.apply, StdLog.SetLevel, h]

/-- A logger made by `NewStdLog` has a fatal sub logger, also after `SetLevel`. -/
theorem NewStdLog_fatal (opts : List StdOption) (level : Int) :
    ((NewStdLog opts).SetLevel level).fatal.isSome = true := by
  have fill : ∀ (sl : StdLog) (g : Logger),
      (if sl.fatal.isNone then { sl with fatal := some g } else sl).fatal.isSome = true := by
    intro sl g
    cases h : sl.fatal <;> simp [h]
  show (NewStdLog opts).fatal.isSome = true
  unfold NewStdLog
  exact fill _ _

/-- C22: `Fatal` does not panic at every level.  After `SetLevel(0)`, or with
the option `WithStdLevel(0)`, `Fatal` hands nothing to the fatal sub logger and
returns normally, whereas the same call on a new logger at its default level
writes the entry and panics with it, as the doc comment of `Fatal` says. -/
theorem c22_fatal_returns_at_level_zero :
    ((NewStdLog []).SetLevel 0).Fatal "" "This is sparta" [] =
      { written := [], panic := none } ∧
    (NewStdLog [.WithStdLevel 0]).Fatal "" "This is sparta" [] =
      { written := [], panic := none } ∧
    (NewStdLog []).Fatal "" "This is sparta" [] =
      { written := [({ out := Stderr, tag := "FATAL ", flag := LstdFlags }, "This is sparta\n")],
        panic := some "This is sparta\n" } := by
  refine ⟨?_, ?_, ?_⟩ <;> rfl

/-- Method `Fatal` goes through the level gate of `log` like `Debug` and `Info`:
on a logger with a fatal sub logger (every logger made by `NewStdLog`, also
after `SetLevel`), it hands the formatted entry to the fatal sub logger and
panics with it when the level is at least `StdLevelFatal`, and it writes
nothing and returns normally when the level is lower. -/
theorem fatal_panics_from_level_fatal (l : StdLog) (g : Logger) (stack msg : String)
    (args : List Arg) (hg : l.fatal = some g) :
    (StdLevelFatal ≤ l.level →
      l.Fatal stack msg args =
        { written := [(g, stdFormat stack msg args l.noTrace)],
          panic := some (stdFormat stack msg args l.noTrace) }) ∧
    (l.level < StdLevelFatal → l.Fatal stack msg args = { written := [], panic := none }) ∧
    (∀ opts level, ((NewStdLog opts).SetLevel level).fatal.isSome = true) := by
  refine ⟨?_, ?_, NewStdLog_fatal⟩
  · intro h
    have h1 : (1 : Int) ≤ l.level := h
    simp [StdLog.Fatal, StdLog.log, h1, panicTo, hg, StdLevelFatal, StdLevelDebug, StdLevelInfo]
  · intro h
    have h1 : l.level < (1 : Int) := h
    simp [StdLog.Fatal, StdLog.log, h1, StdLevelFatal]

theorem fatal_panics_from_level_fatal_witness :
    (NewStdLog [.WithStdWriter 7]).fatal = some { out := 7, tag := "FATAL ", flag := 3 } ∧
    (StdLevelFatal ≤ (NewStdLog [.WithStdWriter 7]).level →
      (NewStdLog [.WithStdWriter 7]).Fatal "" "This is sparta" [] =
        { written := [({ out := 7, tag := "FATAL ", flag := 3 },
            stdFormat "" "This is sparta" [] (NewStdLog [.WithStdWriter 7]).noTrace)],
          panic := some (stdFormat "" "This is sparta" [] (NewStdLog [.WithStdWriter 7]).noTrace) }) :=
  ⟨rfl, (fatal_panics_from_level_fatal (NewStdLog [.WithStdWriter 7])
    { out := 7, tag := "FATAL ", flag := 3 } "" "This is sparta" [] rfl).1⟩

/-- What `stdSetKV` writes is the entry of the key and the value. -/
theorem stdSetKV_eq_entryText (stack key : String) (v : Arg) (noTrace : Bool) :
    stdSetKV stack key v.goSyntax v.err noTrace = entryText stack key v noTrace := by
  unfold stdSetKV entryText valueText Separator AssignmentChar
  cases v.err <;> cases noTrace <;> simp [String.append_assoc]

/-- One step of the loop over the pairs. -/
theorem stdFormatPairs_cons (stack : String) (noTrace : Bool) (i : Nat) (k v : Arg)
    (rest : List Arg) :
    stdFormatPairs stack noTrace i (k :: v :: rest) =
      entryText stack (pairKey i k) v noTrace ++
        stdFormatPairs stack noTrace (i + 2) rest := by
  rw [← stdSetKV_eq_entryText]
  rcases k with ⟨gs, ge, _ | key, e⟩
  · simp [stdFormatPairs, pairKey]
  · by_cases hk : key = "" <;> simp [stdFormatPairs, pairKey, hk]

/-- The loop over the pairs renders the pairs at the indexes 2j and 2j+1 in order. -/
theorem stdFormatPairs_eq (stack : String) (noTrace : Bool) (n : Nat) :
    ∀ (args : List Arg) (i : Nat), args.length = 2 * n →
      stdFormatPairs stack noTrace i args =
        ((List.range n).map (fun j =>
          match args.get? (2 * j), args.get? (2 * j + 1) with
          | some k, some v => entryText stack (pairKey (i + 2 * j) k) v noTrace
          | _, _ => "")).foldr (fun a b => a ++ b) "" := by
  induction n with
  | zero =>
    intro args i h
    have : args = [] := List.length_eq_zero.mp (by simpa using h)
    subst this
    simp [stdFormatPairs]
  | succ m ih =>
    intro args i h
    rcases args with _ | ⟨k, _ | ⟨v, rest⟩⟩
    · simp at h
    · simp at h
      omega
    · have hr : rest.length = 2 * m := by
        simp at h
        omega
      rw [stdFormatPairs_cons, ih rest (i + 2) hr, List.range_succ_eq_map]
      simp only [List.map_cons, List.foldr_cons, List.map_map]
      congr 1
      congr 1
      apply List.map_congr_left
      intro j _
      have e1 : 2 * (j + 1) = (2 * j + 1) + 1 := by omega
      have e2 : 2 * (j + 1) + 1 = ((2 * j + 1) + 1) + 1 := by omega
      have e3 : i + 2 + 2 * j = i + 2 * (j + 1) := by omega
      simp only [Function.comp, Nat.succ_eq_add_one]
      rw [e3]
      conv_rhs => rw [e2]; rw [show 2 * (j + 1) = (2 * j + 1) + 1 from e1]
      simp only [List.get?_cons_succ]
      rw [← e1]

/-- C35: `stdFormat(msg, args)` starts with `msg` and ends with a newline; with
no argument nothing is added; exactly one argument is rendered as the entry of
the key `_` (a blank, the key, a colon and a blank, the value); an even number
of arguments is rendered pair by pair in order, each as the entry of its key, or
of `BAD_KEY_AT_INDEX_i` for a key at index i that is not a string or is the
empty string; an odd number of arguments greater than one is rendered as the one
entry ` FIX_IMBALANCED_PAIRS: ` followed by the slice of all arguments in Go
syntax. -/
theorem stdFormat_spec (stack msg : String) (args : List Arg) (noTrace : Bool) :
    (∃ body, stdFormat stack msg args noTrace = msg ++ body ++ "\n") ∧
    stdFormat stack msg [] noTrace = msg ++ "\n" ∧
    (∀ a, stdFormat stack msg [a] noTrace =
      msg ++ (" " ++ "_" ++ ": " ++ valueText stack a noTrace) ++ "\n") ∧
    (0 < args.length → args.length % 2 = 0 →
      stdFormat stack msg args noTrace = msg ++ renderPairs stack noTrace args ++ "\n") ∧
    (1 < args.length → args.length % 2 = 1 →
      stdFormat stack msg args noTrace =
        msg ++ (" " ++ "FIX_IMBALANCED_PAIRS" ++ ": " ++
          ("[]interface \x7b\x7d\x7b" ++
            ", ".intercalate (args.map (fun a => a.goSyntaxElem)) ++ "\x7d")) ++ "\n") ∧
    (∀ i (k : Arg), pairKey i k =
      match k.str with
      | some key => if key = "" then "BAD_KEY_AT_INDEX_" ++ toString i else key
      | none => "BAD_KEY_AT_INDEX_" ++ toString i) := by
  refine ⟨⟨_, rfl⟩, ?_, ?_, ?_, ?_, fun i k => rfl⟩
  · simp [stdFormat]
  · intro a
    have h := stdSetKV_eq_entryText stack "_" a noTrace
    unfold entryText at h
    simp [stdFormat, h]
  · intro h0 h2
    have hlen : args.length = 2 * (args.length / 2) := by omega
    have h1 : ¬ args.length = 1 := by omega
    have hp := stdFormatPairs_eq stack noTrace (args.length / 2) args 0 hlen
    simp only [Nat.zero_add] at hp
    unfold stdFormat renderPairs
    simp only [h0, if_true, beq_iff_eq, h1, if_false, h2, hp]
  · intro h1 h2
    have h0 : 0 < args.length := by omega
    have hne : ¬ args.length = 1 := by omega
    have hodd : ¬ args.length % 2 = 0 := by omega
    unfold stdFormat
    simp only [h0, if_true, beq_iff_eq, hne, if_false, hodd]
    rfl

theorem stdFormat_spec_example :
    stdFormat "" "my Debug3"
      [strArg "key3" "\"key3\"", natArg 3105, natArg 4711, strArg "Hello" "\"Hello\""] false =
      "my Debug3 key3: 3105 BAD_KEY_AT_INDEX_2: \"Hello\"\n" ∧
    stdFormat "" "InfoTEST" [strArg "keyI" "\"keyI\"", natArg 117, natArg 2009] false =
      "InfoTEST FIX_IMBALANCED_PAIRS: []interface \x7b\x7d\x7b\"keyI\", 117, 2009\x7d\n" ∧
    stdFormat "" "InfoTEST" [strArg "Now we have the salad" "\"Now we have the salad\""] false =
      "InfoTEST _: \"Now we have the salad\"\n" ∧
    stdFormat "" "my Debug2" [strArg "" "\"\"", natArg 2] false =
      "my Debug2 BAD_KEY_AT_INDEX_0: 2\n" ∧
    stdFormat "" "InfoTEST" [] false = "InfoTEST\n" ∧
    stdFormat "" "m" [ptrArg] false = "m _: &main.T\x7bA:1\x7d\n" ∧
    stdFormat "" "m" [ptrArg, natArg 1, natArg 2] false =
      "m FIX_IMBALANCED_PAIRS: []interface \x7b\x7d\x7b(*main.T)(0xc000010000), 1, 2\x7d\n" ∧
    stdFormat "trace" "m" [strArg "e" "\"e\"", errArg "boom" "&errors.errorString\x7bs:\"boom\"\x7d"]
      false = "m e: boom\ntrace\n" ∧
    stdFormat "trace" "m" [errArg "boom" "&errors.errorString\x7bs:\"boom\"\x7d"] true =
      "m _: boom\n" := by
  refine ⟨?_, ?_, ?_, ?_, ?_, ?_, ?_, ?_, ?_⟩ <;> rfl

/-- Options other than `WithStdLevel` leave the level alone. -/
theorem foldl_apply_level (opts : List StdOption) (l : StdLog)
    (h : ∀ o ∈ opts, ∀ lv, o ≠ StdOption.WithStdLevel lv) :
    (opts.foldl (fun l o => o.apply l) l).level = l.level := by
  induction opts generalizing l with
  | nil => rfl
  | cons o os ih =>
    have ho := h o (List.mem_cons_self o os)
    have hos : ∀ o2 ∈ os, ∀ lv, o2 ≠ StdOption.WithStdLevel lv :=
      fun o2 h2 => h o2 (List.mem_cons_of_mem o h2)
    rw [List.foldl_cons, ih _ hos]
    cases o <;> simp [StdOption.apply] at ho ⊢

/-- A logger made without a level option is at `StdLevelInfo`. -/
theorem NewStdLog_level (opts : List StdOption)
    (h : ∀ o ∈ opts, ∀ lv, o ≠ StdOption.WithStdLevel lv) :
    (NewStdLog opts).level = StdLevelInfo := by
  have hl := foldl_apply_level opts
    { gw := Stderr, level := StdLevelInfo, flag := LstdFlags, noTrace := false,
      debug := none, info := none, fatal := none } h
  unfold NewStdLog
  simp only
  split <;> split <;> split <;> exact hl

/-- C36: on a logger with its three sub loggers, an entry of level Debug, Info
or Fatal is written if and only if the level of the logger is at least that
level; `IsDebug()` holds iff the level is at least `StdLevelDebug` and
`IsInfo()` iff it is at least `StdLevelInfo`, so `IsDebug()` implies
`IsInfo()`; after `SetLevel(StdLevelInfo)` a Debug entry is not written while
an Info entry is; a new StdLog without a level option is at `StdLevelInfo`. -/
theorem level_gating (l : StdLog) (d i f : Logger) (stack msg : String) (args : List Arg)
    (hd : l.debug = some d) (hi : l.info = some i) (hf : l.fatal = some f) :
    ((l.Debug stack msg args).written ≠ [] ↔ l.level ≥ StdLevelDebug) ∧
    ((l.Info stack msg args).written ≠ [] ↔ l.level ≥ StdLevelInfo) ∧
    ((l.Fatal stack msg args).written ≠ [] ↔ l.level ≥ StdLevelFatal) ∧
    (l.IsDebug = true ↔ l.level ≥ StdLevelDebug) ∧
    (l.IsInfo = true ↔ l.level ≥ StdLevelInfo) ∧
    (l.IsDebug = true → l.IsInfo = true) ∧
    ((l.SetLevel StdLevelInfo).Debug stack msg args).written = [] ∧
    ((l.SetLevel StdLevelInfo).Info stack msg args).written =
      [(i, stdFormat stack msg args l.noTrace)] ∧
    (∀ opts : List StdOption, (∀ o ∈ opts, ∀ lv, o ≠ StdOption.WithStdLevel lv) →
      (NewStdLog opts).level = StdLevelInfo) := by
  refine ⟨?_, ?_, ?_, ?_, ?_, ?_, ?_, ?_, NewStdLog_level⟩
  · by_cases h : l.level ≥ 3 <;>
      simp [StdLog.Debug, StdLog.log, printTo, hd, StdLevelDebug, h]
  · by_cases h : l.level ≥ 2 <;>
      simp [StdLog.Info, StdLog.log, printTo, hi, StdLevelDebug, StdLevelInfo, h]
  · by_cases h : l.level ≥ 1 <;>
      simp [StdLog.Fatal, StdLog.log, panicTo, hf, StdLevelDebug, StdLevelInfo, StdLevelFatal, h]
  · simp [StdLog.IsDebug]
  · simp [StdLog.IsInfo]
  · simp only [StdLog.IsDebug, StdLog.IsInfo, decide_eq_true_eq, StdLevelDebug, StdLevelInfo]
    intro h
    omega
  · simp [StdLog.Debug, StdLog.log, StdLog.SetLevel, StdLevelDebug, StdLevelInfo]
  · simp [StdLog.Info, StdLog.log, StdLog.SetLevel, printTo, hi, StdLevelDebug, StdLevelInfo]

theorem level_gating_witness :
    (NewStdLog [.WithStdWriter 7]).debug = some { out := 7, tag := "DEBUG ", flag := 3 } ∧
    (NewStdLog [.WithStdWriter 7]).info = some { out := 7, tag := "INFO ", flag := 3 } ∧
    (NewStdLog [.WithStdWriter 7]).fatal = some { out := 7, tag := "FATAL ", flag := 3 } ∧
    (((NewStdLog [.WithStdWriter 7]).Debug "" "my Debug" []).written ≠ [] ↔
      (NewStdLog [.WithStdWriter 7]).level ≥ StdLevelDebug) :=
  ⟨rfl, rfl, rfl, (level_gating (NewStdLog [.WithStdWriter 7])
    { out := 7, tag := "DEBUG ", flag := 3 } { out := 7, tag := "INFO ", flag := 3 }
    { out := 7, tag := "FATAL ", flag := 3 } "" "my Debug" [] rfl rfl rfl).1⟩

end LogPkg

namespace Csdb

/-- Method `update` leaves a table without columns as it is. -/
theorem Table.update_of_no_columns {C : Type} (m : ColumnsMethods C) (t : Table C)
    (h : t.Columns = []) : t.update m = t := by
  simp [Table.update, h]

/-- Method `update` calculates the cached fields of a table that has columns. -/
theorem Table.update_of_columns {C : Type} (m : ColumnsMethods C) (t : Table C)
    (h : t.Columns ≠ []) : (t.update m).Columns = t.Columns ∧ (t.update m).Calculated m := by
  have hl : t.Columns.length ≠ 0 := by
    cases hc : t.Columns with
    | nil => exact absurd hc h
    | cons c cs => simp
  simp [Table.update, hl, Table.Calculated]

/-- C34: method `update` does not recalculate the cached fields when the columns
have become empty.  The example table holds a primary key `id` and a unique key
`sku`; after `LoadColumns` has set `Columns` to the empty list and has called
`update`, the columns are empty, but `fieldsPK`, `fieldsUNI`, `fields`,
`CountPK` and `CountUnique` still hold the values of the former columns, whereas
the values calculated from the empty columns are empty and zero. -/
theorem c34_update_keeps_stale_caches :
    demoTable.Calculated demoMethods ∧
    demoTable.fieldsPK = ["id"] ∧ demoTable.CountPK = 1 ∧
    reloadedTable.Columns = [] ∧
    reloadedTable.fieldsPK = ["id"] ∧ reloadedTable.fieldsUNI = ["sku"] ∧
    reloadedTable.fields = ["sku", "name"] ∧
    reloadedTable.CountPK = 1 ∧ reloadedTable.CountUnique = 1 ∧
    demoMethods.FieldNames (demoMethods.PrimaryKeys reloadedTable.Columns) = [] ∧
    demoMethods.Len (demoMethods.PrimaryKeys reloadedTable.Columns) = 0 ∧
    ¬ reloadedTable.Calculated demoMethods := by
  refine ⟨?_, ?_, ?_, ?_, ?_, ?_, ?_, ?_, ?_, ?_, ?_, ?_⟩
  · unfold Table.Calculated
    decide
  all_goals first
    | decide
    | (unfold Table.Calculated; decide)

end Csdb
